import Mathlib

/-!
# Themis DAC board: shallow embedding of `dac_board.c`

The control core of the synthesizer voice board (`src/dac-board-F767ZI/Src/dac_board.c`)
is embedded as pure functions over an explicit engine state.

Conventions of the embedding:

* The C `double` values that the program stores (levels, targets, deltas, times) are
  exact rationals (`ℚ`), and the sums, products and quotients that update them are
  exact; a quotient whose divisor is zero is `0` here (IEEE arithmetic gives an infinity
  or a NaN), so every statement that depends on a quotient carries the hypothesis that
  the divisor is not zero.
* Where a level is converted to the integer that is sent to a chip (`dacVcaWrite`,
  `dacVcfCutoffWrite`) the rounding of the two `double` operations of the conversion is
  part of the embedding (`roundDouble`: binary64, to nearest, ties to even), because it
  decides the integer. The conversions of a control value in `setMidiCCParam` are
  evaluated exactly: the statements on them are about which outputs are written and how
  many times, not about the integer.
* In `double` arithmetic a ramp whose step is not a binary fraction accumulates rounding
  errors and can cross its threshold one tick later than the exact ramp. Where the
  levels or the tick numbers of such a ramp are given (steps of 1/10 or 1/40), they are
  those of the exact ramp; with steps that are binary fractions (1/8, 1/16, 1/32) the
  exact levels are the levels of the `double` program. The general statements on the
  end of a release and on the sustain plateau do not fix a number of ticks.
* C `int` values are `Int`, bytes (`uint8_t`) are `Nat` reduced modulo 256 where the
  program stores into a byte. The `int` counters are reset or bounded long before
  `2^31`, so no wrap-around of `int` is modelled.
* A read outside a C array has no defined result: the functions that index an array
  return `Option`, with `none` for such a read.
* Hardware effects (GPIO writes, SPI transmit requests) are appended, in program order,
  to the `trace` field of the engine state.
* The headers `dac_board.h`, `midi.h`, `adsr.h` are not part of the sources: the macros
  they define are the fields of `Config`, the enumerations are rebuilt from the `case`
  labels of the switches that use them.
-/

namespace Themis

/-! ## Calibration tables -/

/-- Array `midiToVCO3340CV[128]` (dac_board.c, lines 157-167). -/
def midiToVCO3340CV : List Int :=
  [ 0, 0, 0, 0, 0, 0, 0, 0, 0, 0, 0, 0,
    0, 0, 0, 0, 0, 0, 0, 0, 0, 0, 0, 0,
    0, 0, 0, 0, 0, 0, 0, 0, 0, 0, 0, 0,
    442, 483, 525, 570, 612, 657, 701, 745, 787, 833, 874, 918,
    961, 1003, 1048, 1091, 1134, 1179, 1222, 1265, 1311, 1357, 1396, 1441,
    1486, 1530, 1575, 1613, 1658, 1703, 1746, 1792, 1838, 1881, 1917, 1963,
    0, 0, 0, 0, 0, 0, 0, 0, 0, 0, 0, 0,
    0, 0, 0, 0, 0, 0, 0, 0, 0, 0, 0, 0,
    0, 0, 0, 0, 0, 0, 0, 0, 0, 0, 0, 0,
    0, 0, 0, 0, 0, 0, 0, 0, 0, 0, 0, 0,
    0, 0, 0, 0, 0, 0, 0, 0 ]

/-- Array `midiToVCO13700CV[128]` (dac_board.c, lines 170-180). -/
def midiToVCO13700CV : List Int :=
  [ 0, 0, 0, 0, 0, 0, 0, 0, 0, 0, 0, 0,
    0, 0, 0, 0, 0, 0, 0, 0, 0, 0, 0, 0,
    0, 0, 0, 0, 0, 0, 0, 0, 0, 0, 0, 0,
    442, 483, 525, 570, 612, 657, 701, 745, 787, 833, 874, 918,
    961, 1003, 1048, 1091, 1134, 1179, 1222, 1265, 1311, 1357, 1396, 1441,
    1486, 1530, 1575, 1613, 1658, 1703, 1746, 1792, 1838, 1881, 1917, 1963,
    0, 0, 0, 0, 0, 0, 0, 0, 0, 0, 0, 0,
    0, 0, 0, 0, 0, 0, 0, 0, 0, 0, 0, 0,
    0, 0, 0, 0, 0, 0, 0, 0, 0, 0, 0, 0,
    0, 0, 0, 0, 0, 0, 0, 0, 0, 0, 0, 0,
    0, 0, 0, 0, 0, 0, 0, 0 ]

/-- Array `demoNotes[]` (dac_board.c, line 95). -/
def demoNotes : List Int := [36, 48, 36, 48]

/-- Macro `DEMO_NOTES_LEN` (dac_board.c, line 94). -/
def DEMO_NOTES_LEN : Int := 4

/-! ## Data model -/

/-- States of an envelope machine (`machineState`; the enumeration is declared in the
absent `adsr.h`, its members are the `case` labels of the two update functions). -/
inductive MachineState where
  | IDLE
  | ATTACK
  | DECAY
  | RELEASE
  deriving DecidableEq, Repr

/-- Struct `AdsrParams` (fields as initialised at dac_board.c, lines 102-107). -/
structure AdsrParams where
  attackTimeMs : ℚ
  decayTimeMs : ℚ
  releaseTimeMs : ℚ
  sustainLevel : ℚ
  deriving DecidableEq, Repr

/-- Struct `StateMachineVca`: the fields the program reads or writes. -/
structure StateMachineVca where
  velocitySensitivity : ℚ
  machineState : MachineState
  amplitude : ℚ
  tmpTargetLevel : ℚ
  tmpDelta : ℚ
  deriving DecidableEq, Repr

/-- Struct `StateMachineVcf`: the fields the program reads or writes. The step counters
`t` and `tMax` are kept as exact quotients; they agree with integer counters whenever
the step budget `timeMs / ADSR_TIMER_PERIOD_MS` is an integer. -/
structure StateMachineVcf where
  t : ℚ
  tMax : ℚ
  velocitySensitivity : ℚ
  kbdTracking : ℚ
  envAmount : ℚ
  machineState : MachineState
  cutoffFrequency : ℚ
  tmpTargetLevel : ℚ
  tmpDelta : ℚ
  tmpKbdtrackingShiftFactor : ℚ
  deriving DecidableEq, Repr

/-- Struct `GlobalSynthParams`. -/
structure GlobalSynthParams where
  vcfCutoff : ℚ
  vcfResonance : ℚ
  deriving DecidableEq, Repr

/-- Struct `VcoParameters`. -/
structure VcoParameters where
  detune : ℚ
  octave : Int
  deriving DecidableEq, Repr

/-- Struct `DrumTriggers`: one countdown counter per drum voice. -/
structure DrumTriggers where
  bassdrumCounter : Int
  rimshotCounter : Int
  snareCounter : Int
  lowtomCounter : Int
  hightomCounter : Int
  deriving DecidableEq, Repr

/-- Struct `MidiNote`: the note of the last NOTE ON message (two bytes). -/
structure MidiNote where
  note : Nat
  velocity : Nat
  deriving DecidableEq, Repr

/-- GPIO lines written by the program (port/pin macro pairs). -/
inductive Pin where
  | LS138_A0
  | LS138_A1
  | LS138_A2
  | DAC_CS
  | LD2
  | LD3
  | SYNC_3340
  | VCF_2NDORDER
  | VCF_4THORDER
  | TRI_3340
  | SAW_3340
  | PULSE_3340
  | DRUM_KICK
  | DRUM_RIM
  | DRUM_SNARE
  | DRUM_LOWTOM
  | DRUM_HIGHTOM
  deriving DecidableEq, Repr

/-- One hardware effect: `HAL_GPIO_WritePin(pin, level)` with `true` for `GPIO_PIN_SET`,
or `HAL_SPI_Transmit_IT(hspiDacs, txSpiDacsBuff, 2)` with the two buffer bytes. -/
inductive HwEvent where
  | gpioWrite (pin : Pin) (level : Bool)
  | spiTransmit (byte0 byte1 : Nat)
  deriving DecidableEq, Repr

/-- Logical outputs: the members of enum `Dac` named in the switch of `dacWrite`. -/
inductive Dac where
  | DAC_VCO_13700
  | DAC_NOISE
  | DAC_V2140D_13700_SQU_LVL
  | DAC_V2140D_IN3
  | DAC_V2140D_13700_SUBBASS_LVL
  | DAC_V2140D_IN4
  | DAC_V2140D_3340_LVL
  | DAC_V2140D_IN1
  | DAC_V2140D_13700_TRI_LVL
  | DAC_V2140D_IN2
  | DAC_VCO_3340_FREQ
  | DAC_VCO_3340_PWM_DUTY
  | DAC_V2140D_SH_LVL
  | DAC_V2140D_IN7
  | DAC_V2140D_VCA
  | DAC_V2140D_IN8
  | DAC_V2140D_FM_LVL
  | DAC_V2140D_IN5
  | DAC_V2140D_RINGMOD_LVL
  | DAC_V2140D_IN6
  | DAC_VCF_CUTOFF
  | DAC_VCF_RES
  | DAC_EN_RABE_A
  | DAC_EN_RABE_B
  deriving DecidableEq, Repr

/-- The four channel/gain selector macros passed to `dac4822ABWrite`. -/
inductive Mcp4822Channel where
  | MCP4822_CHANNEL_A
  | MCP4822_CHANNEL_B
  | MCP4822_CHANNEL_A_GAIN2
  | MCP4822_CHANNEL_B_GAIN2
  deriving DecidableEq, Repr

/-- Control-change parameters: the members of enum `MidiCCParam` named in the switch of
`setMidiCCParam`. -/
inductive MidiCCParam where
  | VCA_ATTACK
  | VCA_DECAY
  | VCA_SUSTAIN
  | VCA_RELEASE
  | VCF_ATTACK
  | VCF_DECAY
  | VCF_SUSTAIN
  | VCF_RELEASE
  | VCA_VELOCITY_SENSITIVITY
  | VCF_VELOCITY_SENSITIVITY
  | VCF_RESONANCE
  | VCF_CUTOFF
  | PWM_3340
  | SYNC_3340
  | VCF_ORDER
  | WAVE_3340
  | OCTAVE_3340
  | LEVEL_3340
  | DETUNE_13700
  | DETUNE_3340
  | LEVEL_13700
  | OCTAVE_13700
  | WAVE_13700
  | VCF_KBDTRACKING
  | VCA_EG
  | VCF_EG
  deriving DecidableEq, Repr

/-- The macros of the absent headers, taken as parameters of the program.
`ccParam` is the numbering of enum `MidiCCParam`: the member, if any, whose value is the
given byte. `channelCode` gives the numeric value of each selector macro. The `case`
labels of one C switch are pairwise distinct; the embedding tests them in source order,
and the statements that need two labels to differ say so. -/
structure Config where
  NOTE_ON : Nat
  NOTE_OFF : Nat
  CONTROL_CHANGE : Nat
  DRUM_CHANNEL : Nat
  BASS_DRUM_NOTE : Nat
  RIMSHOT_NOTE : Nat
  SNARE_NOTE : Nat
  LOWTOM_NOTE : Nat
  HIGHTOM_NOTE : Nat
  ccParam : Nat → Option MidiCCParam
  channelCode : Mcp4822Channel → Int
  ADSR_TIMER_PERIOD_MS : ℚ
  ADSR_TIMER_PERIOD_FACTOR : Int
  MAX_ATTACK_TIME : ℚ
  MAX_DECAY_TIME : ℚ
  MAX_RELEASE_TIME : ℚ
  MAX_SUSTAIN_LVL : ℚ
  MAX_VC_SENSI : ℚ
  MAX_MIXER : ℚ
  MAX_KBD_TRACKING : ℚ

/-- The module-level variables of `dac_board.c` that the handlers read or write, and the
trace of hardware effects issued so far (oldest first). -/
structure Engine where
  vcaAdsr : AdsrParams
  stateMachineVca : StateMachineVca
  vcfAdsr : AdsrParams
  stateMachineVcf : StateMachineVcf
  globalParams : GlobalSynthParams
  vco13700 : VcoParameters
  vco3340 : VcoParameters
  drumTriggers : DrumTriggers
  midiNote : MidiNote
  adsrInterruptCounter : Int
  demoMode : Int
  demoCounter : Int
  demoNoteCounter : Int
  trace : List HwEvent
  deriving DecidableEq, Repr

/-! ## Output addressing layer and transport -/

/-- Conversion of a C `int` to `uint8_t`: reduction modulo 256. -/
def toUint8 (x : Int) : Nat := (x % 256).toNat

/-- Conversion of a C `double` to `int`: truncation toward zero. -/
def cTrunc (q : ℚ) : Int := Int.tdiv q.num q.den

/-- Rounding of a rational to the nearest integer, a tie going to the even one. -/
def roundHalfEven (x : ℚ) : Int :=
  let f := ⌊x⌋
  if x - f < 1 / 2 then f
  else if 1 / 2 < x - f then f + 1
  else if f % 2 = 0 then f else f + 1

/-- The `double` that a C operation with exact result `q` yields: `q` rounded to a
significand of 53 bits, to nearest, ties to even (IEEE 754 binary64, the rounding mode
of the target). The bounds of the exponent are not modelled: the results rounded in this
file lie between `2^-53` and `4095`, or are `0`. -/
def roundDouble (q : ℚ) : ℚ :=
  if q = 0 then 0
  else
    let e := Int.log 2 |q|
    let m := roundHalfEven (|q| / 2 ^ (e - 52))
    (if q < 0 then -1 else 1) * m * 2 ^ (e - 52)

/-- Append one hardware effect to the trace. -/
def emit (e : HwEvent) (s : Engine) : Engine :=
  { s with trace := s.trace ++ [e] }

/-- Call `HAL_GPIO_WritePin(port, pin, level)`. -/
def HAL_GPIO_WritePin (pin : Pin) (level : Bool) (s : Engine) : Engine :=
  emit (HwEvent.gpioWrite pin level) s

/-- Function `dacSelect` (dac_board.c, lines 188-259): drives A2, A1, A0 of the 3-to-8
decoder, in that order. -/
def dacSelect (chipNumber : Int) (s : Engine) : Engine :=
  let chipNumber := Int.land chipNumber 0x07
  let drive (a2 a1 a0 : Bool) : Engine :=
    HAL_GPIO_WritePin Pin.LS138_A0 a0
      (HAL_GPIO_WritePin Pin.LS138_A1 a1 (HAL_GPIO_WritePin Pin.LS138_A2 a2 s))
  if chipNumber = 0 then drive false false false
  else if chipNumber = 1 then drive false false true
  else if chipNumber = 2 then drive false true false
  else if chipNumber = 3 then drive false true true
  else if chipNumber = 4 then drive true false false
  else if chipNumber = 5 then drive true false true
  else if chipNumber = 6 then drive true true false
  else if chipNumber = 7 then drive true true true
  else s

/-- The word kept by `dac4822ABWrite` before it is split into bytes (lines 270-271):
negative values become 0, then the value is masked with `0xFFF`. -/
def maskWord12 (word12bits : Int) : Int :=
  let word12bits := if word12bits < 0 then 0 else word12bits
  Int.land word12bits 0xFFF

/-- Contents of `txSpiDacsBuff` as filled by `dac4822ABWrite` (lines 270-277). -/
def txSpiDacsBuff (word12bits channelAB : Int) : Nat × Nat :=
  let word12bits := maskWord12 word12bits
  (toUint8 (Int.lor (Int.land (word12bits >>> (8 : Nat)) 0x0F) channelAB),
   toUint8 (Int.land word12bits 0xFF))

/-- Function `dac4822ABWrite` (dac_board.c, lines 268-283). -/
def dac4822ABWrite (word12bits chip channelAB : Int) (s : Engine) : Engine :=
  let s := dacSelect chip s
  let buff := txSpiDacsBuff word12bits channelAB
  let s := HAL_GPIO_WritePin Pin.DAC_CS false s
  emit (HwEvent.spiTransmit buff.1 buff.2) s

/-- The switch of `dacWrite` (dac_board.c, lines 291-365): chip number and selector
macro used for each logical output. -/
def dacRoute : Dac → Int × Mcp4822Channel
  | Dac.DAC_VCO_13700 => (0, Mcp4822Channel.MCP4822_CHANNEL_A_GAIN2)
  | Dac.DAC_NOISE => (0, Mcp4822Channel.MCP4822_CHANNEL_B)
  | Dac.DAC_V2140D_13700_SQU_LVL => (1, Mcp4822Channel.MCP4822_CHANNEL_A)
  | Dac.DAC_V2140D_IN3 => (1, Mcp4822Channel.MCP4822_CHANNEL_A)
  | Dac.DAC_V2140D_13700_SUBBASS_LVL => (1, Mcp4822Channel.MCP4822_CHANNEL_B)
  | Dac.DAC_V2140D_IN4 => (1, Mcp4822Channel.MCP4822_CHANNEL_B)
  | Dac.DAC_V2140D_3340_LVL => (2, Mcp4822Channel.MCP4822_CHANNEL_A)
  | Dac.DAC_V2140D_IN1 => (2, Mcp4822Channel.MCP4822_CHANNEL_A)
  | Dac.DAC_V2140D_13700_TRI_LVL => (2, Mcp4822Channel.MCP4822_CHANNEL_B)
  | Dac.DAC_V2140D_IN2 => (2, Mcp4822Channel.MCP4822_CHANNEL_B)
  | Dac.DAC_VCO_3340_FREQ => (3, Mcp4822Channel.MCP4822_CHANNEL_A_GAIN2)
  | Dac.DAC_VCO_3340_PWM_DUTY => (3, Mcp4822Channel.MCP4822_CHANNEL_B)
  | Dac.DAC_V2140D_SH_LVL => (4, Mcp4822Channel.MCP4822_CHANNEL_A)
  | Dac.DAC_V2140D_IN7 => (4, Mcp4822Channel.MCP4822_CHANNEL_A)
  | Dac.DAC_V2140D_VCA => (4, Mcp4822Channel.MCP4822_CHANNEL_B)
  | Dac.DAC_V2140D_IN8 => (4, Mcp4822Channel.MCP4822_CHANNEL_B)
  | Dac.DAC_V2140D_FM_LVL => (5, Mcp4822Channel.MCP4822_CHANNEL_A)
  | Dac.DAC_V2140D_IN5 => (5, Mcp4822Channel.MCP4822_CHANNEL_A)
  | Dac.DAC_V2140D_RINGMOD_LVL => (5, Mcp4822Channel.MCP4822_CHANNEL_B)
  | Dac.DAC_V2140D_IN6 => (5, Mcp4822Channel.MCP4822_CHANNEL_B)
  | Dac.DAC_VCF_CUTOFF => (6, Mcp4822Channel.MCP4822_CHANNEL_A)
  | Dac.DAC_VCF_RES => (6, Mcp4822Channel.MCP4822_CHANNEL_B)
  | Dac.DAC_EN_RABE_A => (7, Mcp4822Channel.MCP4822_CHANNEL_A)
  | Dac.DAC_EN_RABE_B => (7, Mcp4822Channel.MCP4822_CHANNEL_B)

/-- Function `dacWrite` (dac_board.c, lines 289-366). -/
def dacWrite (c : Config) (word12bits : Int) (targetDac : Dac) (s : Engine) : Engine :=
  dac4822ABWrite word12bits (dacRoute targetDac).1 (c.channelCode (dacRoute targetDac).2) s

/-- Function `dacVcaWrite` (dac_board.c, lines 385-393). The expression
`(int)((1.0-amplitude) * 4095)` is two `double` operations, each of which rounds, and a
truncation. -/
def dacVcaWrite (c : Config) (amplitude : ℚ) (s : Engine) : Engine :=
  let amplitude := if amplitude < 0 then 0 else if amplitude > 1 then 1 else amplitude
  let i := cTrunc (roundDouble (roundDouble (1 - amplitude) * 4095))
  dacWrite c i Dac.DAC_V2140D_VCA s

/-- Function `dacVcfCutoffWrite` (dac_board.c, lines 399-407). The expression
`(int)((1.0-cutoff) * 4095)` is two `double` operations, each of which rounds, and a
truncation. -/
def dacVcfCutoffWrite (c : Config) (cutoff : ℚ) (s : Engine) : Engine :=
  let cutoff := if cutoff > 1 then 1 else if cutoff < 0 then 0 else cutoff
  let i := cTrunc (roundDouble (roundDouble (1 - cutoff) * 4095))
  dacWrite c i Dac.DAC_VCF_CUTOFF s

/-- Callback `HAL_SPI_TxCpltCallback` for the DAC bus (dac_board.c, lines 414-420): the
end of a transfer raises the chip-select line. -/
def HAL_SPI_TxCpltCallback (s : Engine) : Engine :=
  HAL_GPIO_WritePin Pin.DAC_CS true s

/-- Which of the two physical channels of a chip a selector macro addresses. -/
def Mcp4822Channel.isChannelB : Mcp4822Channel → Bool
  | Mcp4822Channel.MCP4822_CHANNEL_A => false
  | Mcp4822Channel.MCP4822_CHANNEL_A_GAIN2 => false
  | Mcp4822Channel.MCP4822_CHANNEL_B => true
  | Mcp4822Channel.MCP4822_CHANNEL_B_GAIN2 => true

/-- The alias pairs of the file header (dac_board.c, lines 11-20): mixer input `inN`
and the level it carries. -/
def mixerAlias : Dac → Dac → Bool
  | Dac.DAC_V2140D_IN1, Dac.DAC_V2140D_3340_LVL => true
  | Dac.DAC_V2140D_IN2, Dac.DAC_V2140D_13700_TRI_LVL => true
  | Dac.DAC_V2140D_IN3, Dac.DAC_V2140D_13700_SQU_LVL => true
  | Dac.DAC_V2140D_IN4, Dac.DAC_V2140D_13700_SUBBASS_LVL => true
  | Dac.DAC_V2140D_IN5, Dac.DAC_V2140D_FM_LVL => true
  | Dac.DAC_V2140D_IN6, Dac.DAC_V2140D_RINGMOD_LVL => true
  | Dac.DAC_V2140D_IN7, Dac.DAC_V2140D_SH_LVL => true
  | Dac.DAC_V2140D_IN8, Dac.DAC_V2140D_VCA => true
  | _, _ => false

/-- All logical outputs, in the order of the switch of `dacWrite`. -/
def allDacs : List Dac :=
  [ Dac.DAC_VCO_13700, Dac.DAC_NOISE, Dac.DAC_V2140D_13700_SQU_LVL, Dac.DAC_V2140D_IN3,
    Dac.DAC_V2140D_13700_SUBBASS_LVL, Dac.DAC_V2140D_IN4, Dac.DAC_V2140D_3340_LVL,
    Dac.DAC_V2140D_IN1, Dac.DAC_V2140D_13700_TRI_LVL, Dac.DAC_V2140D_IN2,
    Dac.DAC_VCO_3340_FREQ, Dac.DAC_VCO_3340_PWM_DUTY, Dac.DAC_V2140D_SH_LVL,
    Dac.DAC_V2140D_IN7, Dac.DAC_V2140D_VCA, Dac.DAC_V2140D_IN8, Dac.DAC_V2140D_FM_LVL,
    Dac.DAC_V2140D_IN5, Dac.DAC_V2140D_RINGMOD_LVL, Dac.DAC_V2140D_IN6,
    Dac.DAC_VCF_CUTOFF, Dac.DAC_VCF_RES, Dac.DAC_EN_RABE_A, Dac.DAC_EN_RABE_B ]

/-! ## Envelope state machines -/

/-- Function `updateVCAEnveloppeStateMachine` (dac_board.c, lines 552-590). -/
def updateVCAEnveloppeStateMachine (c : Config) (s : Engine) : Engine :=
  match s.stateMachineVca.machineState with
  | MachineState.IDLE => s
  | MachineState.ATTACK =>
    let s := dacVcaWrite c s.stateMachineVca.amplitude s
    let s := { s with stateMachineVca := { s.stateMachineVca with
      amplitude := s.stateMachineVca.amplitude + s.stateMachineVca.tmpDelta } }
    if s.stateMachineVca.amplitude ≥ s.stateMachineVca.tmpTargetLevel then
      let s := { s with stateMachineVca := { s.stateMachineVca with
        tmpTargetLevel := s.stateMachineVca.tmpTargetLevel * s.vcaAdsr.sustainLevel } }
      let s := { s with stateMachineVca := { s.stateMachineVca with
        tmpDelta := c.ADSR_TIMER_PERIOD_MS
          * (s.stateMachineVca.tmpTargetLevel - s.stateMachineVca.amplitude)
          / s.vcaAdsr.decayTimeMs } }
      { s with stateMachineVca := { s.stateMachineVca with machineState := MachineState.DECAY } }
    else s
  | MachineState.DECAY =>
    if s.stateMachineVca.amplitude > s.stateMachineVca.tmpTargetLevel then
      let s := { s with stateMachineVca := { s.stateMachineVca with
        amplitude := s.stateMachineVca.amplitude + s.stateMachineVca.tmpDelta } }
      dacVcaWrite c s.stateMachineVca.amplitude s
    else s
  | MachineState.RELEASE =>
    if s.stateMachineVca.amplitude > 0 then
      let s := { s with stateMachineVca := { s.stateMachineVca with
        amplitude := s.stateMachineVca.amplitude + s.stateMachineVca.tmpDelta } }
      dacVcaWrite c s.stateMachineVca.amplitude s
    else
      { s with stateMachineVca := { s.stateMachineVca with machineState := MachineState.IDLE } }

/-- Function `updateVCFEnveloppeStateMachine` (dac_board.c, lines 597-637). The switch
of the source reads `stateMachineVca.machineState`. -/
def updateVCFEnveloppeStateMachine (c : Config) (s : Engine) : Engine :=
  match s.stateMachineVca.machineState with
  | MachineState.IDLE => s
  | MachineState.ATTACK =>
    let s := dacVcfCutoffWrite c
      (s.stateMachineVcf.cutoffFrequency + s.stateMachineVcf.tmpKbdtrackingShiftFactor) s
    let s := { s with stateMachineVcf := { s.stateMachineVcf with
      cutoffFrequency := s.stateMachineVcf.cutoffFrequency + s.stateMachineVcf.tmpDelta } }
    let s := { s with stateMachineVcf := { s.stateMachineVcf with t := s.stateMachineVcf.t + 1 } }
    if s.stateMachineVcf.t ≥ s.stateMachineVcf.tMax then
      let s := { s with stateMachineVcf := { s.stateMachineVcf with t := 0 } }
      let s := { s with stateMachineVcf := { s.stateMachineVcf with
        tMax := s.vcfAdsr.decayTimeMs / c.ADSR_TIMER_PERIOD_MS } }
      let s := { s with stateMachineVcf := { s.stateMachineVcf with
        tmpTargetLevel := s.globalParams.vcfCutoff
          + (s.stateMachineVcf.tmpTargetLevel - s.globalParams.vcfCutoff)
            * s.vcfAdsr.sustainLevel } }
      let s := { s with stateMachineVcf := { s.stateMachineVcf with
        tmpDelta := (s.stateMachineVcf.tmpTargetLevel - s.stateMachineVcf.cutoffFrequency)
          / s.stateMachineVcf.tMax } }
      { s with stateMachineVcf := { s.stateMachineVcf with machineState := MachineState.DECAY } }
    else s
  | MachineState.DECAY =>
    if s.stateMachineVcf.t ≤ s.stateMachineVcf.tMax then
      let s := { s with stateMachineVcf := { s.stateMachineVcf with t := s.stateMachineVcf.t + 1 } }
      let s := { s with stateMachineVcf := { s.stateMachineVcf with
        cutoffFrequency := s.stateMachineVcf.cutoffFrequency + s.stateMachineVcf.tmpDelta } }
      dacVcfCutoffWrite c
        (s.stateMachineVcf.cutoffFrequency + s.stateMachineVcf.tmpKbdtrackingShiftFactor) s
    else s
  | MachineState.RELEASE =>
    let s := { s with stateMachineVcf := { s.stateMachineVcf with t := s.stateMachineVcf.t + 1 } }
    if s.stateMachineVcf.t ≤ s.stateMachineVcf.tMax then
      let s := { s with stateMachineVcf := { s.stateMachineVcf with
        cutoffFrequency := s.stateMachineVcf.cutoffFrequency + s.stateMachineVcf.tmpDelta } }
      dacVcfCutoffWrite c
        (s.stateMachineVcf.cutoffFrequency + s.stateMachineVcf.tmpKbdtrackingShiftFactor) s
    else
      { s with stateMachineVcf := { s.stateMachineVcf with machineState := MachineState.IDLE } }

/-- Function `midiNoteOnHandler` (dac_board.c, lines 642-669). -/
def midiNoteOnHandler (c : Config) (s : Engine) : Engine :=
  let s := HAL_GPIO_WritePin Pin.LD2 true s
  let s := { s with stateMachineVca := { s.stateMachineVca with amplitude := 0 } }
  let s := { s with stateMachineVca := { s.stateMachineVca with
    tmpTargetLevel := (1 - s.stateMachineVca.velocitySensitivity)
      + ((s.midiNote.velocity : ℚ) / 127) * s.stateMachineVca.velocitySensitivity } }
  let s := { s with stateMachineVca := { s.stateMachineVca with
    tmpDelta := c.ADSR_TIMER_PERIOD_MS * s.stateMachineVca.tmpTargetLevel
      / s.vcaAdsr.attackTimeMs } }
  let velocityMulFactor : ℚ := (1 - s.stateMachineVcf.velocitySensitivity)
    + ((s.midiNote.velocity : ℚ) / 127) * s.stateMachineVcf.velocitySensitivity
  let s := { s with stateMachineVcf := { s.stateMachineVcf with t := 0 } }
  let s := { s with stateMachineVcf := { s.stateMachineVcf with
    tMax := s.vcfAdsr.attackTimeMs / c.ADSR_TIMER_PERIOD_MS } }
  let s := { s with stateMachineVcf := { s.stateMachineVcf with
    tmpTargetLevel := s.stateMachineVcf.envAmount * velocityMulFactor } }
  let s := { s with stateMachineVcf := { s.stateMachineVcf with
    tmpDelta := (s.stateMachineVcf.tmpTargetLevel - s.globalParams.vcfCutoff)
      / s.stateMachineVcf.tMax } }
  let s := { s with stateMachineVcf := { s.stateMachineVcf with
    tmpKbdtrackingShiftFactor := (((s.midiNote.note : Int) - 64 : Int) : ℚ) / 64
      * s.stateMachineVcf.kbdTracking * c.MAX_KBD_TRACKING } }
  let s := { s with stateMachineVcf := { s.stateMachineVcf with
    cutoffFrequency := s.globalParams.vcfCutoff } }
  let s := { s with stateMachineVca := { s.stateMachineVca with
    machineState := MachineState.ATTACK } }
  { s with stateMachineVcf := { s.stateMachineVcf with machineState := MachineState.ATTACK } }

/-- Function `midiNoteOffHandler` (dac_board.c, lines 674-688). -/
def midiNoteOffHandler (c : Config) (s : Engine) : Engine :=
  let s := HAL_GPIO_WritePin Pin.LD2 false s
  let s := { s with stateMachineVca := { s.stateMachineVca with tmpTargetLevel := 0 } }
  let s := { s with stateMachineVca := { s.stateMachineVca with
    tmpDelta := -c.ADSR_TIMER_PERIOD_MS * s.stateMachineVca.amplitude
      / s.vcaAdsr.releaseTimeMs } }
  let s := { s with stateMachineVcf := { s.stateMachineVcf with t := 0 } }
  let s := { s with stateMachineVcf := { s.stateMachineVcf with
    tMax := s.vcfAdsr.releaseTimeMs / c.ADSR_TIMER_PERIOD_MS } }
  let s := { s with stateMachineVcf := { s.stateMachineVcf with
    tmpTargetLevel := s.globalParams.vcfCutoff } }
  let s := { s with stateMachineVcf := { s.stateMachineVcf with
    tmpDelta := c.ADSR_TIMER_PERIOD_MS
      * (s.stateMachineVcf.tmpTargetLevel - s.stateMachineVcf.cutoffFrequency)
      / s.stateMachineVcf.tMax } }
  let s := { s with stateMachineVca := { s.stateMachineVca with
    machineState := MachineState.RELEASE } }
  { s with stateMachineVcf := { s.stateMachineVcf with machineState := MachineState.RELEASE } }

/-! ## MIDI dispatcher -/

/-- Function `setMidiCCParam` (dac_board.c, lines 696-831), for a parameter that is one
of the `case` labels. -/
def setMidiCCParam (c : Config) (param : MidiCCParam) (value : Nat) (s : Engine) : Engine :=
  match param with
  | MidiCCParam.VCA_ATTACK =>
    { s with vcaAdsr := { s.vcaAdsr with
      attackTimeMs := (((value : ℚ) + 1) / 127) * c.MAX_ATTACK_TIME } }
  | MidiCCParam.VCA_DECAY =>
    { s with vcaAdsr := { s.vcaAdsr with
      decayTimeMs := (((value : ℚ) + 1) / 127) * c.MAX_DECAY_TIME } }
  | MidiCCParam.VCA_SUSTAIN =>
    { s with vcaAdsr := { s.vcaAdsr with
      sustainLevel := ((value : ℚ) / 127) * c.MAX_SUSTAIN_LVL } }
  | MidiCCParam.VCA_RELEASE =>
    { s with vcaAdsr := { s.vcaAdsr with
      releaseTimeMs := (((value : ℚ) + 1) / 127) * c.MAX_RELEASE_TIME } }
  | MidiCCParam.VCF_ATTACK =>
    { s with vcfAdsr := { s.vcfAdsr with
      attackTimeMs := (((value : ℚ) + 1) / 127) * c.MAX_ATTACK_TIME } }
  | MidiCCParam.VCF_DECAY =>
    { s with vcfAdsr := { s.vcfAdsr with
      decayTimeMs := (((value : ℚ) + 1) / 127) * c.MAX_DECAY_TIME } }
  | MidiCCParam.VCF_SUSTAIN =>
    { s with vcfAdsr := { s.vcfAdsr with
      sustainLevel := ((value : ℚ) / 127) * c.MAX_SUSTAIN_LVL } }
  | MidiCCParam.VCF_RELEASE =>
    { s with vcfAdsr := { s.vcfAdsr with
      releaseTimeMs := (((value : ℚ) + 1) / 127) * c.MAX_RELEASE_TIME } }
  | MidiCCParam.VCA_VELOCITY_SENSITIVITY =>
    { s with stateMachineVca := { s.stateMachineVca with
      velocitySensitivity := ((value : ℚ) / 127) * c.MAX_VC_SENSI } }
  | MidiCCParam.VCF_VELOCITY_SENSITIVITY =>
    { s with stateMachineVcf := { s.stateMachineVcf with
      velocitySensitivity := ((value : ℚ) / 127) * c.MAX_VC_SENSI } }
  | MidiCCParam.VCF_RESONANCE =>
    dacWrite c (cTrunc (4095 * ((value : ℚ) / 127) * c.MAX_MIXER)) Dac.DAC_VCF_RES s
  | MidiCCParam.VCF_CUTOFF =>
    dacWrite c (cTrunc (4095 * ((value : ℚ) / 127) * c.MAX_MIXER)) Dac.DAC_VCF_CUTOFF s
  | MidiCCParam.PWM_3340 =>
    dacWrite c (cTrunc (4095 * ((value : ℚ) / 127))) Dac.DAC_VCO_3340_PWM_DUTY s
  | MidiCCParam.SYNC_3340 =>
    HAL_GPIO_WritePin Pin.SYNC_3340 (decide (value = 127)) s
  | MidiCCParam.VCF_ORDER =>
    if value = 0 then
      HAL_GPIO_WritePin Pin.VCF_2NDORDER true (HAL_GPIO_WritePin Pin.VCF_4THORDER false s)
    else if value = 1 then
      HAL_GPIO_WritePin Pin.VCF_4THORDER true (HAL_GPIO_WritePin Pin.VCF_2NDORDER false s)
    else s
  | MidiCCParam.WAVE_3340 =>
    if value = 0 then
      HAL_GPIO_WritePin Pin.PULSE_3340 true
        (HAL_GPIO_WritePin Pin.SAW_3340 false (HAL_GPIO_WritePin Pin.TRI_3340 false s))
    else if value = 1 then
      HAL_GPIO_WritePin Pin.TRI_3340 true
        (HAL_GPIO_WritePin Pin.PULSE_3340 false (HAL_GPIO_WritePin Pin.SAW_3340 false s))
    else if value = 2 then
      HAL_GPIO_WritePin Pin.SAW_3340 true
        (HAL_GPIO_WritePin Pin.PULSE_3340 false (HAL_GPIO_WritePin Pin.TRI_3340 false s))
    else s
  | MidiCCParam.OCTAVE_3340 => { s with vco3340 := { s.vco3340 with octave := (value : Int) } }
  | MidiCCParam.LEVEL_3340 =>
    dacWrite c (cTrunc (4095 * ((value : ℚ) / 127) * c.MAX_MIXER)) Dac.DAC_V2140D_IN1 s
  | MidiCCParam.DETUNE_13700 => { s with vco13700 := { s.vco13700 with detune := (value : ℚ) } }
  | MidiCCParam.DETUNE_3340 => { s with vco3340 := { s.vco3340 with detune := (value : ℚ) } }
  | MidiCCParam.LEVEL_13700 => s
  | MidiCCParam.OCTAVE_13700 => { s with vco13700 := { s.vco13700 with octave := (value : Int) } }
  | MidiCCParam.WAVE_13700 =>
    let s := dacWrite c (cTrunc (4095 * ((value : ℚ) / 127) * c.MAX_MIXER)) Dac.DAC_V2140D_IN2 s
    dacWrite c (cTrunc (4095 * (1 - (value : ℚ) / 127) * c.MAX_MIXER)) Dac.DAC_V2140D_IN3 s
  | MidiCCParam.VCF_KBDTRACKING => s
  | MidiCCParam.VCA_EG => s
  | MidiCCParam.VCF_EG => s

/-- Function `playDrumMachine` (dac_board.c, lines 869-892); `data2` is not read. -/
def playDrumMachine (c : Config) (data1 : Nat) (s : Engine) : Engine :=
  if data1 = c.BASS_DRUM_NOTE then
    let s := HAL_GPIO_WritePin Pin.DRUM_KICK false s
    { s with drumTriggers := { s.drumTriggers with bassdrumCounter := 1 } }
  else if data1 = c.RIMSHOT_NOTE then
    let s := HAL_GPIO_WritePin Pin.DRUM_RIM false s
    { s with drumTriggers := { s.drumTriggers with rimshotCounter := 1 } }
  else if data1 = c.SNARE_NOTE then
    let s := HAL_GPIO_WritePin Pin.DRUM_SNARE true s
    { s with drumTriggers := { s.drumTriggers with snareCounter := 1 } }
  else if data1 = c.LOWTOM_NOTE then
    let s := HAL_GPIO_WritePin Pin.DRUM_LOWTOM false s
    { s with drumTriggers := { s.drumTriggers with lowtomCounter := 1 } }
  else if data1 = c.HIGHTOM_NOTE then
    let s := HAL_GPIO_WritePin Pin.DRUM_HIGHTOM false s
    { s with drumTriggers := { s.drumTriggers with hightomCounter := 1 } }
  else s

/-- Function `processIncomingMidiMessage` (dac_board.c, lines 837-862). The three
arguments are bytes: they are reduced modulo 256 on entry. -/
def processIncomingMidiMessage (c : Config) (statusChannel data1 data2 : Nat)
    (s : Engine) : Engine :=
  let statusChannel := statusChannel % 256
  let data1 := data1 % 256
  let data2 := data2 % 256
  let channel := statusChannel &&& 0x0F
  let status := statusChannel &&& 0xF0
  if status = c.NOTE_ON then
    if channel = c.DRUM_CHANNEL then playDrumMachine c data1 s
    else
      let s := { s with midiNote := { s.midiNote with note := data1 } }
      let s := { s with midiNote := { s.midiNote with velocity := data2 } }
      midiNoteOnHandler c s
  else if status = c.NOTE_OFF then midiNoteOffHandler c s
  else if status = c.CONTROL_CHANGE then
    match c.ccParam data1 with
    | some param => setMidiCCParam c param data2 s
    | none => s
  else s

/-! ## Drum timers, demo sequence and tick scheduler -/

/-- First block of `updateDrumMachine` (dac_board.c, lines 899-902): bass drum. -/
def updateBassdrum (s : Engine) : Engine :=
  if s.drumTriggers.bassdrumCounter > 0 then
    let s : Engine := { s with drumTriggers := { s.drumTriggers with
      bassdrumCounter := s.drumTriggers.bassdrumCounter - 1 } }
    if s.drumTriggers.bassdrumCounter = 0 then HAL_GPIO_WritePin Pin.DRUM_KICK true s else s
  else s

/-- Second block of `updateDrumMachine` (dac_board.c, lines 903-906): rimshot. -/
def updateRimshot (s : Engine) : Engine :=
  if s.drumTriggers.rimshotCounter > 0 then
    let s : Engine := { s with drumTriggers := { s.drumTriggers with
      rimshotCounter := s.drumTriggers.rimshotCounter - 1 } }
    if s.drumTriggers.rimshotCounter = 0 then HAL_GPIO_WritePin Pin.DRUM_RIM true s else s
  else s

/-- Third block of `updateDrumMachine` (dac_board.c, lines 907-910): snare. -/
def updateSnare (s : Engine) : Engine :=
  if s.drumTriggers.snareCounter > 0 then
    let s : Engine := { s with drumTriggers := { s.drumTriggers with
      snareCounter := s.drumTriggers.snareCounter - 1 } }
    if s.drumTriggers.snareCounter = 0 then HAL_GPIO_WritePin Pin.DRUM_SNARE false s else s
  else s

/-- Fourth block of `updateDrumMachine` (dac_board.c, lines 911-914): low tom. -/
def updateLowtom (s : Engine) : Engine :=
  if s.drumTriggers.lowtomCounter > 0 then
    let s : Engine := { s with drumTriggers := { s.drumTriggers with
      lowtomCounter := s.drumTriggers.lowtomCounter - 1 } }
    if s.drumTriggers.lowtomCounter = 0 then HAL_GPIO_WritePin Pin.DRUM_LOWTOM true s else s
  else s

/-- Fifth block of `updateDrumMachine` (dac_board.c, lines 915-918): high tom. -/
def updateHightom (s : Engine) : Engine :=
  if s.drumTriggers.hightomCounter > 0 then
    let s : Engine := { s with drumTriggers := { s.drumTriggers with
      hightomCounter := s.drumTriggers.hightomCounter - 1 } }
    if s.drumTriggers.hightomCounter = 0 then HAL_GPIO_WritePin Pin.DRUM_HIGHTOM true s else s
  else s

/-- Function `updateDrumMachine` (dac_board.c, lines 897-919): its five blocks in
program order. -/
def updateDrumMachine (s : Engine) : Engine :=
  updateHightom (updateLowtom (updateSnare (updateRimshot (updateBassdrum s))))

/-- Read of a C array at an `int` index; `none` outside the array. -/
def readArray (a : List Int) (i : Int) : Option Int :=
  if 0 ≤ i then a[i.toNat]? else none

/-- Function `playDemo` (dac_board.c, lines 922-937); `none` when `demoNoteCounter` is
not an index of `demoNotes`. -/
def playDemo (c : Config) (s : Engine) : Option Engine :=
  let r : Option Engine :=
    if s.demoCounter = 0 then
      match readArray demoNotes s.demoNoteCounter with
      | none => none
      | some n =>
        let s := { s with demoNoteCounter := s.demoNoteCounter + 1 }
        let s := processIncomingMidiMessage c c.NOTE_ON (toUint8 n) 50 s
        some (playDrumMachine c (c.BASS_DRUM_NOTE % 256) s)
    else if s.demoCounter = 200 then
      some (processIncomingMidiMessage c c.NOTE_OFF 36 0 s)
    else if s.demoCounter = 400 then some { s with demoCounter := -1 }
    else some s
  r.map fun s =>
    let s := { s with demoCounter := s.demoCounter + 1 }
    if s.demoNoteCounter ≥ DEMO_NOTES_LEN then { s with demoNoteCounter := 0 } else s

/-- The four slow updates of the tick scheduler. -/
inductive SlowUpdate where
  | pitch13700
  | pitch3340
  | vcaEnvelope
  | vcfEnvelope
  deriving DecidableEq, Repr

/-- The switch on `adsrInterruptCounter` in `HAL_TIM_PeriodElapsedCallback`
(dac_board.c, lines 465-489): the slow update selected by a phase value. -/
def selectSlowUpdate (adsrInterruptCounter : Int) : Option SlowUpdate :=
  if adsrInterruptCounter = 0 then some SlowUpdate.pitch13700
  else if adsrInterruptCounter = 1 then some SlowUpdate.pitch3340
  else if adsrInterruptCounter = 2 then some SlowUpdate.vcaEnvelope
  else if adsrInterruptCounter = 3 then some SlowUpdate.vcfEnvelope
  else none

/-- The body of each `case` of that switch; `none` when the held note is not an index
of the calibration table. -/
def runSlowUpdate (c : Config) (u : SlowUpdate) (s : Engine) : Option Engine :=
  match u with
  | SlowUpdate.pitch13700 =>
    (midiToVCO13700CV[s.midiNote.note]?).map fun cv => dacWrite c cv Dac.DAC_VCO_13700 s
  | SlowUpdate.pitch3340 =>
    (midiToVCO3340CV[s.midiNote.note]?).map fun cv => dacWrite c cv Dac.DAC_VCO_3340_FREQ s
  | SlowUpdate.vcaEnvelope => some (updateVCAEnveloppeStateMachine c s)
  | SlowUpdate.vcfEnvelope => some (updateVCFEnveloppeStateMachine c s)

/-- Callback `HAL_TIM_PeriodElapsedCallback` for the envelope timer (dac_board.c, lines
432-491); for any other timer the callback does nothing. -/
def HAL_TIM_PeriodElapsedCallback (c : Config) (s : Engine) : Option Engine :=
  let s := HAL_GPIO_WritePin Pin.LD3 (decide (s.demoMode = 1)) s
  let s := updateDrumMachine s
  let s := { s with adsrInterruptCounter := s.adsrInterruptCounter + 1 }
  let r : Option Engine :=
    if s.adsrInterruptCounter = c.ADSR_TIMER_PERIOD_FACTOR then
      let s := { s with adsrInterruptCounter := 0 }
      if s.demoMode = 1 then playDemo c s else some s
    else some s
  r.bind fun s =>
    match selectSlowUpdate s.adsrInterruptCounter with
    | some u => runSlowUpdate c u s
    | none => some s

/-! ## Observations on traces -/

/-- Number of transmit requests in a trace. -/
def transmitCount : List HwEvent → Nat
  | [] => 0
  | HwEvent.spiTransmit _ _ :: tr => transmitCount tr + 1
  | HwEvent.gpioWrite _ _ :: tr => transmitCount tr

/-- The two bytes of the most recent transmit request of a trace. -/
def lastTransmit : List HwEvent → Option (Nat × Nat)
  | [] => none
  | HwEvent.spiTransmit b0 b1 :: tr =>
    match lastTransmit tr with
    | some b => some b
    | none => some (b0, b1)
  | HwEvent.gpioWrite _ _ :: tr => lastTransmit tr

/-- The 12 data bits carried by two transmitted bytes: low nibble of byte 0 followed by
byte 1. -/
def dataBits (b : Nat × Nat) : Nat := ((b.1 &&& 0x0F) <<< 8) ||| b.2

/-! ## Runs of the handlers -/

/-- `n` consecutive calls of `updateVCAEnveloppeStateMachine`. -/
def vcaTicks (c : Config) (n : Nat) (s : Engine) : Engine :=
  (updateVCAEnveloppeStateMachine c)^[n] s

/-- The VCA machine after one call of `updateVCAEnveloppeStateMachine` (dac_board.c,
lines 552-590), as a function of what that call reads: the period macro, `vcaAdsr` and
the machine itself. The DAC write of each branch leaves the machine untouched. -/
def vcaStep (period : ℚ) (adsr : AdsrParams) (m : StateMachineVca) : StateMachineVca :=
  match m.machineState with
  | MachineState.IDLE => m
  | MachineState.ATTACK =>
    let m := { m with amplitude := m.amplitude + m.tmpDelta }
    if m.amplitude ≥ m.tmpTargetLevel then
      let m := { m with tmpTargetLevel := m.tmpTargetLevel * adsr.sustainLevel }
      let m := { m with
        tmpDelta := period * (m.tmpTargetLevel - m.amplitude) / adsr.decayTimeMs }
      { m with machineState := MachineState.DECAY }
    else m
  | MachineState.DECAY =>
    if m.amplitude > m.tmpTargetLevel then { m with amplitude := m.amplitude + m.tmpDelta }
    else m
  | MachineState.RELEASE =>
    if m.amplitude > 0 then { m with amplitude := m.amplitude + m.tmpDelta }
    else { m with machineState := MachineState.IDLE }

/-- `n` consecutive invocations of the tick handler; `none` as soon as one of them reads
outside an array. -/
def runTicks (c : Config) : Nat → Engine → Option Engine
  | 0, s => some s
  | n + 1, s => (HAL_TIM_PeriodElapsedCallback c s).bind (runTicks c n)

/-- The slow update performed by one invocation of the tick handler from state `s`: the
switch of the handler reads `adsrInterruptCounter` after the handler has updated it, and
no case of the switch writes that counter. -/
def performedUpdate (c : Config) (s : Engine) : Option SlowUpdate :=
  (HAL_TIM_PeriodElapsedCallback c s).bind fun s1 => selectSlowUpdate s1.adsrInterruptCounter

/-- The slow update performed by tick number `j` (counted from 0) of a run from `s`. -/
def performedAt (c : Config) (s : Engine) (j : Nat) : Option SlowUpdate :=
  (runTicks c j s).bind (performedUpdate c)

/-- Phase value of each slow update in the switch of the tick handler. -/
def SlowUpdate.phase : SlowUpdate → Int
  | SlowUpdate.pitch13700 => 0
  | SlowUpdate.pitch3340 => 1
  | SlowUpdate.vcaEnvelope => 2
  | SlowUpdate.vcfEnvelope => 3

/-! ## Transport gate -/

/-- External events of the engine. -/
inductive Event where
  | dispatch (statusChannel data1 data2 : Nat)
  | tick
  deriving DecidableEq, Repr

/-- The handler run for an event. -/
def handleEvent (c : Config) (e : Event) (s : Engine) : Option Engine :=
  match e with
  | Event.dispatch statusChannel data1 data2 =>
    some (processIncomingMidiMessage c statusChannel data1 data2 s)
  | Event.tick => HAL_TIM_PeriodElapsedCallback c s

/-- Transport gate: `busy` from a transmit request until the next transfer-complete
notification; `overlaps` counts the transmit requests issued while busy. -/
structure Gate where
  busy : Bool
  overlaps : Nat
  deriving DecidableEq, Repr

/-- Effect of one hardware event on the gate. -/
def Gate.observe (g : Gate) : HwEvent → Gate
  | HwEvent.spiTransmit _ _ =>
    { busy := true, overlaps := if g.busy then g.overlaps + 1 else g.overlaps }
  | HwEvent.gpioWrite _ _ => g

/-- A run of events: each handler runs to completion, the gate observes the hardware
events it issued, then one transfer-complete notification is delivered
(`HAL_SPI_TxCpltCallback`), which frees the gate. -/
def runEvents (c : Config) : List Event → Engine × Gate → Option (Engine × Gate)
  | [], sg => some sg
  | e :: es, sg =>
    match handleEvent c e sg.1 with
    | none => none
    | some s1 =>
      let g1 := (s1.trace.drop sg.1.trace.length).foldl Gate.observe sg.2
      runEvents c es (HAL_SPI_TxCpltCallback s1, { g1 with busy := false })

/-! ## Drum voices -/

/-- The five drum voices of `playDrumMachine` and `updateDrumMachine`. -/
inductive DrumVoice where
  | bassdrum
  | rimshot
  | snare
  | lowtom
  | hightom
  deriving DecidableEq, Repr

/-- The note macro that selects a voice in the switch of `playDrumMachine`. -/
def DrumVoice.note (c : Config) : DrumVoice → Nat
  | DrumVoice.bassdrum => c.BASS_DRUM_NOTE
  | DrumVoice.rimshot => c.RIMSHOT_NOTE
  | DrumVoice.snare => c.SNARE_NOTE
  | DrumVoice.lowtom => c.LOWTOM_NOTE
  | DrumVoice.hightom => c.HIGHTOM_NOTE

/-- The trigger line of a voice. -/
def DrumVoice.pin : DrumVoice → Pin
  | DrumVoice.bassdrum => Pin.DRUM_KICK
  | DrumVoice.rimshot => Pin.DRUM_RIM
  | DrumVoice.snare => Pin.DRUM_SNARE
  | DrumVoice.lowtom => Pin.DRUM_LOWTOM
  | DrumVoice.hightom => Pin.DRUM_HIGHTOM

/-- The level `playDrumMachine` writes to the line of a voice (`true` for
`GPIO_PIN_SET`): the snare pulse is active high, the four others active low. -/
def DrumVoice.activeLevel : DrumVoice → Bool
  | DrumVoice.snare => true
  | _ => false

/-- The countdown counter of a voice. -/
def DrumVoice.counter (d : DrumTriggers) : DrumVoice → Int
  | DrumVoice.bassdrum => d.bassdrumCounter
  | DrumVoice.rimshot => d.rimshotCounter
  | DrumVoice.snare => d.snareCounter
  | DrumVoice.lowtom => d.lowtomCounter
  | DrumVoice.hightom => d.hightomCounter

/-- The five note macros are distinct `case` labels of one switch. -/
def Config.drumNotesDistinct (c : Config) : Prop :=
  [c.BASS_DRUM_NOTE, c.RIMSHOT_NOTE, c.SNARE_NOTE, c.LOWTOM_NOTE, c.HIGHTOM_NOTE].Nodup

instance (c : Config) : Decidable c.drumNotesDistinct := by
  unfold Config.drumNotesDistinct
  infer_instance

/-- Level of a GPIO line after a trace: the level of the last write to that line, `none`
when the trace never writes it. -/
def lineLevel (pin : Pin) : List HwEvent → Option Bool
  | [] => none
  | HwEvent.gpioWrite p l :: tr =>
    match lineLevel pin tr with
    | some later => some later
    | none => if p = pin then some l else none
  | HwEvent.spiTransmit _ _ :: tr => lineLevel pin tr

/-- One step of a countdown counter in `updateDrumMachine`: a positive counter is
decremented, any other is left alone. -/
def countDown (x : Int) : Int := if x > 0 then x - 1 else x

/-- The write that ends the pulse of a voice in `updateDrumMachine`: issued by the call
that brings the counter from 1 to 0, with the level opposite to the active one. -/
def pulseEnd (v : DrumVoice) (d : DrumTriggers) : List HwEvent :=
  if v.counter d = 1 then [HwEvent.gpioWrite v.pin (!v.activeLevel)] else []

/-! ## Envelope parameters addressed by control changes -/

/-- The stored value of the envelope parameter a control change addresses: the six
times, the two sustain levels and the two velocity sensitivities; `none` for the
parameters that are not envelope parameters. -/
def envelopeParam (p : MidiCCParam) (s : Engine) : Option ℚ :=
  match p with
  | MidiCCParam.VCA_ATTACK => some s.vcaAdsr.attackTimeMs
  | MidiCCParam.VCA_DECAY => some s.vcaAdsr.decayTimeMs
  | MidiCCParam.VCA_SUSTAIN => some s.vcaAdsr.sustainLevel
  | MidiCCParam.VCA_RELEASE => some s.vcaAdsr.releaseTimeMs
  | MidiCCParam.VCF_ATTACK => some s.vcfAdsr.attackTimeMs
  | MidiCCParam.VCF_DECAY => some s.vcfAdsr.decayTimeMs
  | MidiCCParam.VCF_SUSTAIN => some s.vcfAdsr.sustainLevel
  | MidiCCParam.VCF_RELEASE => some s.vcfAdsr.releaseTimeMs
  | MidiCCParam.VCA_VELOCITY_SENSITIVITY => some s.stateMachineVca.velocitySensitivity
  | MidiCCParam.VCF_VELOCITY_SENSITIVITY => some s.stateMachineVcf.velocitySensitivity
  | _ => none

/-- The numeric mapping of the specification for an envelope control change of value
`v`: `((v + 1) / 127) * MAX_TIME` for a time, `(v / 127) * MAX_LEVEL` for a level or a
sensitivity, with the maximum of the addressed parameter. -/
def specCcValue (c : Config) (p : MidiCCParam) (v : Nat) : Option ℚ :=
  match p with
  | MidiCCParam.VCA_ATTACK => some ((((v : ℚ) + 1) / 127) * c.MAX_ATTACK_TIME)
  | MidiCCParam.VCA_DECAY => some ((((v : ℚ) + 1) / 127) * c.MAX_DECAY_TIME)
  | MidiCCParam.VCA_SUSTAIN => some (((v : ℚ) / 127) * c.MAX_SUSTAIN_LVL)
  | MidiCCParam.VCA_RELEASE => some ((((v : ℚ) + 1) / 127) * c.MAX_RELEASE_TIME)
  | MidiCCParam.VCF_ATTACK => some ((((v : ℚ) + 1) / 127) * c.MAX_ATTACK_TIME)
  | MidiCCParam.VCF_DECAY => some ((((v : ℚ) + 1) / 127) * c.MAX_DECAY_TIME)
  | MidiCCParam.VCF_SUSTAIN => some (((v : ℚ) / 127) * c.MAX_SUSTAIN_LVL)
  | MidiCCParam.VCF_RELEASE => some ((((v : ℚ) + 1) / 127) * c.MAX_RELEASE_TIME)
  | MidiCCParam.VCA_VELOCITY_SENSITIVITY => some (((v : ℚ) / 127) * c.MAX_VC_SENSI)
  | MidiCCParam.VCF_VELOCITY_SENSITIVITY => some (((v : ℚ) / 127) * c.MAX_VC_SENSI)
  | _ => none

/-- The runtime fields of the VCA machine: state, current level, target, delta. -/
def StateMachineVca.runtime (m : StateMachineVca) : MachineState × ℚ × ℚ × ℚ :=
  (m.machineState, m.amplitude, m.tmpTargetLevel, m.tmpDelta)

/-- The runtime fields of the VCF machine: state, current level, target, delta, the two
step counters and the keyboard shift. -/
def StateMachineVcf.runtime (m : StateMachineVcf) : MachineState × ℚ × ℚ × ℚ × ℚ × ℚ × ℚ :=
  (m.machineState, m.cutoffFrequency, m.tmpTargetLevel, m.tmpDelta, m.t, m.tMax,
    m.tmpKbdtrackingShiftFactor)

/-! ## Range of the envelope configuration -/

/-- The range of one envelope configuration: each time in `(0, max]` for its own
maximum, and the sustain level in `[0, 1]`. -/
def adsrInRange (maxAttack maxDecay maxRelease : ℚ) (a : AdsrParams) : Prop :=
  (0 < a.attackTimeMs ∧ a.attackTimeMs ≤ maxAttack)
  ∧ (0 < a.decayTimeMs ∧ a.decayTimeMs ≤ maxDecay)
  ∧ (0 < a.releaseTimeMs ∧ a.releaseTimeMs ≤ maxRelease)
  ∧ (0 ≤ a.sustainLevel ∧ a.sustainLevel ≤ 1)

instance (maxAttack maxDecay maxRelease : ℚ) (a : AdsrParams) :
    Decidable (adsrInRange maxAttack maxDecay maxRelease a) := by
  unfold adsrInRange
  infer_instance

/-- Both envelope configurations of the engine are in range, the maxima being the
`MAX_*_TIME` macros scaled by `k`. -/
def configInRange (c : Config) (k : ℚ) (s : Engine) : Prop :=
  adsrInRange (k * c.MAX_ATTACK_TIME) (k * c.MAX_DECAY_TIME) (k * c.MAX_RELEASE_TIME) s.vcaAdsr
  ∧ adsrInRange (k * c.MAX_ATTACK_TIME) (k * c.MAX_DECAY_TIME) (k * c.MAX_RELEASE_TIME)
      s.vcfAdsr

instance (c : Config) (k : ℚ) (s : Engine) : Decidable (configInRange c k s) := by
  unfold configInRange
  infer_instance

/-! ## A sample configuration and state -/

/-- A numbering of the control-change parameters, used in examples. -/
def sampleCcParam (n : Nat) : Option MidiCCParam :=
  [ MidiCCParam.VCA_ATTACK, MidiCCParam.VCA_DECAY, MidiCCParam.VCA_SUSTAIN,
    MidiCCParam.VCA_RELEASE, MidiCCParam.VCF_ATTACK, MidiCCParam.VCF_DECAY,
    MidiCCParam.VCF_SUSTAIN, MidiCCParam.VCF_RELEASE, MidiCCParam.VCA_VELOCITY_SENSITIVITY,
    MidiCCParam.VCF_VELOCITY_SENSITIVITY, MidiCCParam.VCF_RESONANCE, MidiCCParam.VCF_CUTOFF,
    MidiCCParam.PWM_3340, MidiCCParam.SYNC_3340, MidiCCParam.VCF_ORDER, MidiCCParam.WAVE_3340,
    MidiCCParam.OCTAVE_3340, MidiCCParam.LEVEL_3340, MidiCCParam.DETUNE_13700,
    MidiCCParam.DETUNE_3340, MidiCCParam.LEVEL_13700, MidiCCParam.OCTAVE_13700,
    MidiCCParam.WAVE_13700, MidiCCParam.VCF_KBDTRACKING, MidiCCParam.VCA_EG,
    MidiCCParam.VCF_EG ][n]?

/-- Selector bytes of the MCP4822 data sheet: bit 7 selects channel B, bit 5 clear selects
gain 2, bit 4 keeps the output active. -/
def sampleChannelCode : Mcp4822Channel → Int
  | Mcp4822Channel.MCP4822_CHANNEL_A => 0x30
  | Mcp4822Channel.MCP4822_CHANNEL_B => 0xB0
  | Mcp4822Channel.MCP4822_CHANNEL_A_GAIN2 => 0x10
  | Mcp4822Channel.MCP4822_CHANNEL_B_GAIN2 => 0x90

/-- A configuration used in examples: standard MIDI status bytes, drum channel 10
(nibble 9), a 1 ms envelope period made of 20 timer periods. -/
def sampleConfig : Config where
  NOTE_ON := 0x90
  NOTE_OFF := 0x80
  CONTROL_CHANGE := 0xB0
  DRUM_CHANNEL := 9
  BASS_DRUM_NOTE := 36
  RIMSHOT_NOTE := 37
  SNARE_NOTE := 38
  LOWTOM_NOTE := 41
  HIGHTOM_NOTE := 48
  ccParam := sampleCcParam
  channelCode := sampleChannelCode
  ADSR_TIMER_PERIOD_MS := 1
  ADSR_TIMER_PERIOD_FACTOR := 20
  MAX_ATTACK_TIME := 1000
  MAX_DECAY_TIME := 1000
  MAX_RELEASE_TIME := 5000
  MAX_SUSTAIN_LVL := 1
  MAX_VC_SENSI := 1
  MAX_MIXER := 1
  MAX_KBD_TRACKING := 1

/-- An engine state used in examples: both machines idle, note 60 held as in the
initialisers of the source, attack 10 ms, decay 20 ms, sustain 1/2, release 10 ms. -/
def sampleEngine : Engine where
  vcaAdsr := { attackTimeMs := 10, decayTimeMs := 20, releaseTimeMs := 10, sustainLevel := 1/2 }
  stateMachineVca :=
    { velocitySensitivity := 1/2, machineState := MachineState.IDLE, amplitude := 0,
      tmpTargetLevel := 0, tmpDelta := 0 }
  vcfAdsr := { attackTimeMs := 10, decayTimeMs := 20, releaseTimeMs := 10, sustainLevel := 1/2 }
  stateMachineVcf :=
    { t := 0, tMax := 0, velocitySensitivity := 1/2, kbdTracking := 1/2, envAmount := 1,
      machineState := MachineState.IDLE, cutoffFrequency := 1/4, tmpTargetLevel := 0,
      tmpDelta := 0, tmpKbdtrackingShiftFactor := 0 }
  globalParams := { vcfCutoff := 1/4, vcfResonance := 0 }
  vco13700 := { detune := 0, octave := 0 }
  vco3340 := { detune := 0, octave := 0 }
  drumTriggers :=
    { bassdrumCounter := 0, rimshotCounter := 0, snareCounter := 0, lowtomCounter := 0,
      hightomCounter := 0 }
  midiNote := { note := 60, velocity := 100 }
  adsrInterruptCounter := 0
  demoMode := 0
  demoCounter := 0
  demoNoteCounter := 0
  trace := []

/-- The sample state while a note sounds: VCA parked in DECAY at amplitude 1/2, VCF
cutoff at 3/4. -/
def soundingEngine : Engine :=
  { sampleEngine with
    stateMachineVca :=
      { velocitySensitivity := 1/2, machineState := MachineState.DECAY, amplitude := 1/2,
        tmpTargetLevel := 1/2, tmpDelta := -1/40 }
    stateMachineVcf :=
      { t := 21, tMax := 20, velocitySensitivity := 1/2, kbdTracking := 1/2, envAmount := 1,
        machineState := MachineState.DECAY, cutoffFrequency := 3/4, tmpTargetLevel := 3/4,
        tmpDelta := 0, tmpKbdtrackingShiftFactor := 0 } }

/-- The envelope configuration of the concrete VCA scenario: attack 10 ms, decay 20 ms,
sustain 1/2, release 10 ms. -/
def scenarioAdsr : AdsrParams :=
  { attackTimeMs := 10, decayTimeMs := 20, releaseTimeMs := 10, sustainLevel := 1/2 }

/-- The sample state holding a note of velocity 127. -/
def scenarioEngine : Engine :=
  { sampleEngine with midiNote := { note := 60, velocity := 127 } }

/-- The sample state just after a note-off: both machines in RELEASE, VCA amplitude 1/2
falling by 1/20 per tick, VCF cutoff 3/4 falling by 1/20 per tick for 10 steps. -/
def releasingEngine : Engine :=
  { sampleEngine with
    stateMachineVca :=
      { velocitySensitivity := 1/2, machineState := MachineState.RELEASE, amplitude := 1/2,
        tmpTargetLevel := 0, tmpDelta := -1/20 }
    stateMachineVcf :=
      { t := 0, tMax := 10, velocitySensitivity := 1/2, kbdTracking := 1/2, envAmount := 1,
        machineState := MachineState.RELEASE, cutoffFrequency := 3/4, tmpTargetLevel := 1/4,
        tmpDelta := -1/20, tmpKbdtrackingShiftFactor := 0 } }

/-- The same state but for the VCA machine, which is idle at amplitude 0. -/
def releasingVcfOnly : Engine :=
  { releasingEngine with
    stateMachineVca :=
      { releasingEngine.stateMachineVca with
        machineState := MachineState.IDLE, amplitude := 0 } }

/-- The sample state (VCF machine idle) but for the VCA machine, which is in RELEASE. -/
def releasingVcaOnly : Engine :=
  { sampleEngine with stateMachineVca := releasingEngine.stateMachineVca }

/-- The scenario state with a release time of 3/2 ms, which is not a multiple of the
tick period of the sample configuration. -/
def shortReleaseEngine : Engine :=
  { scenarioEngine with vcaAdsr := { scenarioAdsr with releaseTimeMs := 3 / 2 } }

/-- The sounding state with a release time of 8 ms: with the period of 1 ms the release
delta from amplitude 1/2 is -1/16 and every level of the ramp is a multiple of 1/16. -/
def evenReleaseEngine : Engine :=
  { soundingEngine with vcaAdsr := { scenarioAdsr with releaseTimeMs := 8 } }

/-- An envelope configuration whose times are powers of two: attack 8 ms, decay 16 ms,
sustain 1/2, release 8 ms. With the period of 1 ms and a target of 1 the attack delta is
1/8 and the decay delta -1/32, so every level of the ramps is a multiple of 1/32. -/
def evenAdsr : AdsrParams :=
  { attackTimeMs := 8, decayTimeMs := 16, releaseTimeMs := 8, sustainLevel := 1/2 }

/-- The scenario state (note of velocity 127) with the even envelope configuration for
the VCA. -/
def evenScenarioEngine : Engine :=
  { scenarioEngine with vcaAdsr := evenAdsr }

/-- The even scenario state with a sustain level of 1. -/
def fullSustainEngine : Engine :=
  { scenarioEngine with vcaAdsr := { evenAdsr with sustainLevel := 1 } }

/-! ## Control changes and ticks -/

/-- The hardware events of one call of `dacWrite`: the trace it leaves from a state whose
trace is empty. -/
def dacEvents (c : Config) (word12bits : Int) (targetDac : Dac) : List HwEvent :=
  (dacWrite c word12bits targetDac sampleEngine).trace

/-- The envelope parameters read when a machine enters DECAY: decay time and sustain
level of either envelope. -/
def MidiCCParam.readAtDecayEntry : MidiCCParam → Bool
  | MidiCCParam.VCA_DECAY => true
  | MidiCCParam.VCA_SUSTAIN => true
  | MidiCCParam.VCF_DECAY => true
  | MidiCCParam.VCF_SUSTAIN => true
  | _ => false

/-- The first stages of `HAL_TIM_PeriodElapsedCallback` when demo mode is off
(dac_board.c, lines 432-463): LD3 write, drum timers, cyclic phase counter. -/
def tickPrologue (c : Config) (s : Engine) : Engine :=
  let s := HAL_GPIO_WritePin Pin.LD3 (decide (s.demoMode = 1)) s
  let s := updateDrumMachine s
  let s := { s with adsrInterruptCounter := s.adsrInterruptCounter + 1 }
  if s.adsrInterruptCounter = c.ADSR_TIMER_PERIOD_FACTOR then
    { s with adsrInterruptCounter := 0 }
  else s

/-- The sample configuration with an envelope tick period of 2 ms. -/
def slowTickConfig : Config :=
  { sampleConfig with ADSR_TIMER_PERIOD_MS := 2 }

/-- `n` consecutive calls of `updateVCFEnveloppeStateMachine`. -/
def vcfTicks (c : Config) (n : Nat) (s : Engine) : Engine :=
  (updateVCFEnveloppeStateMachine c)^[n] s

/-! ## Stages of a tick and transitions of the machines -/

/-- The last stage of `HAL_TIM_PeriodElapsedCallback` (dac_board.c, lines 464-489): the
switch on `adsrInterruptCounter` that runs at most one slow update. -/
def tickEpilogue (c : Config) (s : Engine) : Option Engine :=
  match selectSlowUpdate s.adsrInterruptCounter with
  | some u => runSlowUpdate c u s
  | none => some s

/-- NOTE_ON and NOTE_OFF are status bytes of channel-voice messages: each is its own
status nibble. -/
def Config.statusNibbles (c : Config) : Prop :=
  (c.NOTE_ON % 256) &&& 0xF0 = c.NOTE_ON ∧ (c.NOTE_OFF % 256) &&& 0xF0 = c.NOTE_OFF

instance (c : Config) : Decidable c.statusNibbles := by
  unfold Config.statusNibbles
  infer_instance

/-- The changes of `machineState` the specification allows to a tick: none, ATTACK to
DECAY, or RELEASE to IDLE. -/
def tickStep (before after : MachineState) : Prop :=
  after = before
  ∨ (before = MachineState.ATTACK ∧ after = MachineState.DECAY)
  ∨ (before = MachineState.RELEASE ∧ after = MachineState.IDLE)

instance (before after : MachineState) : Decidable (tickStep before after) := by
  unfold tickStep
  infer_instance

/-- Relation between the states of the two machines that holds in every reachable
state: while the VCA machine is in ATTACK the VCF machine is in ATTACK or DECAY, and
while the VCA machine is in RELEASE the VCF machine is in RELEASE or IDLE. -/
def statesCoupled (s : Engine) : Prop :=
  (s.stateMachineVca.machineState = MachineState.ATTACK →
    s.stateMachineVcf.machineState = MachineState.ATTACK
    ∨ s.stateMachineVcf.machineState = MachineState.DECAY)
  ∧ (s.stateMachineVca.machineState = MachineState.RELEASE →
    s.stateMachineVcf.machineState = MachineState.RELEASE
    ∨ s.stateMachineVcf.machineState = MachineState.IDLE)

instance (s : Engine) : Decidable (statesCoupled s) := by
  unfold statesCoupled
  infer_instance

/-- The sample state with both machines in DECAY and the 20 decay steps of the VCF
performed (`t = tMax = 20`): VCA parked at its target 1/2, VCF cutoff at its sustain
target 5/8 with decay delta -3/160. -/
def decayBudgetSpent : Engine :=
  { soundingEngine with
    stateMachineVcf :=
      { t := 20, tMax := 20, velocitySensitivity := 1/2, kbdTracking := 1/2, envAmount := 1,
        machineState := MachineState.DECAY, cutoffFrequency := 5/8, tmpTargetLevel := 5/8,
        tmpDelta := -3/160, tmpKbdtrackingShiftFactor := 0 } }

/-- The sample state with the phase counter at 1 (the pitch refresh of oscillator 3340
has just run). -/
def phaseOneEngine : Engine :=
  { sampleEngine with adsrInterruptCounter := 1 }

/-! ## Decoder address and envelope codes -/

/-- The address presented to the 3-to-8 decoder after a trace: the levels of A2, A1, A0
read as a binary number with A2 most significant; `none` while one of the three lines
has never been written. -/
def decoderAddress (tr : List HwEvent) : Option Int :=
  match lineLevel Pin.LS138_A2 tr, lineLevel Pin.LS138_A1 tr, lineLevel Pin.LS138_A0 tr with
  | some a2, some a1, some a0 =>
    some (4 * (if a2 then 1 else 0) + 2 * (if a1 then 1 else 0) + (if a0 then 1 else 0))
  | _, _, _ => none

/-- The level `x` clamped to `[0, 1]`, as the specification writes it. -/
def clamp01 (x : ℚ) : ℚ := max 0 (min x 1)

/-- The DAC code of the specification for an envelope level `x`:
`floor((1 - clamp(x, 0, 1)) * 4095)`. -/
def envelopeCode (x : ℚ) : Int := ⌊(1 - clamp01 x) * 4095⌋

/-- The integer that `dacVcaWrite` and `dacVcfCutoffWrite` compute for a level `x`: the
expression `(int)((1.0 - x) * 4095)` of lines 389 and 403 on the clamped level, with the
rounding of its two `double` operations. -/
def envelopeWord (x : ℚ) : Int :=
  cTrunc (roundDouble (roundDouble (1 - clamp01 x) * 4095))

/-! # Verification -/

/-! ## Bit-level lemmas -/

theorem land_ofNat (a b : Nat) : Int.land (a : Int) (b : Int) = ((a &&& b : Nat) : Int) := rfl

theorem lor_ofNat (a b : Nat) : Int.lor (a : Int) (b : Int) = ((a ||| b : Nat) : Int) := rfl

theorem shiftRight_ofNat (a k : Nat) : ((a : Int) >>> k) = ((a >>> k : Nat) : Int) := rfl

theorem toUint8_ofNat (a : Nat) : toUint8 (a : Int) = a % 256 := by
  unfold toUint8
  omega

theorem transmitCount_append (a b : List HwEvent) :
    transmitCount (a ++ b) = transmitCount a + transmitCount b := by
  induction a with
  | nil => simp [transmitCount]
  | cons e tr ih =>
    cases e with
    | gpioWrite p l => simpa [transmitCount] using ih
    | spiTransmit b0 b1 => simp [transmitCount, ih]; omega

theorem lastTransmit_append_transmit (a : List HwEvent) (b0 b1 : Nat) :
    lastTransmit (a ++ [HwEvent.spiTransmit b0 b1]) = some (b0, b1) := by
  induction a with
  | nil => simp [lastTransmit]
  | cons e tr ih =>
    cases e with
    | gpioWrite p l => simpa [lastTransmit] using ih
    | spiTransmit c0 c1 => simp [lastTransmit, ih]

/-- The masked word of a non-negative value is its residue modulo 4096. -/
theorem maskWord12_ofNat (n : Nat) : maskWord12 (n : Int) = ((n % 4096 : Nat) : Int) := by
  have h : ¬ ((n : Int) < 0) := by omega
  have h4095 : (0xFFF : Int) = ((4095 : Nat) : Int) := rfl
  have hm := Nat.and_pow_two_sub_one_eq_mod n 12
  simp only [maskWord12, h, if_false, h4095, land_ofNat]
  norm_num at hm
  rw [hm]

theorem maskWord12_neg (v : Int) (h : v < 0) : maskWord12 v = 0 := by
  simp [maskWord12, h]
  rfl

/-- Bytes of the buffer for a masked word `w < 4096` and a selector byte `16 * k`. -/
theorem buff_bytes (w k : Nat) (hw : w < 4096) (hk : k < 16) :
    toUint8 (Int.lor (Int.land (((w : Nat) : Int) >>> (8 : Nat)) 0x0F) ((16 * k : Nat) : Int))
        = 16 * k + w / 256
      ∧ toUint8 (Int.land ((w : Nat) : Int) 0xFF) = w % 256 := by
  have h15 : (0x0F : Int) = ((15 : Nat) : Int) := rfl
  have h255 : (0xFF : Int) = ((255 : Nat) : Int) := rfl
  have hhi : w >>> 8 = w / 256 := by simp [Nat.shiftRight_eq_div_pow]
  have hlt : w / 256 < 16 := by omega
  have hand : (w / 256) &&& 15 = w / 256 := by
    have := Nat.and_pow_two_sub_one_eq_mod (w / 256) 4
    norm_num at this
    rw [this]
    omega
  have hor : (w / 256) ||| (16 * k) = 16 * k + w / 256 := by
    have := Nat.mul_add_lt_is_or (i := 4) (b := w / 256) (by norm_num; omega) k
    norm_num at this
    rw [Nat.lor_comm]
    exact this.symm
  have hlo : w &&& 255 = w % 256 := by
    have := Nat.and_pow_two_sub_one_eq_mod w 8
    norm_num at this
    exact this
  refine ⟨?_, ?_⟩
  · rw [shiftRight_ofNat, h15, land_ofNat, lor_ofNat, toUint8_ofNat, hhi, hand, hor]
    omega
  · rw [h255, land_ofNat, toUint8_ofNat, hlo]
    omega

/-! ## Calibration tables (C1) -/

set_option maxRecDepth 100000 in
theorem table_window (T : List Int) (hT : T = midiToVCO13700CV ∨ T = midiToVCO3340CV) :
    ∀ m < 72, 36 ≤ m →
      ∃ a, T[m]? = some a ∧ 1 ≤ a ∧ a ≤ 4095 ∧ ∀ n < 72, m ≤ n → ∃ b, T[n]? = some b ∧ a ≤ b := by
  rcases hT with rfl | rfl <;> decide

set_option maxRecDepth 100000 in
theorem table_outside (T : List Int) (hT : T = midiToVCO13700CV ∨ T = midiToVCO3340CV) :
    ∀ k < 128, (k ≤ 35 ∨ 72 ≤ k) → T[k]? = some 0 := by
  rcases hT with rfl | rfl <;> decide

/-- C1: in both note-to-CV tables, the entries of two notes `m ≤ n` of the calibrated
range 36..71 are ordered the same way and every entry of that range lies in 1..4095;
the entry of every note in 0..35 or 72..127 is 0. -/
theorem C1_note_tables (T : List Int) (hT : T = midiToVCO13700CV ∨ T = midiToVCO3340CV) :
    T.length = 128
    ∧ (∀ m n : Nat, 36 ≤ m → m ≤ n → n ≤ 71 →
        ∃ a b, T[m]? = some a ∧ T[n]? = some b ∧ a ≤ b
          ∧ 1 ≤ a ∧ a ≤ 4095 ∧ 1 ≤ b ∧ b ≤ 4095)
    ∧ (∀ k : Nat, (k ≤ 35 ∨ (72 ≤ k ∧ k ≤ 127)) → T[k]? = some 0) := by
  refine ⟨by rcases hT with rfl | rfl <;> rfl, ?_, ?_⟩
  · intro m n hm hmn hn
    obtain ⟨a, ha, ha1, ha2, hmono⟩ := table_window T hT m (by omega) hm
    obtain ⟨b, hb, hab⟩ := hmono n (by omega) hmn
    obtain ⟨b', hb', hb1, hb2, _⟩ := table_window T hT n (by omega) (by omega)
    have hbb : b = b' := by
      rw [hb] at hb'
      exact Option.some.inj hb'
    subst hbb
    exact ⟨a, b, ha, hb, hab, ha1, ha2, hb1, hb2⟩
  · intro k hk
    exact table_outside T hT k (by omega) (by omega)

/-- Instance of C1 at the table of oscillator 3340, with notes 36 and 71, note 100. -/
theorem C1_note_tables_witness :
    midiToVCO3340CV.length = 128
    ∧ (∃ a b, midiToVCO3340CV[36]? = some a ∧ midiToVCO3340CV[71]? = some b ∧ a ≤ b
          ∧ 1 ≤ a ∧ a ≤ 4095 ∧ 1 ≤ b ∧ b ≤ 4095)
    ∧ midiToVCO3340CV[100]? = some 0 :=
  ⟨(C1_note_tables midiToVCO3340CV (Or.inr rfl)).1,
   (C1_note_tables midiToVCO3340CV (Or.inr rfl)).2.1 36 71 (by decide) (by decide) (by decide),
   (C1_note_tables midiToVCO3340CV (Or.inr rfl)).2.2 100 (Or.inr ⟨by decide, by decide⟩)⟩

/-! ## Wire format (C2, C3) -/

theorem dac4822ABWrite_trace (word12bits chip channelAB : Int) (s : Engine) :
    (dac4822ABWrite word12bits chip channelAB s).trace
      = (dacSelect chip s).trace
        ++ [HwEvent.gpioWrite Pin.DAC_CS false,
            HwEvent.spiTransmit (txSpiDacsBuff word12bits channelAB).1
              (txSpiDacsBuff word12bits channelAB).2] := by
  simp [dac4822ABWrite, emit, HAL_GPIO_WritePin]

theorem dac4822ABWrite_lastTransmit (word12bits chip channelAB : Int) (s : Engine) :
    lastTransmit (dac4822ABWrite word12bits chip channelAB s).trace
      = some (txSpiDacsBuff word12bits channelAB) := by
  rw [dac4822ABWrite_trace]
  have := lastTransmit_append_transmit
    ((dacSelect chip s).trace ++ [HwEvent.gpioWrite Pin.DAC_CS false])
    (txSpiDacsBuff word12bits channelAB).1 (txSpiDacsBuff word12bits channelAB).2
  simpa using this

set_option maxRecDepth 100000 in
/-- A selector whose set bits all lie in the upper nibble of a byte is `16 * k`, `k < 16`. -/
theorem selector_form (c : Int) (hc : Int.land c 0xF0 = c) :
    ∃ k : Nat, k < 16 ∧ c = ((16 * k : Nat) : Int) := by
  have h240 : (0xF0 : Int) = ((240 : Nat) : Int) := rfl
  have hbyte : ∀ n < 256, n &&& 240 = n → ∃ k : Nat, k < 16 ∧ n = 16 * k := by decide
  cases c with
  | ofNat n =>
    have hn : n &&& 240 = n := by
      have h := hc
      rw [h240, Int.ofNat_eq_coe, land_ofNat] at h
      exact_mod_cast h
    have hle : n ≤ 240 := by
      rw [← hn]
      exact Nat.and_le_right
    obtain ⟨k, hk, hnk⟩ := hbyte n (by omega) hn
    exact ⟨k, hk, by rw [Int.ofNat_eq_coe, hnk]⟩
  | negSucc n =>
    exfalso
    have h : (0 : Int) ≤ Int.negSucc n := by
      rw [← hc, h240]
      exact Int.ofNat_nonneg _
    exact absurd h (by simp [Int.negSucc_lt_zero])

set_option maxRecDepth 100000 in
theorem nibble_facts :
    ∀ k < 16, ∀ h < 16, (16 * k + h) &&& 0x0F = h ∧ (16 * k + h) &&& 0xF0 = 16 * k
      ∧ (16 * k) ||| h = 16 * k + h := by
  decide

/-- Shape of the buffer for a non-negative word and an upper-nibble selector. -/
theorem txSpiDacsBuff_shape (n k : Nat) (hk : k < 16) :
    txSpiDacsBuff (n : Int) ((16 * k : Nat) : Int)
      = (16 * k + (n % 4096) / 256, (n % 4096) % 256) := by
  have hb := buff_bytes (n % 4096) k (Nat.mod_lt _ (by norm_num)) hk
  simp only [txSpiDacsBuff, maskWord12_ofNat]
  rw [hb.1, hb.2]

theorem dataBits_shape (k h lo : Nat) (hk : k < 16) (hh : h < 16) (hlo : lo < 256) :
    dataBits (16 * k + h, lo) = 256 * h + lo := by
  have h1 := (nibble_facts k hk h hh).1
  have h2 := Nat.mul_add_lt_is_or (i := 8) (b := lo) (by norm_num; omega) h
  norm_num at h2
  simp only [dataBits]
  rw [h1, Nat.shiftLeft_eq, ← Nat.mul_comm (2 ^ 8) h]
  norm_num
  exact h2.symm

/-- C2 as stated fails: the value 4096 sent to chip 4 with selector `0xB0` leaves the
data bits 0 on the wire, whereas clamping to `[0, 4095]` would give 4095; and with a
selector that has low-nibble bits (`0x0F`) the value 0 leaves the data bits `0xF00`. -/
theorem C2_clamp_counterexample :
    (∃ b, lastTransmit (dac4822ABWrite 4096 4 0xB0 sampleEngine).trace = some b
      ∧ dataBits b = 0
      ∧ (dataBits b : Int) ≠ min (max 4096 0) 4095)
    ∧ (∃ b, lastTransmit (dac4822ABWrite 0 4 0x0F sampleEngine).trace = some b
      ∧ dataBits b = 0xF00
      ∧ (dataBits b : Int) ≠ min (max 0 0) 4095) := by
  refine ⟨⟨(0xB0, 0), ?_, ?_, ?_⟩, ⟨(0x0F, 0), ?_, ?_, ?_⟩⟩
  · rw [dac4822ABWrite_lastTransmit]
    decide
  · decide
  · decide
  · rw [dac4822ABWrite_lastTransmit]
    decide
  · decide
  · decide

/-- C2 (amended): for every integer value and every selector whose set bits lie in the
upper nibble of a byte, the 12 data bits transmitted by `dac4822ABWrite` are
`max(value, 0) mod 4096`; this is the value clamped to `[0, 4095]` whenever
`value ≤ 4095`, and the low 12 bits of the value when it exceeds 4095. -/
theorem C2_data_bits_masked (v c chip : Int) (s : Engine) (hc : Int.land c 0xF0 = c) :
    ∃ b, lastTransmit (dac4822ABWrite v chip c s).trace = some b
      ∧ (dataBits b : Int) = (max v 0) % 4096
      ∧ (v ≤ 4095 → (dataBits b : Int) = min (max v 0) 4095) := by
  obtain ⟨k, hk, rfl⟩ := selector_form c hc
  have hmain : ∀ n : Nat, dataBits (txSpiDacsBuff (n : Int) ((16 * k : Nat) : Int)) = n % 4096 := by
    intro n
    rw [txSpiDacsBuff_shape n k hk,
      dataBits_shape k (n % 4096 / 256) (n % 4096 % 256) hk (by omega) (by omega)]
    omega
  refine ⟨txSpiDacsBuff v ((16 * k : Nat) : Int), dac4822ABWrite_lastTransmit _ _ _ _, ?_⟩
  rcases lt_or_le v 0 with hneg | hpos
  · have hbuf : txSpiDacsBuff v ((16 * k : Nat) : Int)
        = txSpiDacsBuff ((0 : Nat) : Int) ((16 * k : Nat) : Int) := by
      simp only [txSpiDacsBuff, maskWord12_neg v hneg, maskWord12_ofNat]
      rfl
    rw [hbuf, hmain 0]
    have hmax : max v 0 = 0 := max_eq_right (le_of_lt hneg)
    rw [hmax]
    exact ⟨by norm_num, fun _ => by norm_num⟩
  · obtain ⟨n, rfl⟩ := Int.eq_ofNat_of_zero_le hpos
    rw [hmain n]
    have hmax : max (n : Int) 0 = (n : Int) := max_eq_left hpos
    rw [hmax]
    refine ⟨by push_cast; rfl, fun hle => ?_⟩
    have hn : n ≤ 4095 := by exact_mod_cast hle
    rw [min_eq_left hle, Nat.mod_eq_of_lt (by omega)]

/-- Instance of the amended C2 at value 5000, selector `0xB0`: the wire carries
`5000 mod 4096 = 904`. -/
theorem C2_data_bits_masked_witness :
    Int.land 0xB0 0xF0 = 0xB0
    ∧ ∃ b, lastTransmit (dac4822ABWrite 5000 4 0xB0 sampleEngine).trace = some b
      ∧ (dataBits b : Int) = (max 5000 0) % 4096
      ∧ ((5000 : Int) ≤ 4095 → (dataBits b : Int) = min (max 5000 0) 4095) :=
  ⟨by decide, C2_data_bits_masked 5000 0xB0 4 sampleEngine (by decide)⟩

/-- C3: for every value `v` in 0..4095 and every selector `c` with `c & 0xF0 = c`,
`dac4822ABWrite` transmits `byte0 = c | (v >> 8)` and `byte1 = v & 0xFF`; then
`((byte0 & 0x0F) << 8) | byte1 = v` and `byte0 & 0xF0 = c`. -/
theorem C3_wire_round_trip (v c chip : Int) (s : Engine)
    (hv0 : 0 ≤ v) (hv : v ≤ 4095) (hc : Int.land c 0xF0 = c) :
    ∃ byte0 byte1 : Nat,
      lastTransmit (dac4822ABWrite v chip c s).trace = some (byte0, byte1)
      ∧ (byte0 : Int) = Int.lor c (v >>> (8 : Nat))
      ∧ (byte1 : Int) = Int.land v 0xFF
      ∧ ((((byte0 &&& 0x0F) <<< 8) ||| byte1 : Nat) : Int) = v
      ∧ ((byte0 &&& 0xF0 : Nat) : Int) = c := by
  obtain ⟨k, hk, rfl⟩ := selector_form c hc
  obtain ⟨n, rfl⟩ := Int.eq_ofNat_of_zero_le hv0
  have hn : n < 4096 := by omega
  have hmod : n % 4096 = n := Nat.mod_eq_of_lt hn
  have hhi : n / 256 < 16 := by omega
  have h255 : (0xFF : Int) = ((255 : Nat) : Int) := rfl
  have hlo : n &&& 255 = n % 256 := by
    have := Nat.and_pow_two_sub_one_eq_mod n 8
    norm_num at this
    exact this
  have hshift : n >>> 8 = n / 256 := by simp [Nat.shiftRight_eq_div_pow]
  obtain ⟨hf1, hf2, hf3⟩ := nibble_facts k hk (n / 256) hhi
  refine ⟨16 * k + n / 256, n % 256, ?_, ?_, ?_, ?_, ?_⟩
  · rw [dac4822ABWrite_lastTransmit, txSpiDacsBuff_shape n k hk, hmod]
  · rw [shiftRight_ofNat, lor_ofNat, hshift, hf3]
  · rw [h255, land_ofNat, hlo]
  · have := dataBits_shape k (n / 256) (n % 256) hk hhi (by omega)
    simp only [dataBits] at this
    rw [this]
    congr 1
    omega
  · rw [hf2]

/-- Instance of C3 at value `0xABC` and selector `0x30`: bytes `0x3A`, `0xBC`. -/
theorem C3_wire_round_trip_witness :
    ∃ byte0 byte1 : Nat,
      lastTransmit (dac4822ABWrite 0xABC 6 0x30 sampleEngine).trace = some (byte0, byte1)
      ∧ (byte0 : Int) = Int.lor 0x30 ((0xABC : Int) >>> (8 : Nat))
      ∧ (byte1 : Int) = Int.land 0xABC 0xFF
      ∧ ((((byte0 &&& 0x0F) <<< 8) ||| byte1 : Nat) : Int) = 0xABC
      ∧ ((byte0 &&& 0xF0 : Nat) : Int) = 0x30 :=
  C3_wire_round_trip 0xABC 0x30 6 sampleEngine (by decide) (by decide) (by decide)

/-! ## Logical outputs (C4) -/

theorem dacSelect_transmitCount (chip : Int) (s : Engine) :
    transmitCount (dacSelect chip s).trace = transmitCount s.trace := by
  unfold dacSelect
  simp only []
  split_ifs <;>
    simp [HAL_GPIO_WritePin, emit, transmitCount_append, transmitCount]

theorem dac4822ABWrite_transmitCount (word12bits chip channelAB : Int) (s : Engine) :
    transmitCount (dac4822ABWrite word12bits chip channelAB s).trace
      = transmitCount s.trace + 1 := by
  rw [dac4822ABWrite_trace, transmitCount_append, dacSelect_transmitCount]
  simp [transmitCount]

theorem dacWrite_transmitCount (c : Config) (word12bits : Int) (d : Dac) (s : Engine) :
    transmitCount (dacWrite c word12bits d s).trace = transmitCount s.trace + 1 := by
  unfold dacWrite
  exact dac4822ABWrite_transmitCount _ _ _ s

theorem allDacs_complete (d : Dac) : d ∈ allDacs := by
  cases d <;> decide

theorem dacRoute_pairs_used :
    ∀ n < 8, ∀ b : Bool, ∃ d ∈ allDacs,
      (dacRoute d).1 = ((n : Nat) : Int) ∧ (dacRoute d).2.isChannelB = b := by
  decide

theorem dacRoute_sharing :
    ∀ d1 ∈ allDacs, ∀ d2 ∈ allDacs, d1 ≠ d2 → (dacRoute d1).1 = (dacRoute d2).1 →
      (dacRoute d1).2.isChannelB = (dacRoute d2).2.isChannelB →
      (mixerAlias d1 d2 || mixerAlias d2 d1) = true := by
  decide

/-- C4: `dacWrite` is a total lookup. Every logical output of its switch is written
with one transmit request to the pair `dacRoute` gives it, whose chip is in 0..7; each
of the 16 physical pairs (8 chips, channel A or B) is the pair of some output; two
distinct outputs share a physical pair only when they are an alias pair of the file
header (mixer input `inN` and the level it carries). -/
theorem C4_dacWrite_total_lookup :
    (∀ (c : Config) (w : Int) (d : Dac) (s : Engine),
        dacWrite c w d s
          = dac4822ABWrite w (dacRoute d).1 (c.channelCode (dacRoute d).2) s
        ∧ transmitCount (dacWrite c w d s).trace = transmitCount s.trace + 1
        ∧ 0 ≤ (dacRoute d).1 ∧ (dacRoute d).1 ≤ 7)
    ∧ (∀ (chip : Int) (b : Bool), 0 ≤ chip → chip ≤ 7 →
        ∃ d, (dacRoute d).1 = chip ∧ (dacRoute d).2.isChannelB = b)
    ∧ (∀ d1 d2 : Dac, d1 ≠ d2 → (dacRoute d1).1 = (dacRoute d2).1 →
        (dacRoute d1).2.isChannelB = (dacRoute d2).2.isChannelB →
        mixerAlias d1 d2 = true ∨ mixerAlias d2 d1 = true) := by
  refine ⟨?_, ?_, ?_⟩
  · intro c w d s
    refine ⟨rfl, dacWrite_transmitCount c w d s, ?_, ?_⟩ <;> cases d <;> decide
  · intro chip b h0 h7
    obtain ⟨n, rfl⟩ := Int.eq_ofNat_of_zero_le h0
    obtain ⟨d, _, h1, h2⟩ := dacRoute_pairs_used n (by omega) b
    exact ⟨d, h1, h2⟩
  · intro d1 d2 hne h1 h2
    have h := dacRoute_sharing d1 (allDacs_complete d1) d2 (allDacs_complete d2) hne h1 h2
    simpa [Bool.or_eq_true] using h

/-- Instance of C4: chip 4 channel B is used, and the two distinct outputs
`DAC_V2140D_VCA` and `DAC_V2140D_IN8` that share it are the alias pair `in8 = VCA`. -/
theorem C4_dacWrite_total_lookup_witness :
    (∃ d, (dacRoute d).1 = 4 ∧ (dacRoute d).2.isChannelB = true)
    ∧ (mixerAlias Dac.DAC_V2140D_VCA Dac.DAC_V2140D_IN8 = true
        ∨ mixerAlias Dac.DAC_V2140D_IN8 Dac.DAC_V2140D_VCA = true) :=
  ⟨C4_dacWrite_total_lookup.2.1 4 true (by decide) (by decide),
   C4_dacWrite_total_lookup.2.2 Dac.DAC_V2140D_VCA Dac.DAC_V2140D_IN8 (by decide) rfl rfl⟩

/-! ## Frame lemmas: DAC writes change the trace only -/

theorem three_writes (p0 p1 p2 : Pin) (l0 l1 l2 : Bool) (s : Engine) :
    HAL_GPIO_WritePin p0 l0 (HAL_GPIO_WritePin p1 l1 (HAL_GPIO_WritePin p2 l2 s))
      = { s with trace := s.trace
            ++ [HwEvent.gpioWrite p2 l2, HwEvent.gpioWrite p1 l1, HwEvent.gpioWrite p0 l0] } := by
  simp [HAL_GPIO_WritePin, emit]

theorem dacSelect_frame (chip : Int) (s : Engine) :
    ∃ evs, dacSelect chip s = { s with trace := s.trace ++ evs } ∧ transmitCount evs = 0 := by
  unfold dacSelect
  simp only []
  split_ifs
  all_goals first
    | exact ⟨_, three_writes _ _ _ _ _ _ s, rfl⟩
    | exact ⟨[], by simp, rfl⟩

theorem dac4822ABWrite_frame (word12bits chip channelAB : Int) (s : Engine) :
    ∃ evs, dac4822ABWrite word12bits chip channelAB s = { s with trace := s.trace ++ evs }
      ∧ transmitCount evs = 1 := by
  obtain ⟨evs, h, hc⟩ := dacSelect_frame chip s
  refine ⟨evs ++ [HwEvent.gpioWrite Pin.DAC_CS false,
    HwEvent.spiTransmit (txSpiDacsBuff word12bits channelAB).1
      (txSpiDacsBuff word12bits channelAB).2], ?_, ?_⟩
  · simp [dac4822ABWrite, h, emit, HAL_GPIO_WritePin]
  · simp [transmitCount_append, hc, transmitCount]

theorem dacWrite_frame (c : Config) (word12bits : Int) (d : Dac) (s : Engine) :
    ∃ evs, dacWrite c word12bits d s = { s with trace := s.trace ++ evs }
      ∧ transmitCount evs = 1 :=
  dac4822ABWrite_frame _ _ _ s

theorem dacVcaWrite_frame (c : Config) (a : ℚ) (s : Engine) :
    ∃ evs, dacVcaWrite c a s = { s with trace := s.trace ++ evs } ∧ transmitCount evs = 1 :=
  dacWrite_frame c _ _ s

theorem dacVcfCutoffWrite_frame (c : Config) (a : ℚ) (s : Engine) :
    ∃ evs, dacVcfCutoffWrite c a s = { s with trace := s.trace ++ evs }
      ∧ transmitCount evs = 1 :=
  dacWrite_frame c _ _ s

/-! ## Effect of the note handlers on the two machines -/


theorem midiNoteOnHandler_vca (c : Config) (s : Engine) :
    (midiNoteOnHandler c s).stateMachineVca =
      { velocitySensitivity := s.stateMachineVca.velocitySensitivity
        machineState := MachineState.ATTACK
        amplitude := 0
        tmpTargetLevel := (1 - s.stateMachineVca.velocitySensitivity)
          + ((s.midiNote.velocity : ℚ) / 127) * s.stateMachineVca.velocitySensitivity
        tmpDelta := c.ADSR_TIMER_PERIOD_MS
          * ((1 - s.stateMachineVca.velocitySensitivity)
            + ((s.midiNote.velocity : ℚ) / 127) * s.stateMachineVca.velocitySensitivity)
          / s.vcaAdsr.attackTimeMs } := by
  simp [midiNoteOnHandler, HAL_GPIO_WritePin, emit]

theorem midiNoteOffHandler_vca (c : Config) (s : Engine) :
    (midiNoteOffHandler c s).stateMachineVca =
      { s.stateMachineVca with
        machineState := MachineState.RELEASE
        tmpTargetLevel := 0
        tmpDelta := -c.ADSR_TIMER_PERIOD_MS * s.stateMachineVca.amplitude
          / s.vcaAdsr.releaseTimeMs } := by
  simp [midiNoteOffHandler, HAL_GPIO_WritePin, emit]

theorem midiNoteOffHandler_vcf (c : Config) (s : Engine) :
    (midiNoteOffHandler c s).stateMachineVcf =
      { s.stateMachineVcf with
        machineState := MachineState.RELEASE
        t := 0
        tMax := s.vcfAdsr.releaseTimeMs / c.ADSR_TIMER_PERIOD_MS
        tmpTargetLevel := s.globalParams.vcfCutoff
        tmpDelta := c.ADSR_TIMER_PERIOD_MS
          * (s.globalParams.vcfCutoff - s.stateMachineVcf.cutoffFrequency)
          / (s.vcfAdsr.releaseTimeMs / c.ADSR_TIMER_PERIOD_MS) } := by
  simp [midiNoteOffHandler, HAL_GPIO_WritePin, emit]

theorem midiNoteOnHandler_cutoff (c : Config) (s : Engine) :
    (midiNoteOnHandler c s).stateMachineVcf.cutoffFrequency = s.globalParams.vcfCutoff
    ∧ (midiNoteOnHandler c s).stateMachineVcf.machineState = MachineState.ATTACK
    ∧ (midiNoteOnHandler c s).vcaAdsr = s.vcaAdsr := by
  simp [midiNoteOnHandler, HAL_GPIO_WritePin, emit]

/-! ## Note handlers (C8, C10) -/

/-- C8: `midiNoteOnHandler` sets the VCA target to `(1 - s) + (v/127) * s` and the VCA
per-tick delta to `ADSR_TIMER_PERIOD_MS * target / attackTimeMs`, where `v` is the held
velocity and `s` the VCA velocity sensitivity. For `v` in 0..127 and `s` in `[0, 1]`
(only `0 ≤ s` is used) the target lies in `[1 - s, 1]`, equals 1 when `v = 127` or
`s = 0`, and does not decrease when the velocity grows. -/
theorem C8_note_on_vca_target (c : Config) (s : Engine)
    (hv : s.midiNote.velocity ≤ 127)
    (hs0 : 0 ≤ s.stateMachineVca.velocitySensitivity) :
    (midiNoteOnHandler c s).stateMachineVca.tmpTargetLevel
        = (1 - s.stateMachineVca.velocitySensitivity)
          + ((s.midiNote.velocity : ℚ) / 127) * s.stateMachineVca.velocitySensitivity
    ∧ (midiNoteOnHandler c s).stateMachineVca.tmpDelta
        = c.ADSR_TIMER_PERIOD_MS * (midiNoteOnHandler c s).stateMachineVca.tmpTargetLevel
          / s.vcaAdsr.attackTimeMs
    ∧ 1 - s.stateMachineVca.velocitySensitivity
        ≤ (midiNoteOnHandler c s).stateMachineVca.tmpTargetLevel
    ∧ (midiNoteOnHandler c s).stateMachineVca.tmpTargetLevel ≤ 1
    ∧ (s.midiNote.velocity = 127 ∨ s.stateMachineVca.velocitySensitivity = 0 →
        (midiNoteOnHandler c s).stateMachineVca.tmpTargetLevel = 1)
    ∧ (∀ s2 : Engine,
        s2.stateMachineVca.velocitySensitivity = s.stateMachineVca.velocitySensitivity →
        s.midiNote.velocity ≤ s2.midiNote.velocity →
        (midiNoteOnHandler c s).stateMachineVca.tmpTargetLevel
          ≤ (midiNoteOnHandler c s2).stateMachineVca.tmpTargetLevel) := by
  have hv' : (s.midiNote.velocity : ℚ) ≤ 127 := by exact_mod_cast hv
  have hv0 : (0 : ℚ) ≤ (s.midiNote.velocity : ℚ) := Nat.cast_nonneg _
  have hq1 : (s.midiNote.velocity : ℚ) / 127 ≤ 1 := by
    rw [div_le_one (by norm_num)]
    exact hv'
  have hq0 : (0 : ℚ) ≤ (s.midiNote.velocity : ℚ) / 127 := div_nonneg hv0 (by norm_num)
  refine ⟨by rw [midiNoteOnHandler_vca], by rw [midiNoteOnHandler_vca], ?_, ?_, ?_, ?_⟩
  · rw [midiNoteOnHandler_vca]
    have := mul_nonneg hq0 hs0
    simp only
    linarith
  · rw [midiNoteOnHandler_vca]
    have := mul_le_mul_of_nonneg_right hq1 hs0
    simp only
    linarith
  · rw [midiNoteOnHandler_vca]
    rintro (h | h)
    · simp only [h]
      norm_num
    · simp only [h]
      norm_num
  · intro s2 hsens hle
    rw [midiNoteOnHandler_vca, midiNoteOnHandler_vca]
    simp only [hsens]
    have hle' : (s.midiNote.velocity : ℚ) ≤ (s2.midiNote.velocity : ℚ) := by exact_mod_cast hle
    have hdiv : (s.midiNote.velocity : ℚ) / 127 ≤ (s2.midiNote.velocity : ℚ) / 127 :=
      div_le_div_of_nonneg_right hle' (by norm_num)
    have := mul_le_mul_of_nonneg_right hdiv hs0
    linarith

/-- Instance of C8 at the sample state (velocity 100, sensitivity 1/2). -/
theorem C8_note_on_vca_target_witness :
    sampleEngine.midiNote.velocity ≤ 127
    ∧ 0 ≤ sampleEngine.stateMachineVca.velocitySensitivity
    ∧ (midiNoteOnHandler sampleConfig sampleEngine).stateMachineVca.tmpTargetLevel
        = (1 - sampleEngine.stateMachineVca.velocitySensitivity)
          + ((sampleEngine.midiNote.velocity : ℚ) / 127)
            * sampleEngine.stateMachineVca.velocitySensitivity
    ∧ (midiNoteOnHandler sampleConfig sampleEngine).stateMachineVca.tmpTargetLevel ≤ 1 :=
  have h := C8_note_on_vca_target sampleConfig sampleEngine (by decide)
    (by norm_num [sampleEngine])
  ⟨by decide, by norm_num [sampleEngine], h.1, h.2.2.2.1⟩

/-- C10: for every engine state and every message whose status nibble is NOTE_OFF (any
channel, any data bytes), `processIncomingMidiMessage` puts both envelopes in RELEASE,
leaves the VCA amplitude and the VCF cutoff level unchanged, sets the VCA target to 0
with delta `-ADSR_TIMER_PERIOD_MS * amplitude / releaseTimeMs`, and sets the VCF target
to the baseline cutoff. NOTE_ON and NOTE_OFF are distinct `case` labels. -/
theorem C10_note_off_forces_release (c : Config) (s : Engine)
    (statusChannel data1 data2 : Nat)
    (hlabels : c.NOTE_ON ≠ c.NOTE_OFF)
    (hstatus : (statusChannel % 256) &&& 0xF0 = c.NOTE_OFF) :
    (processIncomingMidiMessage c statusChannel data1 data2 s).stateMachineVca.machineState
        = MachineState.RELEASE
    ∧ (processIncomingMidiMessage c statusChannel data1 data2 s).stateMachineVcf.machineState
        = MachineState.RELEASE
    ∧ (processIncomingMidiMessage c statusChannel data1 data2 s).stateMachineVca.amplitude
        = s.stateMachineVca.amplitude
    ∧ (processIncomingMidiMessage c statusChannel data1 data2 s).stateMachineVcf.cutoffFrequency
        = s.stateMachineVcf.cutoffFrequency
    ∧ (processIncomingMidiMessage c statusChannel data1 data2 s).stateMachineVca.tmpTargetLevel
        = 0
    ∧ (processIncomingMidiMessage c statusChannel data1 data2 s).stateMachineVca.tmpDelta
        = -c.ADSR_TIMER_PERIOD_MS * s.stateMachineVca.amplitude / s.vcaAdsr.releaseTimeMs
    ∧ (processIncomingMidiMessage c statusChannel data1 data2 s).stateMachineVcf.tmpTargetLevel
        = s.globalParams.vcfCutoff := by
  have hdisp : processIncomingMidiMessage c statusChannel data1 data2 s
      = midiNoteOffHandler c s := by
    have hne : ¬ (c.NOTE_OFF = c.NOTE_ON) := fun h => hlabels h.symm
    simp [processIncomingMidiMessage, hne, hstatus]
  rw [hdisp, midiNoteOffHandler_vca, midiNoteOffHandler_vcf]
  simp

/-- Instance of C10: NOTE_OFF on channel 3 (status byte `0x83`) while the sample note
sounds. -/
theorem C10_note_off_forces_release_witness :
    sampleConfig.NOTE_ON ≠ sampleConfig.NOTE_OFF
    ∧ (0x83 % 256) &&& 0xF0 = sampleConfig.NOTE_OFF
    ∧ (processIncomingMidiMessage sampleConfig 0x83 60 0 soundingEngine).stateMachineVca.machineState
        = MachineState.RELEASE
    ∧ (processIncomingMidiMessage sampleConfig 0x83 60 0 soundingEngine).stateMachineVca.amplitude
        = soundingEngine.stateMachineVca.amplitude :=
  have h := C10_note_off_forces_release sampleConfig soundingEngine 0x83 60 0
    (by decide) (by decide)
  ⟨by decide, by decide, h.1, h.2.2.1⟩

/-! ## Frame lemmas: a DAC write leaves every field but the trace -/

@[simp]
theorem dacWrite_vcaAdsr (c : Config) (w : Int) (d : Dac) (s : Engine) :
    (dacWrite c w d s).vcaAdsr = s.vcaAdsr := by
  obtain ⟨evs, h, _⟩ := dacWrite_frame c w d s
  rw [h]

@[simp]
theorem dacWrite_stateMachineVca (c : Config) (w : Int) (d : Dac) (s : Engine) :
    (dacWrite c w d s).stateMachineVca = s.stateMachineVca := by
  obtain ⟨evs, h, _⟩ := dacWrite_frame c w d s
  rw [h]

@[simp]
theorem dacWrite_vcfAdsr (c : Config) (w : Int) (d : Dac) (s : Engine) :
    (dacWrite c w d s).vcfAdsr = s.vcfAdsr := by
  obtain ⟨evs, h, _⟩ := dacWrite_frame c w d s
  rw [h]

@[simp]
theorem dacWrite_stateMachineVcf (c : Config) (w : Int) (d : Dac) (s : Engine) :
    (dacWrite c w d s).stateMachineVcf = s.stateMachineVcf := by
  obtain ⟨evs, h, _⟩ := dacWrite_frame c w d s
  rw [h]

@[simp]
theorem dacWrite_globalParams (c : Config) (w : Int) (d : Dac) (s : Engine) :
    (dacWrite c w d s).globalParams = s.globalParams := by
  obtain ⟨evs, h, _⟩ := dacWrite_frame c w d s
  rw [h]

@[simp]
theorem dacWrite_vco13700 (c : Config) (w : Int) (d : Dac) (s : Engine) :
    (dacWrite c w d s).vco13700 = s.vco13700 := by
  obtain ⟨evs, h, _⟩ := dacWrite_frame c w d s
  rw [h]

@[simp]
theorem dacWrite_vco3340 (c : Config) (w : Int) (d : Dac) (s : Engine) :
    (dacWrite c w d s).vco3340 = s.vco3340 := by
  obtain ⟨evs, h, _⟩ := dacWrite_frame c w d s
  rw [h]

@[simp]
theorem dacWrite_drumTriggers (c : Config) (w : Int) (d : Dac) (s : Engine) :
    (dacWrite c w d s).drumTriggers = s.drumTriggers := by
  obtain ⟨evs, h, _⟩ := dacWrite_frame c w d s
  rw [h]

@[simp]
theorem dacWrite_midiNote (c : Config) (w : Int) (d : Dac) (s : Engine) :
    (dacWrite c w d s).midiNote = s.midiNote := by
  obtain ⟨evs, h, _⟩ := dacWrite_frame c w d s
  rw [h]

@[simp]
theorem dacWrite_adsrInterruptCounter (c : Config) (w : Int) (d : Dac) (s : Engine) :
    (dacWrite c w d s).adsrInterruptCounter = s.adsrInterruptCounter := by
  obtain ⟨evs, h, _⟩ := dacWrite_frame c w d s
  rw [h]

@[simp]
theorem dacWrite_demoMode (c : Config) (w : Int) (d : Dac) (s : Engine) :
    (dacWrite c w d s).demoMode = s.demoMode := by
  obtain ⟨evs, h, _⟩ := dacWrite_frame c w d s
  rw [h]

@[simp]
theorem dacWrite_demoCounter (c : Config) (w : Int) (d : Dac) (s : Engine) :
    (dacWrite c w d s).demoCounter = s.demoCounter := by
  obtain ⟨evs, h, _⟩ := dacWrite_frame c w d s
  rw [h]

@[simp]
theorem dacWrite_demoNoteCounter (c : Config) (w : Int) (d : Dac) (s : Engine) :
    (dacWrite c w d s).demoNoteCounter = s.demoNoteCounter := by
  obtain ⟨evs, h, _⟩ := dacWrite_frame c w d s
  rw [h]

/-! ## The VCA machine under ticks -/

theorem updateVCA_vca (c : Config) (s : Engine) :
    (updateVCAEnveloppeStateMachine c s).stateMachineVca
        = vcaStep c.ADSR_TIMER_PERIOD_MS s.vcaAdsr s.stateMachineVca
    ∧ (updateVCAEnveloppeStateMachine c s).vcaAdsr = s.vcaAdsr := by
  unfold updateVCAEnveloppeStateMachine vcaStep
  cases hst : s.stateMachineVca.machineState with
  | IDLE => simp
  | ATTACK =>
    simp only [dacVcaWrite, dacWrite_stateMachineVca, dacWrite_vcaAdsr]
    split_ifs <;> simp [hst]
  | DECAY =>
    simp only [dacVcaWrite]
    split_ifs <;> simp [hst]
  | RELEASE =>
    simp only [dacVcaWrite]
    split_ifs <;> simp [hst]

theorem vcaTicks_vca (c : Config) (n : Nat) (s : Engine) :
    (vcaTicks c n s).stateMachineVca
        = (vcaStep c.ADSR_TIMER_PERIOD_MS s.vcaAdsr)^[n] s.stateMachineVca
    ∧ (vcaTicks c n s).vcaAdsr = s.vcaAdsr := by
  induction n generalizing s with
  | zero => simp [vcaTicks]
  | succ n ih =>
    have h := ih (updateVCAEnveloppeStateMachine c s)
    have hu := updateVCA_vca c s
    simp only [vcaTicks, Function.iterate_succ, Function.comp] at h ⊢
    rw [h.1, h.2, hu.1, hu.2]
    exact ⟨rfl, rfl⟩

theorem vcaTicks_add (c : Config) (m n : Nat) (s : Engine) :
    vcaTicks c (m + n) s = vcaTicks c n (vcaTicks c m s) := by
  simp only [vcaTicks]
  rw [Nat.add_comm, Function.iterate_add_apply]

/-- A ramp in ATTACK that stays below its target keeps adding the delta. -/
theorem vcaStep_attack_run (P : ℚ) (adsr : AdsrParams) (σ a T d : ℚ) (n : Nat)
    (h : ∀ i : Nat, i < n → a + ((i : ℚ) + 1) * d < T) :
    (vcaStep P adsr)^[n]
      { velocitySensitivity := σ, machineState := MachineState.ATTACK, amplitude := a,
        tmpTargetLevel := T, tmpDelta := d }
    = { velocitySensitivity := σ, machineState := MachineState.ATTACK,
        amplitude := a + (n : ℚ) * d, tmpTargetLevel := T, tmpDelta := d } := by
  induction n with
  | zero => simp
  | succ n ih =>
    rw [Function.iterate_succ_apply', ih (fun i hi => h i (Nat.lt_succ_of_lt hi))]
    have hn := h n (Nat.lt_succ_self n)
    have hlt : ¬ (a + (n : ℚ) * d + d ≥ T) := by
      have : a + (n : ℚ) * d + d = a + ((n : ℚ) + 1) * d := by ring
      rw [this]
      exact not_le.mpr hn
    simp only [vcaStep, hlt, if_false]
    congr 1
    push_cast
    ring

/-- The step of a ramp in ATTACK that reaches its target: the machine enters DECAY. -/
theorem vcaStep_attack_last (P : ℚ) (adsr : AdsrParams) (σ a T d : ℚ) (h : T ≤ a + d) :
    vcaStep P adsr
      { velocitySensitivity := σ, machineState := MachineState.ATTACK, amplitude := a,
        tmpTargetLevel := T, tmpDelta := d }
    = { velocitySensitivity := σ, machineState := MachineState.DECAY, amplitude := a + d,
        tmpTargetLevel := T * adsr.sustainLevel,
        tmpDelta := P * (T * adsr.sustainLevel - (a + d)) / adsr.decayTimeMs } := by
  have hge : a + d ≥ T := h
  simp only [vcaStep, hge, if_true]

/-- A ramp in DECAY that is above its target keeps adding the delta. -/
theorem vcaStep_decay_run (P : ℚ) (adsr : AdsrParams) (σ a T d : ℚ) (n : Nat)
    (h : ∀ i : Nat, i < n → T < a + (i : ℚ) * d) :
    (vcaStep P adsr)^[n]
      { velocitySensitivity := σ, machineState := MachineState.DECAY, amplitude := a,
        tmpTargetLevel := T, tmpDelta := d }
    = { velocitySensitivity := σ, machineState := MachineState.DECAY,
        amplitude := a + (n : ℚ) * d, tmpTargetLevel := T, tmpDelta := d } := by
  induction n with
  | zero => simp
  | succ n ih =>
    rw [Function.iterate_succ_apply', ih (fun i hi => h i (Nat.lt_succ_of_lt hi))]
    have hn : a + (n : ℚ) * d > T := h n (Nat.lt_succ_self n)
    simp only [vcaStep, hn, if_true]
    congr 1
    push_cast
    ring

/-- A machine in DECAY whose level is not above its target is parked for ever. -/
theorem vcaStep_decay_parked (P : ℚ) (adsr : AdsrParams) (m : StateMachineVca)
    (hst : m.machineState = MachineState.DECAY) (h : m.amplitude ≤ m.tmpTargetLevel) (n : Nat) :
    (vcaStep P adsr)^[n] m = m := by
  have hstep : vcaStep P adsr m = m := by
    have hn : ¬ (m.amplitude > m.tmpTargetLevel) := not_lt.mpr h
    simp only [vcaStep, hst, hn, if_false]
  exact Function.iterate_fixed hstep n

/-- A ramp in RELEASE whose level is positive keeps adding the delta. -/
theorem vcaStep_release_run (P : ℚ) (adsr : AdsrParams) (σ a T d : ℚ) (n : Nat)
    (h : ∀ i : Nat, i < n → 0 < a + (i : ℚ) * d) :
    (vcaStep P adsr)^[n]
      { velocitySensitivity := σ, machineState := MachineState.RELEASE, amplitude := a,
        tmpTargetLevel := T, tmpDelta := d }
    = { velocitySensitivity := σ, machineState := MachineState.RELEASE,
        amplitude := a + (n : ℚ) * d, tmpTargetLevel := T, tmpDelta := d } := by
  induction n with
  | zero => simp
  | succ n ih =>
    rw [Function.iterate_succ_apply', ih (fun i hi => h i (Nat.lt_succ_of_lt hi))]
    have hn : a + (n : ℚ) * d > 0 := h n (Nat.lt_succ_self n)
    simp only [vcaStep, hn, if_true]
    congr 1
    push_cast
    ring

/-- The step of a machine in RELEASE whose level is not positive: the machine goes IDLE. -/
theorem vcaStep_release_last (P : ℚ) (adsr : AdsrParams) (σ a T d : ℚ) (h : a ≤ 0) :
    vcaStep P adsr
      { velocitySensitivity := σ, machineState := MachineState.RELEASE, amplitude := a,
        tmpTargetLevel := T, tmpDelta := d }
    = { velocitySensitivity := σ, machineState := MachineState.IDLE, amplitude := a,
        tmpTargetLevel := T, tmpDelta := d } := by
  have hn : ¬ (a > 0) := not_lt.mpr h
  simp only [vcaStep, hn, if_false]

/-! ## Re-trigger (C9) -/

/-- C9 as stated fails: from the sample state with a note sounding (amplitude 1/2,
cutoff 3/4, baseline cutoff 1/4), `midiNoteOnHandler` changes both levels. -/
theorem C9_retrigger_counterexample :
    (midiNoteOnHandler sampleConfig soundingEngine).stateMachineVca.amplitude
        ≠ soundingEngine.stateMachineVca.amplitude
    ∧ (midiNoteOnHandler sampleConfig soundingEngine).stateMachineVcf.cutoffFrequency
        ≠ soundingEngine.stateMachineVcf.cutoffFrequency := by
  rw [midiNoteOnHandler_vca, (midiNoteOnHandler_cutoff _ _).1]
  norm_num [soundingEngine, sampleEngine]

/-- C9 (amended): for every state of the engine, `midiNoteOnHandler` sets the VCA
amplitude to 0 and the VCF cutoff level to the baseline cutoff `globalParams.vcfCutoff`,
whatever levels were held at the note-on, and puts both machines in ATTACK; the new VCA
attack ramp begins at 0: as long as it stays below the target, the amplitude after `k`
VCA ticks is `k` times the per-tick delta. -/
theorem C9_note_on_restarts_from_rest (c : Config) (s : Engine) (k : Nat)
    (hk : ∀ i : Nat, i < k →
      ((i : ℚ) + 1) * (midiNoteOnHandler c s).stateMachineVca.tmpDelta
        < (midiNoteOnHandler c s).stateMachineVca.tmpTargetLevel) :
    (midiNoteOnHandler c s).stateMachineVca.amplitude = 0
    ∧ (midiNoteOnHandler c s).stateMachineVcf.cutoffFrequency = s.globalParams.vcfCutoff
    ∧ (midiNoteOnHandler c s).globalParams = s.globalParams
    ∧ (midiNoteOnHandler c s).stateMachineVca.machineState = MachineState.ATTACK
    ∧ (midiNoteOnHandler c s).stateMachineVcf.machineState = MachineState.ATTACK
    ∧ (vcaTicks c k (midiNoteOnHandler c s)).stateMachineVca.amplitude
        = (k : ℚ) * (midiNoteOnHandler c s).stateMachineVca.tmpDelta := by
  have hrest : (midiNoteOnHandler c s).stateMachineVca.amplitude = 0
      ∧ (midiNoteOnHandler c s).stateMachineVcf.cutoffFrequency = s.globalParams.vcfCutoff
      ∧ (midiNoteOnHandler c s).globalParams = s.globalParams
      ∧ (midiNoteOnHandler c s).stateMachineVca.machineState = MachineState.ATTACK
      ∧ (midiNoteOnHandler c s).stateMachineVcf.machineState = MachineState.ATTACK := by
    simp [midiNoteOnHandler, HAL_GPIO_WritePin, emit]
  refine ⟨hrest.1, hrest.2.1, hrest.2.2.1, hrest.2.2.2.1, hrest.2.2.2.2, ?_⟩
  rw [(vcaTicks_vca c k _).1]
  rw [midiNoteOnHandler_vca] at hk ⊢
  rw [vcaStep_attack_run _ _ _ 0 _ _ k (by
    intro i hi
    have := hk i hi
    simp only at this
    linarith)]
  simp

/-- Instance of the amended C9: a note-on while the sample note sounds at amplitude 1/2
resets the amplitude to 0, and three VCA ticks later it is three per-tick deltas. -/
theorem C9_note_on_restarts_from_rest_witness :
    (∀ i : Nat, i < 3 →
      ((i : ℚ) + 1) * (midiNoteOnHandler sampleConfig soundingEngine).stateMachineVca.tmpDelta
        < (midiNoteOnHandler sampleConfig soundingEngine).stateMachineVca.tmpTargetLevel)
    ∧ soundingEngine.stateMachineVca.amplitude = 1 / 2
    ∧ (midiNoteOnHandler sampleConfig soundingEngine).stateMachineVca.amplitude = 0
    ∧ (vcaTicks sampleConfig 3
          (midiNoteOnHandler sampleConfig soundingEngine)).stateMachineVca.amplitude
        = ((3 : Nat) : ℚ)
          * (midiNoteOnHandler sampleConfig soundingEngine).stateMachineVca.tmpDelta :=
  have hk : ∀ i : Nat, i < 3 →
      ((i : ℚ) + 1) * (midiNoteOnHandler sampleConfig soundingEngine).stateMachineVca.tmpDelta
        < (midiNoteOnHandler sampleConfig soundingEngine).stateMachineVca.tmpTargetLevel := by
    intro i hi
    rw [midiNoteOnHandler_vca]
    interval_cases i <;> norm_num [soundingEngine, sampleEngine, sampleConfig]
  have h := C9_note_on_restarts_from_rest sampleConfig soundingEngine 3 hk
  ⟨hk, rfl, h.1, h.2.2.2.2.2⟩

/-! ## Concrete VCA scenario (C7) -/

theorem scenario_attack_leg (σ : ℚ) :
    (vcaStep 1 scenarioAdsr)^[10]
      { velocitySensitivity := σ, machineState := MachineState.ATTACK, amplitude := 0,
        tmpTargetLevel := 1, tmpDelta := 1 / 10 }
    = { velocitySensitivity := σ, machineState := MachineState.DECAY, amplitude := 1,
        tmpTargetLevel := 1 / 2, tmpDelta := -1 / 40 } := by
  have hrun := vcaStep_attack_run 1 scenarioAdsr σ 0 1 (1 / 10) 9 (by
    intro i hi
    have : (i : ℚ) ≤ 8 := by exact_mod_cast Nat.le_of_lt_succ hi
    linarith)
  have hten : (10 : Nat) = 9 + 1 := rfl
  rw [hten, Function.iterate_succ_apply', hrun,
    vcaStep_attack_last 1 scenarioAdsr σ _ 1 (1 / 10) (by norm_num)]
  simp only [scenarioAdsr]
  norm_num

theorem scenario_decay_leg (σ : ℚ) :
    (vcaStep 1 scenarioAdsr)^[20]
      { velocitySensitivity := σ, machineState := MachineState.DECAY, amplitude := 1,
        tmpTargetLevel := 1 / 2, tmpDelta := -1 / 40 }
    = { velocitySensitivity := σ, machineState := MachineState.DECAY, amplitude := 1 / 2,
        tmpTargetLevel := 1 / 2, tmpDelta := -1 / 40 } := by
  rw [vcaStep_decay_run 1 scenarioAdsr σ 1 (1 / 2) (-1 / 40) 20 (by
    intro i hi
    have : (i : ℚ) ≤ 19 := by exact_mod_cast Nat.le_of_lt_succ hi
    linarith)]
  norm_num

theorem scenario_release_leg (σ : ℚ) :
    (vcaStep 1 scenarioAdsr)^[10]
      { velocitySensitivity := σ, machineState := MachineState.RELEASE, amplitude := 1 / 2,
        tmpTargetLevel := 0, tmpDelta := -1 / 20 }
    = { velocitySensitivity := σ, machineState := MachineState.RELEASE, amplitude := 0,
        tmpTargetLevel := 0, tmpDelta := -1 / 20 } := by
  rw [vcaStep_release_run 1 scenarioAdsr σ (1 / 2) 0 (-1 / 20) 10 (by
    intro i hi
    have : (i : ℚ) ≤ 9 := by exact_mod_cast Nat.le_of_lt_succ hi
    linarith)]
  norm_num

/-- The VCA machine 30 ticks after a note-on of velocity 127 in the scenario. -/
theorem scenario_parked (c : Config) (s : Engine) (hP : c.ADSR_TIMER_PERIOD_MS = 1)
    (hadsr : s.vcaAdsr = scenarioAdsr) (hvel : s.midiNote.velocity = 127) :
    (vcaTicks c 10 (midiNoteOnHandler c s)).stateMachineVca
      = { velocitySensitivity := s.stateMachineVca.velocitySensitivity,
          machineState := MachineState.DECAY, amplitude := 1, tmpTargetLevel := 1 / 2,
          tmpDelta := -1 / 40 }
    ∧ (vcaTicks c 20 (vcaTicks c 10 (midiNoteOnHandler c s))).stateMachineVca
      = { velocitySensitivity := s.stateMachineVca.velocitySensitivity,
          machineState := MachineState.DECAY, amplitude := 1 / 2, tmpTargetLevel := 1 / 2,
          tmpDelta := -1 / 40 }
    ∧ (vcaTicks c 20 (vcaTicks c 10 (midiNoteOnHandler c s))).vcaAdsr = scenarioAdsr := by
  have hon : (midiNoteOnHandler c s).stateMachineVca
      = { velocitySensitivity := s.stateMachineVca.velocitySensitivity,
          machineState := MachineState.ATTACK, amplitude := 0, tmpTargetLevel := 1,
          tmpDelta := 1 / 10 } := by
    rw [midiNoteOnHandler_vca, hP, hadsr, hvel]
    simp only [scenarioAdsr]
    norm_num
  have hcfg : (midiNoteOnHandler c s).vcaAdsr = scenarioAdsr := by
    rw [(midiNoteOnHandler_cutoff c s).2.2, hadsr]
  have h10 := vcaTicks_vca c 10 (midiNoteOnHandler c s)
  rw [hP, hcfg, hon, scenario_attack_leg] at h10
  have h20 := vcaTicks_vca c 20 (vcaTicks c 10 (midiNoteOnHandler c s))
  rw [hP, h10.2, h10.1, scenario_decay_leg] at h20
  exact ⟨h10.1, h20.1, h20.2⟩

/-- The VCA machine `n` ticks after a note-off received in the parked state. -/
theorem scenario_release (c : Config) (s : Engine) (hP : c.ADSR_TIMER_PERIOD_MS = 1)
    (hadsr : s.vcaAdsr = scenarioAdsr) (σ : ℚ)
    (hm : s.stateMachineVca
      = { velocitySensitivity := σ, machineState := MachineState.DECAY, amplitude := 1 / 2,
          tmpTargetLevel := 1 / 2, tmpDelta := -1 / 40 }) :
    (vcaTicks c 10 (midiNoteOffHandler c s)).stateMachineVca
      = { velocitySensitivity := σ, machineState := MachineState.RELEASE, amplitude := 0,
          tmpTargetLevel := 0, tmpDelta := -1 / 20 }
    ∧ (vcaTicks c 11 (midiNoteOffHandler c s)).stateMachineVca
      = { velocitySensitivity := σ, machineState := MachineState.IDLE, amplitude := 0,
          tmpTargetLevel := 0, tmpDelta := -1 / 20 } := by
  have hoff : (midiNoteOffHandler c s).stateMachineVca
      = { velocitySensitivity := σ, machineState := MachineState.RELEASE, amplitude := 1 / 2,
          tmpTargetLevel := 0, tmpDelta := -1 / 20 } := by
    rw [midiNoteOffHandler_vca, hP, hadsr, hm]
    simp only [scenarioAdsr]
    norm_num
  have hcfg : (midiNoteOffHandler c s).vcaAdsr = scenarioAdsr := by
    rw [← hadsr]
    simp [midiNoteOffHandler, HAL_GPIO_WritePin, emit]
  have h10 := vcaTicks_vca c 10 (midiNoteOffHandler c s)
  rw [hP, hcfg, hoff, scenario_release_leg] at h10
  have h11 := vcaTicks_vca c 11 (midiNoteOffHandler c s)
  have heleven : (11 : Nat) = 10 + 1 := rfl
  rw [hP, hcfg, hoff, heleven, Function.iterate_succ_apply', scenario_release_leg,
    vcaStep_release_last 1 scenarioAdsr σ 0 0 (-1 / 20) (le_refl 0)] at h11
  exact ⟨h10.1, h11.1⟩

/-- C7 as stated fails at its last step: in the sample configuration (attack 10 ms,
decay 20 ms, sustain 1/2, release 10 ms, period 1 ms), after a note-on of velocity 127,
30 VCA ticks, a note-off and exactly 10 more VCA ticks, the level is 0 but the machine
is still in RELEASE, not IDLE. -/
theorem C7_release_counterexample :
    sampleConfig.ADSR_TIMER_PERIOD_MS = 1
    ∧ scenarioEngine.vcaAdsr = scenarioAdsr
    ∧ scenarioEngine.stateMachineVca.machineState = MachineState.IDLE
    ∧ scenarioEngine.midiNote.velocity = 127
    ∧ (vcaTicks sampleConfig 10 (midiNoteOffHandler sampleConfig
        (vcaTicks sampleConfig 20 (vcaTicks sampleConfig 10
          (midiNoteOnHandler sampleConfig scenarioEngine))))).stateMachineVca.machineState
        ≠ MachineState.IDLE := by
  have hpark := scenario_parked sampleConfig scenarioEngine rfl rfl rfl
  have hrel := scenario_release sampleConfig _ rfl hpark.2.2 _ hpark.2.1
  refine ⟨rfl, rfl, rfl, rfl, ?_⟩
  rw [hrel.1]
  decide

/-- C7 (amended): with attack 10 ms, decay 20 ms, sustain 1/2, release 10 ms and an
envelope tick period of 1 ms, a note-on with velocity 127 followed by 10 VCA ticks
leaves the machine in DECAY with target 1/2; 20 further ticks leave the level equal to
1/2 and every later tick keeps the machine unchanged; a note-off at that point followed
by exactly 10 VCA ticks leaves the level 0 with the machine still in RELEASE, and the
11th tick leaves state IDLE and level 0. -/
theorem C7_vca_scenario (c : Config) (s : Engine) (hP : c.ADSR_TIMER_PERIOD_MS = 1)
    (hadsr : s.vcaAdsr = scenarioAdsr) (hvel : s.midiNote.velocity = 127) :
    (vcaTicks c 10 (midiNoteOnHandler c s)).stateMachineVca.machineState = MachineState.DECAY
    ∧ (vcaTicks c 10 (midiNoteOnHandler c s)).stateMachineVca.tmpTargetLevel = 1 / 2
    ∧ (vcaTicks c 20 (vcaTicks c 10 (midiNoteOnHandler c s))).stateMachineVca.amplitude = 1 / 2
    ∧ (∀ n : Nat,
        (vcaTicks c n (vcaTicks c 20 (vcaTicks c 10 (midiNoteOnHandler c s)))).stateMachineVca
          = (vcaTicks c 20 (vcaTicks c 10 (midiNoteOnHandler c s))).stateMachineVca)
    ∧ (vcaTicks c 10 (midiNoteOffHandler c
        (vcaTicks c 20 (vcaTicks c 10 (midiNoteOnHandler c s))))).stateMachineVca.machineState
        = MachineState.RELEASE
    ∧ (vcaTicks c 10 (midiNoteOffHandler c
        (vcaTicks c 20 (vcaTicks c 10 (midiNoteOnHandler c s))))).stateMachineVca.amplitude = 0
    ∧ (vcaTicks c 11 (midiNoteOffHandler c
        (vcaTicks c 20 (vcaTicks c 10 (midiNoteOnHandler c s))))).stateMachineVca.machineState
        = MachineState.IDLE
    ∧ (vcaTicks c 11 (midiNoteOffHandler c
        (vcaTicks c 20 (vcaTicks c 10 (midiNoteOnHandler c s))))).stateMachineVca.amplitude
        = 0 := by
  obtain ⟨h10, h30, hcfg⟩ := scenario_parked c s hP hadsr hvel
  obtain ⟨hr10, hr11⟩ := scenario_release c _ hP hcfg _ h30
  refine ⟨by rw [h10], by rw [h10], by rw [h30], ?_, by rw [hr10], by rw [hr10],
    by rw [hr11], by rw [hr11]⟩
  intro n
  rw [(vcaTicks_vca c n _).1]
  exact vcaStep_decay_parked _ _ _ (by rw [h30]) (by rw [h30]) n

/-- Instance of the amended C7 at the sample configuration and state. -/
theorem C7_vca_scenario_witness :
    sampleConfig.ADSR_TIMER_PERIOD_MS = 1
    ∧ scenarioEngine.vcaAdsr = scenarioAdsr
    ∧ scenarioEngine.midiNote.velocity = 127
    ∧ (vcaTicks sampleConfig 10
        (midiNoteOnHandler sampleConfig scenarioEngine)).stateMachineVca.machineState
        = MachineState.DECAY
    ∧ (vcaTicks sampleConfig 11 (midiNoteOffHandler sampleConfig
        (vcaTicks sampleConfig 20 (vcaTicks sampleConfig 10
          (midiNoteOnHandler sampleConfig scenarioEngine))))).stateMachineVca.machineState
        = MachineState.IDLE :=
  have h := C7_vca_scenario sampleConfig scenarioEngine rfl rfl rfl
  ⟨rfl, rfl, rfl, h.1, h.2.2.2.2.2.2.1⟩

/-! ## Tick scheduler: phase arithmetic -/

theorem updateDrumMachine_frame (s : Engine) :
    (updateDrumMachine s).adsrInterruptCounter = s.adsrInterruptCounter
    ∧ (updateDrumMachine s).demoMode = s.demoMode
    ∧ (updateDrumMachine s).midiNote = s.midiNote := by
  have h1 : ∀ t : Engine, (updateBassdrum t).adsrInterruptCounter = t.adsrInterruptCounter
      ∧ (updateBassdrum t).demoMode = t.demoMode ∧ (updateBassdrum t).midiNote = t.midiNote := by
    intro t
    simp only [updateBassdrum, HAL_GPIO_WritePin, emit]
    refine ⟨?_, ?_, ?_⟩ <;> (split_ifs <;> rfl)
  have h2 : ∀ t : Engine, (updateRimshot t).adsrInterruptCounter = t.adsrInterruptCounter
      ∧ (updateRimshot t).demoMode = t.demoMode ∧ (updateRimshot t).midiNote = t.midiNote := by
    intro t
    simp only [updateRimshot, HAL_GPIO_WritePin, emit]
    refine ⟨?_, ?_, ?_⟩ <;> (split_ifs <;> rfl)
  have h3 : ∀ t : Engine, (updateSnare t).adsrInterruptCounter = t.adsrInterruptCounter
      ∧ (updateSnare t).demoMode = t.demoMode ∧ (updateSnare t).midiNote = t.midiNote := by
    intro t
    simp only [updateSnare, HAL_GPIO_WritePin, emit]
    refine ⟨?_, ?_, ?_⟩ <;> (split_ifs <;> rfl)
  have h4 : ∀ t : Engine, (updateLowtom t).adsrInterruptCounter = t.adsrInterruptCounter
      ∧ (updateLowtom t).demoMode = t.demoMode ∧ (updateLowtom t).midiNote = t.midiNote := by
    intro t
    simp only [updateLowtom, HAL_GPIO_WritePin, emit]
    refine ⟨?_, ?_, ?_⟩ <;> (split_ifs <;> rfl)
  have h5 : ∀ t : Engine, (updateHightom t).adsrInterruptCounter = t.adsrInterruptCounter
      ∧ (updateHightom t).demoMode = t.demoMode ∧ (updateHightom t).midiNote = t.midiNote := by
    intro t
    simp only [updateHightom, HAL_GPIO_WritePin, emit]
    refine ⟨?_, ?_, ?_⟩ <;> (split_ifs <;> rfl)
  unfold updateDrumMachine
  refine ⟨?_, ?_, ?_⟩
  · rw [(h5 _).1, (h4 _).1, (h3 _).1, (h2 _).1, (h1 _).1]
  · rw [(h5 _).2.1, (h4 _).2.1, (h3 _).2.1, (h2 _).2.1, (h1 _).2.1]
  · rw [(h5 _).2.2, (h4 _).2.2, (h3 _).2.2, (h2 _).2.2, (h1 _).2.2]

theorem updateVCA_frame (c : Config) (s : Engine) :
    (updateVCAEnveloppeStateMachine c s).adsrInterruptCounter = s.adsrInterruptCounter
    ∧ (updateVCAEnveloppeStateMachine c s).demoMode = s.demoMode
    ∧ (updateVCAEnveloppeStateMachine c s).midiNote = s.midiNote := by
  unfold updateVCAEnveloppeStateMachine
  cases hst : s.stateMachineVca.machineState <;>
    simp only [dacVcaWrite] <;> refine ⟨?_, ?_, ?_⟩ <;>
    first
      | trivial
      | (split_ifs <;>
          simp only [dacWrite_adsrInterruptCounter, dacWrite_demoMode, dacWrite_midiNote])

theorem updateVCF_frame (c : Config) (s : Engine) :
    (updateVCFEnveloppeStateMachine c s).adsrInterruptCounter = s.adsrInterruptCounter
    ∧ (updateVCFEnveloppeStateMachine c s).demoMode = s.demoMode
    ∧ (updateVCFEnveloppeStateMachine c s).midiNote = s.midiNote := by
  unfold updateVCFEnveloppeStateMachine
  cases hst : s.stateMachineVca.machineState
  · exact ⟨rfl, rfl, rfl⟩
  · simp -zeta only []
    lift_lets
    intro s1 s2
    have h1 : s1.adsrInterruptCounter = s.adsrInterruptCounter := dacWrite_adsrInterruptCounter _ _ _ _
    have h2 : s1.demoMode = s.demoMode := dacWrite_demoMode _ _ _ _
    have h3 : s1.midiNote = s.midiNote := dacWrite_midiNote _ _ _ _
    refine ⟨?_, ?_, ?_⟩
    · split_ifs
      · exact h1
      · exact h1
    · split_ifs
      · exact h2
      · exact h2
    · split_ifs
      · exact h3
      · exact h3
  all_goals
    simp -zeta only []
    lift_lets
    intros
    refine ⟨?_, ?_, ?_⟩
    · split_ifs
      · exact (dacWrite_adsrInterruptCounter _ _ _ _).trans rfl
      · rfl
    · split_ifs
      · exact (dacWrite_demoMode _ _ _ _).trans rfl
      · rfl
    · split_ifs
      · exact (dacWrite_midiNote _ _ _ _).trans rfl
      · rfl

theorem runSlowUpdate_frame (c : Config) (u : SlowUpdate) (s : Engine)
    (hnote : s.midiNote.note < 128) :
    ∃ s1, runSlowUpdate c u s = some s1
      ∧ s1.adsrInterruptCounter = s.adsrInterruptCounter
      ∧ s1.demoMode = s.demoMode ∧ s1.midiNote = s.midiNote := by
  cases u with
  | pitch13700 =>
    have hlen : s.midiNote.note < midiToVCO13700CV.length := hnote
    have hcv : ∃ cv, midiToVCO13700CV[s.midiNote.note]? = some cv :=
      ⟨_, List.getElem?_eq_getElem hlen⟩
    obtain ⟨cv, hcv⟩ := hcv
    refine ⟨dacWrite c cv Dac.DAC_VCO_13700 s, ?_, by simp, by simp, by simp⟩
    simp only [runSlowUpdate, hcv, Option.map_some']
  | pitch3340 =>
    have hlen : s.midiNote.note < midiToVCO3340CV.length := hnote
    have hcv : ∃ cv, midiToVCO3340CV[s.midiNote.note]? = some cv :=
      ⟨_, List.getElem?_eq_getElem hlen⟩
    obtain ⟨cv, hcv⟩ := hcv
    refine ⟨dacWrite c cv Dac.DAC_VCO_3340_FREQ s, ?_, by simp, by simp, by simp⟩
    simp only [runSlowUpdate, hcv, Option.map_some']
  | vcaEnvelope => exact ⟨_, rfl, updateVCA_frame c s⟩
  | vcfEnvelope => exact ⟨_, rfl, updateVCF_frame c s⟩

theorem slow_stage (c : Config) (t : Engine) (hnote : t.midiNote.note < 128) :
    ∃ s1, (match selectSlowUpdate t.adsrInterruptCounter with
            | some u => runSlowUpdate c u t
            | none => some t) = some s1
      ∧ s1.adsrInterruptCounter = t.adsrInterruptCounter
      ∧ s1.demoMode = t.demoMode ∧ s1.midiNote = t.midiNote := by
  cases hsel : selectSlowUpdate t.adsrInterruptCounter with
  | none => exact ⟨t, rfl, rfl, rfl, rfl⟩
  | some u => exact runSlowUpdate_frame c u t hnote

/-- One tick with demo mode off: the handler returns, the phase counter advances
cyclically, demo mode and held note are unchanged. -/
theorem tick_demo_off (c : Config) (s : Engine) (hdemo : s.demoMode ≠ 1)
    (hnote : s.midiNote.note < 128) :
    ∃ s1, HAL_TIM_PeriodElapsedCallback c s = some s1
      ∧ s1.adsrInterruptCounter
          = (if s.adsrInterruptCounter + 1 = c.ADSR_TIMER_PERIOD_FACTOR then 0
             else s.adsrInterruptCounter + 1)
      ∧ s1.demoMode = s.demoMode ∧ s1.midiNote = s.midiNote := by
  unfold HAL_TIM_PeriodElapsedCallback
  lift_lets
  intro sA sB sC s0 r
  have hB := updateDrumMachine_frame sA
  have hC1 : sC.adsrInterruptCounter = s.adsrInterruptCounter + 1 := by
    show sB.adsrInterruptCounter + 1 = _
    rw [show sB.adsrInterruptCounter = s.adsrInterruptCounter from hB.1]
  have hC2 : sC.demoMode = s.demoMode := hB.2.1
  have hC3 : sC.midiNote = s.midiNote := hB.2.2
  have h01 : s0.adsrInterruptCounter = 0 := rfl
  have h02 : s0.demoMode = sC.demoMode := rfl
  have h03 : s0.midiNote = sC.midiNote := rfl
  have hrdef : r = if sC.adsrInterruptCounter = c.ADSR_TIMER_PERIOD_FACTOR then
      (if s0.demoMode = 1 then playDemo c s0 else some s0) else some sC := rfl
  clear_value r s0 sC sB sA
  clear hB
  by_cases hK : s.adsrInterruptCounter + 1 = c.ADSR_TIMER_PERIOD_FACTOR
  · have hr : r = some s0 := by
      rw [hrdef, if_pos (hC1.trans hK), if_neg (by rw [h02, hC2]; exact hdemo)]
    obtain ⟨s1, h1, h2, h3, h4⟩ := slow_stage c s0 (by rw [h03, hC3]; exact hnote)
    refine ⟨s1, ?_, ?_, ?_, ?_⟩
    · rw [hr]
      exact h1
    · rw [h2, if_pos hK, h01]
    · rw [h3, h02, hC2]
    · rw [h4, h03, hC3]
  · have hr : r = some sC := by
      rw [hrdef, if_neg (by rw [hC1]; exact hK)]
    obtain ⟨s1, h1, h2, h3, h4⟩ := slow_stage c sC (by rw [hC3]; exact hnote)
    refine ⟨s1, ?_, ?_, ?_, ?_⟩
    · rw [hr]
      exact h1
    · rw [h2, if_neg hK, hC1]
    · rw [h3, hC2]
    · rw [h4, hC3]

theorem emod_small (a K : Int) (h0 : 0 ≤ a) (h1 : a < K) : a % K = a :=
  Int.emod_eq_of_lt h0 h1

theorem emod_wrap (a K : Int) (h0 : K ≤ a) (h1 : a < 2 * K) : a % K = a - K := by
  have h : a % K = (a - K) % K := by
    rw [Int.sub_emod, Int.emod_self, sub_zero, Int.emod_emod]
  rw [h]
  exact Int.emod_eq_of_lt (by omega) (by omega)

theorem emod_below (a K : Int) (h0 : -K ≤ a) (h1 : a < 0) : a % K = a + K := by
  have h : a % K = (a + K) % K := by
    rw [Int.add_emod, Int.emod_self, add_zero, Int.emod_emod]
  rw [h]
  exact Int.emod_eq_of_lt (by omega) (by omega)

theorem phase_step (a K : Int) (h0 : 0 ≤ a) (h1 : a < K) :
    (if a + 1 = K then 0 else a + 1) = (a + 1) % K := by
  split_ifs with h
  · rw [h, Int.emod_self]
  · rw [emod_small (a + 1) K (by omega) (by omega)]

theorem selectSlowUpdate_iff (x : Int) (u : SlowUpdate) :
    selectSlowUpdate x = some u ↔ x = u.phase := by
  unfold selectSlowUpdate
  by_cases h0 : x = 0
  · subst h0
    cases u <;> simp [SlowUpdate.phase]
  by_cases h1 : x = 1
  · subst h1
    cases u <;> simp [SlowUpdate.phase]
  by_cases h2 : x = 2
  · subst h2
    cases u <;> simp [SlowUpdate.phase]
  by_cases h3 : x = 3
  · subst h3
    cases u <;> simp [SlowUpdate.phase]
  simp only [h0, h1, h2, h3, if_false]
  cases u <;> simp [SlowUpdate.phase, h0, h1, h2, h3]

/-- A run of ticks with demo mode off: every tick returns and the phase counter after
`j` ticks is `(p + j) mod K`. -/
theorem runTicks_demo_off (c : Config) (j : Nat) (s : Engine)
    (hp0 : 0 ≤ s.adsrInterruptCounter)
    (hp : s.adsrInterruptCounter < c.ADSR_TIMER_PERIOD_FACTOR)
    (hdemo : s.demoMode ≠ 1) (hnote : s.midiNote.note < 128) :
    ∃ sj, runTicks c j s = some sj
      ∧ sj.adsrInterruptCounter
          = (s.adsrInterruptCounter + (j : Int)) % c.ADSR_TIMER_PERIOD_FACTOR
      ∧ sj.demoMode = s.demoMode ∧ sj.midiNote = s.midiNote := by
  induction j generalizing s with
  | zero =>
    refine ⟨s, rfl, ?_, rfl, rfl⟩
    rw [Nat.cast_zero, add_zero, emod_small _ _ hp0 hp]
  | succ j ih =>
    obtain ⟨s1, h1, hc, hd, hn⟩ := tick_demo_off c s hdemo hnote
    rw [phase_step _ _ hp0 hp] at hc
    have hKpos : 0 < c.ADSR_TIMER_PERIOD_FACTOR := by omega
    obtain ⟨sj, hj, hcj, hdj, hnj⟩ := ih s1
      (by rw [hc]; exact Int.emod_nonneg _ (by omega))
      (by rw [hc]; exact Int.emod_lt_of_pos _ hKpos)
      (by rw [hd]; exact hdemo) (by rw [hn]; exact hnote)
    refine ⟨sj, ?_, ?_, by rw [hdj, hd], by rw [hnj, hn]⟩
    · simp only [runTicks, h1, Option.some_bind]
      exact hj
    · rw [hcj, hc, Int.emod_add_emod]
      congr 1
      push_cast
      ring

/-- The slow update performed by tick `j` of such a run is the one selected by the
phase `(p + j + 1) mod K`. -/
theorem performedAt_demo_off (c : Config) (j : Nat) (s : Engine)
    (hp0 : 0 ≤ s.adsrInterruptCounter)
    (hp : s.adsrInterruptCounter < c.ADSR_TIMER_PERIOD_FACTOR)
    (hdemo : s.demoMode ≠ 1) (hnote : s.midiNote.note < 128) :
    performedAt c s j
      = selectSlowUpdate
          ((s.adsrInterruptCounter + (j : Int) + 1) % c.ADSR_TIMER_PERIOD_FACTOR) := by
  obtain ⟨sj, hj, hcj, hdj, hnj⟩ := runTicks_demo_off c j s hp0 hp hdemo hnote
  have hKpos : 0 < c.ADSR_TIMER_PERIOD_FACTOR := by omega
  have hsj0 : 0 ≤ sj.adsrInterruptCounter := by
    rw [hcj]
    exact Int.emod_nonneg _ (by omega)
  have hsj1 : sj.adsrInterruptCounter < c.ADSR_TIMER_PERIOD_FACTOR := by
    rw [hcj]
    exact Int.emod_lt_of_pos _ hKpos
  obtain ⟨s1, h1, hc, _, _⟩ := tick_demo_off c sj (by rw [hdj]; exact hdemo)
    (by rw [hnj]; exact hnote)
  rw [phase_step _ _ hsj0 hsj1, hcj, Int.emod_add_emod] at hc
  simp only [performedAt, hj, Option.some_bind, performedUpdate, h1, hc]

theorem phase_bounds (u : SlowUpdate) : 0 ≤ u.phase ∧ u.phase ≤ 3 := by
  cases u <;> simp [SlowUpdate.phase]

/-- For `0 ≤ p, j < K` and a phase `φ < K`: `(p + j + 1) mod K = φ` exactly when
`j = (φ - 1 - p) mod K`. -/
theorem phase_tick_iff (p j φ K : Int) (hp0 : 0 ≤ p) (hp : p < K) (hj0 : 0 ≤ j) (hj : j < K)
    (hφ0 : 0 ≤ φ) (hφ : φ < K) :
    (p + j + 1) % K = φ ↔ j = (φ - 1 - p) % K := by
  rcases lt_or_le (p + j + 1) K with hA | hA
  · rw [emod_small _ _ (by omega) hA]
    rcases lt_or_le (φ - 1 - p) 0 with hB | hB
    · rw [emod_below _ _ (by omega) hB]
      omega
    · rw [emod_small _ _ hB (by omega)]
      omega
  · rw [emod_wrap _ _ hA (by omega)]
    rcases lt_or_le (φ - 1 - p) 0 with hB | hB
    · rw [emod_below _ _ (by omega) hB]
      omega
    · rw [emod_small _ _ hB (by omega)]
      omega

/-! ## Single outstanding transfer (C5) -/

/-- Overlaps counted by the gate over a list of hardware events: every transmit request
but the first one, and the first one too when the gate is already busy. -/
theorem gate_fold (evs : List HwEvent) (g : Gate) :
    (evs.foldl Gate.observe g).overlaps
      = g.overlaps + (if g.busy then transmitCount evs else transmitCount evs - 1) := by
  induction evs generalizing g with
  | nil => simp [transmitCount]
  | cons e tr ih =>
    cases e with
    | gpioWrite p l =>
      simp only [List.foldl_cons, Gate.observe, transmitCount]
      exact ih g
    | spiTransmit b0 b1 =>
      simp only [List.foldl_cons, Gate.observe, transmitCount]
      rw [ih]
      cases hb : g.busy
      · simp
      · simp
        omega

/-- A control change addressed to `WAVE_13700` issues two transmit requests in one
handler invocation. -/
theorem wave13700_two_writes (c : Config) (s : Engine) (statusChannel data1 data2 : Nat)
    (hon : c.NOTE_ON ≠ c.CONTROL_CHANGE) (hoff : c.NOTE_OFF ≠ c.CONTROL_CHANGE)
    (hstatus : (statusChannel % 256) &&& 0xF0 = c.CONTROL_CHANGE)
    (hcc : c.ccParam (data1 % 256) = some MidiCCParam.WAVE_13700) :
    ∃ evs, processIncomingMidiMessage c statusChannel data1 data2 s
        = { s with trace := s.trace ++ evs }
      ∧ transmitCount evs = 2 := by
  have h1 : ¬ (c.CONTROL_CHANGE = c.NOTE_ON) := fun h => hon h.symm
  have h2 : ¬ (c.CONTROL_CHANGE = c.NOTE_OFF) := fun h => hoff h.symm
  obtain ⟨e1, he1, hc1⟩ := dacWrite_frame c
    (cTrunc (4095 * (((data2 % 256 : Nat) : ℚ) / 127) * c.MAX_MIXER)) Dac.DAC_V2140D_IN2 s
  obtain ⟨e2, he2, hc2⟩ := dacWrite_frame c
    (cTrunc (4095 * (1 - ((data2 % 256 : Nat) : ℚ) / 127) * c.MAX_MIXER)) Dac.DAC_V2140D_IN3
    { s with trace := s.trace ++ e1 }
  refine ⟨e1 ++ e2, ?_, by rw [transmitCount_append, hc1, hc2]⟩
  simp only [processIncomingMidiMessage, hstatus, h1, h2, if_false, if_true, hcc,
    setMidiCCParam, he1, he2, List.append_assoc]

/-- C5 fails on the code: in the sample configuration, where control number 22 is
`WAVE_13700`, the single event `dispatch(0xB0, 22, 64)` from a free channel makes the
handler issue two transmit requests, the second one while the channel is busy. -/
theorem C5_wave13700_overlap :
    ∃ s1 g1,
      runEvents sampleConfig [Event.dispatch 0xB0 22 64]
          (sampleEngine, { busy := false, overlaps := 0 }) = some (s1, g1)
      ∧ transmitCount s1.trace = 2
      ∧ g1.overlaps = 1 := by
  obtain ⟨evs, hev, hcount⟩ := wave13700_two_writes sampleConfig sampleEngine 0xB0 22 64
    (by decide) (by decide) (by decide) (by decide)
  have htrace : (processIncomingMidiMessage sampleConfig 0xB0 22 64 sampleEngine).trace
      = evs := by
    rw [hev]
    rfl
  refine ⟨_, _, rfl, ?_, ?_⟩
  · simp only [HAL_SPI_TxCpltCallback, HAL_GPIO_WritePin, emit, htrace, transmitCount_append,
      hcount, transmitCount]
  · have hdrop : ((processIncomingMidiMessage sampleConfig 0xB0 22 64 sampleEngine).trace.drop
        sampleEngine.trace.length) = evs := by
      rw [htrace]
      rfl
    show ((List.drop _ _).foldl Gate.observe _).overlaps = 1
    rw [hdrop, gate_fold, hcount]
    rfl

/-! ## NOTE ON dispatch and drum voices (C13, C15) -/

theorem drumNotes_injective (c : Config) (h : c.drumNotesDistinct) (v w : DrumVoice)
    (hvw : v.note c = w.note c) : v = w := by
  simp only [Config.drumNotesDistinct, List.nodup_cons, List.mem_cons, List.mem_singleton,
    List.not_mem_nil, not_or, List.nodup_nil, not_false_eq_true, and_true, or_false] at h
  obtain ⟨⟨h1, h2, h3, h4⟩, ⟨h5, h6, h7⟩, ⟨h8, h9⟩, h10⟩ := h
  cases v <;> cases w <;> simp only [DrumVoice.note] at hvw <;>
    first
      | rfl
      | exact absurd hvw h1 | exact absurd hvw h2 | exact absurd hvw h3 | exact absurd hvw h4
      | exact absurd hvw h5 | exact absurd hvw h6 | exact absurd hvw h7 | exact absurd hvw h8
      | exact absurd hvw h9 | exact absurd hvw h10
      | exact absurd hvw.symm h1 | exact absurd hvw.symm h2 | exact absurd hvw.symm h3
      | exact absurd hvw.symm h4 | exact absurd hvw.symm h5 | exact absurd hvw.symm h6
      | exact absurd hvw.symm h7 | exact absurd hvw.symm h8 | exact absurd hvw.symm h9
      | exact absurd hvw.symm h10

/-- Effect of `playDrumMachine` with the note of voice `v`: counter of `v` set to 1 and
its line written to the active level, nothing else. -/
theorem playDrumMachine_voice (c : Config) (h : c.drumNotesDistinct) (v : DrumVoice)
    (s : Engine) :
    (playDrumMachine c (v.note c) s).trace
        = s.trace ++ [HwEvent.gpioWrite v.pin v.activeLevel]
    ∧ (∀ w : DrumVoice, DrumVoice.counter (playDrumMachine c (v.note c) s).drumTriggers w
        = if w = v then 1 else DrumVoice.counter s.drumTriggers w)
    ∧ (playDrumMachine c (v.note c) s).midiNote = s.midiNote
    ∧ (playDrumMachine c (v.note c) s).stateMachineVca = s.stateMachineVca
    ∧ (playDrumMachine c (v.note c) s).stateMachineVcf = s.stateMachineVcf := by
  have hinj := drumNotes_injective c h
  have e1 : ∀ w : DrumVoice, v.note c = w.note c ↔ v = w :=
    fun w => ⟨hinj v w, fun h => by rw [h]⟩
  cases v <;>
    (have b := e1 DrumVoice.bassdrum
     have r := e1 DrumVoice.rimshot
     have n := e1 DrumVoice.snare
     have l := e1 DrumVoice.lowtom
     have t := e1 DrumVoice.hightom
     simp [DrumVoice.note] at b r n l t
     simp [playDrumMachine, b, r, n, l, t, HAL_GPIO_WritePin, emit, DrumVoice.pin,
       DrumVoice.activeLevel, DrumVoice.counter, DrumVoice.note]
     intro w
     cases w <;> simp [DrumVoice.counter])

/-- A note that is none of the five drum notes: `playDrumMachine` does nothing. -/
theorem playDrumMachine_other (c : Config) (data1 : Nat) (s : Engine)
    (h : ∀ v : DrumVoice, data1 ≠ v.note c) : playDrumMachine c data1 s = s := by
  have b := h DrumVoice.bassdrum
  have r := h DrumVoice.rimshot
  have n := h DrumVoice.snare
  have l := h DrumVoice.lowtom
  have t := h DrumVoice.hightom
  simp only [DrumVoice.note] at b r n l t
  simp [playDrumMachine, b, r, n, l, t]

theorem midiNoteOnHandler_drums (c : Config) (s : Engine) :
    (midiNoteOnHandler c s).drumTriggers = s.drumTriggers
    ∧ (midiNoteOnHandler c s).midiNote = s.midiNote := by
  simp [midiNoteOnHandler, HAL_GPIO_WritePin, emit]

/-- C13: for every 3-byte message whose status nibble is NOTE_ON: on the drum channel
the held note, held velocity and both envelope machines are unchanged and the only
counter that is armed (set to 1) is the one of the drum voice whose note is `data1`, if
any; on any other channel the held note becomes `data1`, the held velocity `data2`,
both envelopes are put in ATTACK and no drum counter changes. The drum notes are
distinct `case` labels. -/
theorem C13_note_on_dispatch (c : Config) (s : Engine) (statusChannel data1 data2 : Nat)
    (hd1 : data1 < 256) (hd2 : data2 < 256)
    (hdrums : c.drumNotesDistinct)
    (hstatus : (statusChannel % 256) &&& 0xF0 = c.NOTE_ON) :
    ((statusChannel % 256) &&& 0x0F = c.DRUM_CHANNEL →
        (processIncomingMidiMessage c statusChannel data1 data2 s).midiNote = s.midiNote
        ∧ (processIncomingMidiMessage c statusChannel data1 data2 s).stateMachineVca
            = s.stateMachineVca
        ∧ (processIncomingMidiMessage c statusChannel data1 data2 s).stateMachineVcf
            = s.stateMachineVcf
        ∧ ∀ w : DrumVoice,
            DrumVoice.counter
                (processIncomingMidiMessage c statusChannel data1 data2 s).drumTriggers w
              = if data1 = w.note c then 1 else DrumVoice.counter s.drumTriggers w)
    ∧ ((statusChannel % 256) &&& 0x0F ≠ c.DRUM_CHANNEL →
        (processIncomingMidiMessage c statusChannel data1 data2 s).midiNote
            = { note := data1, velocity := data2 }
        ∧ (processIncomingMidiMessage c statusChannel data1 data2 s).stateMachineVca.machineState
            = MachineState.ATTACK
        ∧ (processIncomingMidiMessage c statusChannel data1 data2 s).stateMachineVcf.machineState
            = MachineState.ATTACK
        ∧ (processIncomingMidiMessage c statusChannel data1 data2 s).drumTriggers
            = s.drumTriggers) := by
  have h1 : data1 % 256 = data1 := Nat.mod_eq_of_lt hd1
  have h2 : data2 % 256 = data2 := Nat.mod_eq_of_lt hd2
  constructor
  · intro hch
    have hdisp : processIncomingMidiMessage c statusChannel data1 data2 s
        = playDrumMachine c data1 s := by
      simp [processIncomingMidiMessage, hstatus, hch, h1]
    rw [hdisp]
    by_cases hv : ∃ v : DrumVoice, data1 = v.note c
    · obtain ⟨v, rfl⟩ := hv
      obtain ⟨_, hcnt, hn, ha, hf⟩ := playDrumMachine_voice c hdrums v s
      refine ⟨hn, ha, hf, fun w => ?_⟩
      rw [hcnt w]
      by_cases hwv : w = v
      · subst hwv
        simp
      · have hne : ¬ (v.note c = w.note c) :=
          fun h => hwv (drumNotes_injective c hdrums v w h).symm
        simp [hwv, hne]
    · have hno : ∀ v : DrumVoice, data1 ≠ v.note c := fun v h => hv ⟨v, h⟩
      rw [playDrumMachine_other c data1 s hno]
      exact ⟨rfl, rfl, rfl, fun w => by simp [hno w]⟩
  · intro hch
    have hdisp : processIncomingMidiMessage c statusChannel data1 data2 s
        = midiNoteOnHandler c { s with midiNote := { note := data1, velocity := data2 } } := by
      simp [processIncomingMidiMessage, hstatus, hch, h1, h2]
    rw [hdisp]
    obtain ⟨hdr, hnote⟩ := midiNoteOnHandler_drums c
      { s with midiNote := { note := data1, velocity := data2 } }
    refine ⟨hnote, ?_, ?_, hdr⟩
    · rw [midiNoteOnHandler_vca]
    · exact (midiNoteOnHandler_cutoff c _).2.1

/-- Instance of C13: in the sample configuration, NOTE_ON on channel 9 with the snare
note arms the snare only; NOTE_ON on channel 0 with note 64 and velocity 90 is held. -/
theorem C13_note_on_dispatch_witness :
    sampleConfig.drumNotesDistinct
    ∧ (0x99 % 256) &&& 0xF0 = sampleConfig.NOTE_ON
    ∧ DrumVoice.counter
        (processIncomingMidiMessage sampleConfig 0x99 38 100 sampleEngine).drumTriggers
        DrumVoice.snare = 1
    ∧ (processIncomingMidiMessage sampleConfig 0x90 64 90 sampleEngine).midiNote
        = { note := 64, velocity := 90 } :=
  have hdrum := C13_note_on_dispatch sampleConfig sampleEngine 0x99 38 100
    (by decide) (by decide) (by decide) (by decide)
  have hnote := C13_note_on_dispatch sampleConfig sampleEngine 0x90 64 90
    (by decide) (by decide) (by decide) (by decide)
  ⟨by decide, by decide,
    by simpa [DrumVoice.note, sampleConfig] using (hdrum.1 (by decide)).2.2.2 DrumVoice.snare,
    (hnote.2 (by decide)).1⟩

theorem lineLevel_append (pin : Pin) (a b : List HwEvent) :
    lineLevel pin (a ++ b)
      = match lineLevel pin b with
        | some l => some l
        | none => lineLevel pin a := by
  induction a with
  | nil =>
    cases h : lineLevel pin b <;> simp [lineLevel, h]
  | cons e tr ih =>
    cases h : lineLevel pin b with
    | none =>
      rw [h] at ih
      cases e with
      | gpioWrite p l =>
        show lineLevel pin (HwEvent.gpioWrite p l :: (tr ++ b)) = _
        simp only [lineLevel]
        rw [ih]
      | spiTransmit b0 b1 =>
        show lineLevel pin (HwEvent.spiTransmit b0 b1 :: (tr ++ b)) = _
        simp only [lineLevel]
        rw [ih]
    | some x =>
      rw [h] at ih
      cases e with
      | gpioWrite p l =>
        show lineLevel pin (HwEvent.gpioWrite p l :: (tr ++ b)) = _
        simp only [lineLevel]
        rw [ih]
      | spiTransmit b0 b1 =>
        show lineLevel pin (HwEvent.spiTransmit b0 b1 :: (tr ++ b)) = _
        simp only [lineLevel]
        rw [ih]

theorem lineLevel_write (pin p : Pin) (l : Bool) (tr : List HwEvent) :
    lineLevel pin (tr ++ [HwEvent.gpioWrite p l])
      = if p = pin then some l else lineLevel pin tr := by
  rw [lineLevel_append]
  by_cases h : p = pin <;> simp [lineLevel, h]

theorem lineLevel_pulseEnd (pin : Pin) (v : DrumVoice) (d : DrumTriggers)
    (tr : List HwEvent) :
    lineLevel pin (tr ++ pulseEnd v d)
      = if v.counter d = 1 ∧ v.pin = pin then some (!v.activeLevel) else lineLevel pin tr := by
  unfold pulseEnd
  by_cases h : v.counter d = 1
  · simp only [h, if_true, true_and]
    exact lineLevel_write pin v.pin _ tr
  · simp [h]

/-- The five blocks of `updateDrumMachine` as one update of the engine: every counter
takes one countdown step, and the pulse-end writes are appended in program order. -/
theorem updateDrumMachine_eq (s : Engine) :
    updateDrumMachine s
      = { s with
          drumTriggers :=
            { bassdrumCounter := countDown s.drumTriggers.bassdrumCounter,
              rimshotCounter := countDown s.drumTriggers.rimshotCounter,
              snareCounter := countDown s.drumTriggers.snareCounter,
              lowtomCounter := countDown s.drumTriggers.lowtomCounter,
              hightomCounter := countDown s.drumTriggers.hightomCounter },
          trace := s.trace ++ pulseEnd DrumVoice.bassdrum s.drumTriggers
            ++ pulseEnd DrumVoice.rimshot s.drumTriggers
            ++ pulseEnd DrumVoice.snare s.drumTriggers
            ++ pulseEnd DrumVoice.lowtom s.drumTriggers
            ++ pulseEnd DrumVoice.hightom s.drumTriggers } := by
  have h1 : ∀ t : Engine, updateBassdrum t
      = { t with
          drumTriggers := { t.drumTriggers with
            bassdrumCounter := countDown t.drumTriggers.bassdrumCounter },
          trace := t.trace ++ pulseEnd DrumVoice.bassdrum t.drumTriggers } := by
    intro t
    simp only [updateBassdrum, HAL_GPIO_WritePin, emit, countDown, pulseEnd,
      DrumVoice.counter, DrumVoice.pin, DrumVoice.activeLevel]
    split_ifs <;> first | rfl | (simp; done) | (exfalso; omega)
  have h2 : ∀ t : Engine, updateRimshot t
      = { t with
          drumTriggers := { t.drumTriggers with
            rimshotCounter := countDown t.drumTriggers.rimshotCounter },
          trace := t.trace ++ pulseEnd DrumVoice.rimshot t.drumTriggers } := by
    intro t
    simp only [updateRimshot, HAL_GPIO_WritePin, emit, countDown, pulseEnd,
      DrumVoice.counter, DrumVoice.pin, DrumVoice.activeLevel]
    split_ifs <;> first | rfl | (simp; done) | (exfalso; omega)
  have h3 : ∀ t : Engine, updateSnare t
      = { t with
          drumTriggers := { t.drumTriggers with
            snareCounter := countDown t.drumTriggers.snareCounter },
          trace := t.trace ++ pulseEnd DrumVoice.snare t.drumTriggers } := by
    intro t
    simp only [updateSnare, HAL_GPIO_WritePin, emit, countDown, pulseEnd,
      DrumVoice.counter, DrumVoice.pin, DrumVoice.activeLevel]
    split_ifs <;> first | rfl | (simp; done) | (exfalso; omega)
  have h4 : ∀ t : Engine, updateLowtom t
      = { t with
          drumTriggers := { t.drumTriggers with
            lowtomCounter := countDown t.drumTriggers.lowtomCounter },
          trace := t.trace ++ pulseEnd DrumVoice.lowtom t.drumTriggers } := by
    intro t
    simp only [updateLowtom, HAL_GPIO_WritePin, emit, countDown, pulseEnd,
      DrumVoice.counter, DrumVoice.pin, DrumVoice.activeLevel]
    split_ifs <;> first | rfl | (simp; done) | (exfalso; omega)
  have h5 : ∀ t : Engine, updateHightom t
      = { t with
          drumTriggers := { t.drumTriggers with
            hightomCounter := countDown t.drumTriggers.hightomCounter },
          trace := t.trace ++ pulseEnd DrumVoice.hightom t.drumTriggers } := by
    intro t
    simp only [updateHightom, HAL_GPIO_WritePin, emit, countDown, pulseEnd,
      DrumVoice.counter, DrumVoice.pin, DrumVoice.activeLevel]
    split_ifs <;> first | rfl | (simp; done) | (exfalso; omega)
  unfold updateDrumMachine
  rw [h1, h2, h3, h4, h5]
  simp [pulseEnd, DrumVoice.counter]

/-- Effect of `updateDrumMachine` on one voice: its counter takes one countdown step,
and its line is written to the idle level exactly when the counter goes from 1 to 0. -/
theorem updateDrumMachine_voice (s : Engine) (w : DrumVoice) :
    DrumVoice.counter (updateDrumMachine s).drumTriggers w
        = countDown (DrumVoice.counter s.drumTriggers w)
    ∧ lineLevel w.pin (updateDrumMachine s).trace
        = if DrumVoice.counter s.drumTriggers w = 1 then some (!w.activeLevel)
          else lineLevel w.pin s.trace := by
  rw [updateDrumMachine_eq]
  constructor
  · cases w <;> rfl
  · simp only [lineLevel_pulseEnd]
    cases w <;> simp [DrumVoice.pin]

/-- C15 as stated fails: in the sample configuration, with the bass drum armed
(counter 1), arming the snare and calling `updateDrumMachine` once changes the bass
drum counter (to 0) and writes the bass drum line. -/
theorem C15_other_voice_counterexample :
    DrumVoice.counter (playDrumMachine sampleConfig 36 sampleEngine).drumTriggers
        DrumVoice.bassdrum = 1
    ∧ DrumVoice.counter
        (updateDrumMachine (playDrumMachine sampleConfig 38
          (playDrumMachine sampleConfig 36 sampleEngine))).drumTriggers DrumVoice.bassdrum
        ≠ DrumVoice.counter (playDrumMachine sampleConfig 36 sampleEngine).drumTriggers
            DrumVoice.bassdrum
    ∧ lineLevel Pin.DRUM_KICK
        (updateDrumMachine (playDrumMachine sampleConfig 38
          (playDrumMachine sampleConfig 36 sampleEngine))).trace
        ≠ lineLevel Pin.DRUM_KICK (playDrumMachine sampleConfig 36 sampleEngine).trace := by
  refine ⟨by decide, by decide, by decide⟩

/-- C15 (amended): for each of the five drum voices, `playDrumMachine` with that
voice's note sets that voice's counter to the pulse length 1 and drives its trigger
line to the active level, leaving the counters and lines of the other four voices
unchanged; after exactly one call of `updateDrumMachine` that line is at its idle level
(the opposite of its active level) and the counter is 0; that call leaves unchanged the
counter and line of every other voice that is not armed (counter not positive). -/
theorem C15_drum_pulse (c : Config) (s : Engine) (v : DrumVoice)
    (hdrums : c.drumNotesDistinct) :
    DrumVoice.counter (playDrumMachine c (v.note c) s).drumTriggers v = 1
    ∧ lineLevel v.pin (playDrumMachine c (v.note c) s).trace = some v.activeLevel
    ∧ DrumVoice.counter (updateDrumMachine (playDrumMachine c (v.note c) s)).drumTriggers v = 0
    ∧ lineLevel v.pin (updateDrumMachine (playDrumMachine c (v.note c) s)).trace
        = some (!v.activeLevel)
    ∧ (∀ w : DrumVoice, w ≠ v →
        DrumVoice.counter (playDrumMachine c (v.note c) s).drumTriggers w
            = DrumVoice.counter s.drumTriggers w
        ∧ lineLevel w.pin (playDrumMachine c (v.note c) s).trace = lineLevel w.pin s.trace
        ∧ (DrumVoice.counter s.drumTriggers w ≤ 0 →
            DrumVoice.counter
                (updateDrumMachine (playDrumMachine c (v.note c) s)).drumTriggers w
              = DrumVoice.counter s.drumTriggers w
            ∧ lineLevel w.pin (updateDrumMachine (playDrumMachine c (v.note c) s)).trace
              = lineLevel w.pin s.trace)) := by
  obtain ⟨htr, hcnt, _, _, _⟩ := playDrumMachine_voice c hdrums v s
  have hv1 : DrumVoice.counter (playDrumMachine c (v.note c) s).drumTriggers v = 1 := by
    rw [hcnt v, if_pos rfl]
  have hpins : ∀ w : DrumVoice, w ≠ v → v.pin ≠ w.pin := by
    intro w hw
    cases v <;> cases w <;> simp [DrumVoice.pin] at hw ⊢
  obtain ⟨huc, hul⟩ := updateDrumMachine_voice (playDrumMachine c (v.note c) s) v
  refine ⟨hv1, ?_, ?_, ?_, ?_⟩
  · rw [htr, lineLevel_write, if_pos rfl]
  · rw [huc, hv1]
    rfl
  · rw [hul, if_pos hv1]
  · intro w hw
    have hw1 : DrumVoice.counter (playDrumMachine c (v.note c) s).drumTriggers w
        = DrumVoice.counter s.drumTriggers w := by
      rw [hcnt w, if_neg hw]
    have hwl : lineLevel w.pin (playDrumMachine c (v.note c) s).trace
        = lineLevel w.pin s.trace := by
      rw [htr, lineLevel_write, if_neg (hpins w hw)]
    refine ⟨hw1, hwl, fun hidle => ?_⟩
    obtain ⟨hwc, hwline⟩ := updateDrumMachine_voice (playDrumMachine c (v.note c) s) w
    constructor
    · rw [hwc, hw1]
      unfold countDown
      rw [if_neg (by omega)]
    · rw [hwline, hw1, if_neg (by omega), hwl]

/-- Instance of the amended C15: the snare pulse (active high) from the sample state. -/
theorem C15_drum_pulse_witness :
    sampleConfig.drumNotesDistinct
    ∧ lineLevel Pin.DRUM_SNARE
        (playDrumMachine sampleConfig (DrumVoice.snare.note sampleConfig) sampleEngine).trace
        = some true
    ∧ lineLevel Pin.DRUM_SNARE
        (updateDrumMachine
          (playDrumMachine sampleConfig (DrumVoice.snare.note sampleConfig) sampleEngine)).trace
        = some false
    ∧ DrumVoice.counter
        (updateDrumMachine
          (playDrumMachine sampleConfig (DrumVoice.snare.note sampleConfig)
            sampleEngine)).drumTriggers DrumVoice.snare = 0 :=
  have h := C15_drum_pulse sampleConfig sampleEngine DrumVoice.snare (by decide)
  ⟨by decide, h.2.1, h.2.2.2.1, h.2.2.1⟩

/-! ## Control changes of the envelope parameters (C16, C17, C19) -/

/-- A message whose status nibble is CONTROL_CHANGE is handed to `setMidiCCParam` with
the parameter numbered `data1`. -/
theorem dispatch_controlChange (c : Config) (s : Engine) (statusChannel data1 data2 : Nat)
    (hon : c.NOTE_ON ≠ c.CONTROL_CHANGE) (hoff : c.NOTE_OFF ≠ c.CONTROL_CHANGE)
    (hstatus : (statusChannel % 256) &&& 0xF0 = c.CONTROL_CHANGE) :
    processIncomingMidiMessage c statusChannel data1 data2 s
      = match c.ccParam (data1 % 256) with
        | some param => setMidiCCParam c param (data2 % 256) s
        | none => s := by
  have h1 : ¬ (c.CONTROL_CHANGE = c.NOTE_ON) := fun h => hon h.symm
  have h2 : ¬ (c.CONTROL_CHANGE = c.NOTE_OFF) := fun h => hoff h.symm
  simp only [processIncomingMidiMessage, hstatus, h1, h2, if_false, if_true]

/-- An envelope control change stores the value of the specification in the addressed
parameter and leaves every other envelope parameter, the runtime fields of both
machines, the held note, the drum counters and the trace unchanged. -/
theorem setMidiCCParam_envelope (c : Config) (s : Engine) (p : MidiCCParam) (v : Nat)
    (hp : (specCcValue c p v).isSome = true) :
    envelopeParam p (setMidiCCParam c p v s) = specCcValue c p v
    ∧ (∀ q : MidiCCParam, q ≠ p →
        envelopeParam q (setMidiCCParam c p v s) = envelopeParam q s)
    ∧ (setMidiCCParam c p v s).stateMachineVca.runtime = s.stateMachineVca.runtime
    ∧ (setMidiCCParam c p v s).stateMachineVcf.runtime = s.stateMachineVcf.runtime
    ∧ (setMidiCCParam c p v s).stateMachineVcf.kbdTracking = s.stateMachineVcf.kbdTracking
    ∧ (setMidiCCParam c p v s).stateMachineVcf.envAmount = s.stateMachineVcf.envAmount
    ∧ (setMidiCCParam c p v s).globalParams = s.globalParams
    ∧ (setMidiCCParam c p v s).midiNote = s.midiNote
    ∧ (setMidiCCParam c p v s).drumTriggers = s.drumTriggers
    ∧ (setMidiCCParam c p v s).trace = s.trace := by
  cases p <;> simp only [specCcValue, Option.isSome_none, Bool.false_eq_true] at hp <;>
    (refine ⟨rfl, ?_, rfl, rfl, rfl, rfl, rfl, rfl, rfl, rfl⟩
     intro q hq
     cases q <;> first | rfl | exact absurd rfl hq)

/-- C16: a control change of value `v` in 0..127 addressed to one of the six time
parameters stores `((v + 1) / 127) * MAX_TIME` of that parameter, and one addressed to a
sustain level or a velocity sensitivity stores `(v / 127) * MAX_LEVEL` of that
parameter; it alters no other envelope parameter, leaves every runtime field of both
envelopes, the keyboard tracking and envelope amounts, the global parameters, the held
note and the drum counters unchanged, and issues no hardware event (so no transmit). -/
theorem C16_envelope_control_change (c : Config) (s : Engine)
    (statusChannel data1 data2 : Nat) (p : MidiCCParam)
    (hon : c.NOTE_ON ≠ c.CONTROL_CHANGE) (hoff : c.NOTE_OFF ≠ c.CONTROL_CHANGE)
    (hstatus : (statusChannel % 256) &&& 0xF0 = c.CONTROL_CHANGE)
    (hcc : c.ccParam (data1 % 256) = some p)
    (hv : data2 ≤ 127)
    (hp : (specCcValue c p data2).isSome = true) :
    envelopeParam p (processIncomingMidiMessage c statusChannel data1 data2 s)
        = specCcValue c p data2
    ∧ (∀ q : MidiCCParam, q ≠ p →
        envelopeParam q (processIncomingMidiMessage c statusChannel data1 data2 s)
          = envelopeParam q s)
    ∧ (processIncomingMidiMessage c statusChannel data1 data2 s).stateMachineVca.runtime
        = s.stateMachineVca.runtime
    ∧ (processIncomingMidiMessage c statusChannel data1 data2 s).stateMachineVcf.runtime
        = s.stateMachineVcf.runtime
    ∧ (processIncomingMidiMessage c statusChannel data1 data2 s).stateMachineVcf.kbdTracking
        = s.stateMachineVcf.kbdTracking
    ∧ (processIncomingMidiMessage c statusChannel data1 data2 s).stateMachineVcf.envAmount
        = s.stateMachineVcf.envAmount
    ∧ (processIncomingMidiMessage c statusChannel data1 data2 s).globalParams = s.globalParams
    ∧ (processIncomingMidiMessage c statusChannel data1 data2 s).midiNote = s.midiNote
    ∧ (processIncomingMidiMessage c statusChannel data1 data2 s).drumTriggers = s.drumTriggers
    ∧ (processIncomingMidiMessage c statusChannel data1 data2 s).trace = s.trace
    ∧ transmitCount (processIncomingMidiMessage c statusChannel data1 data2 s).trace
        = transmitCount s.trace := by
  have hbyte : data2 % 256 = data2 := Nat.mod_eq_of_lt (by omega)
  have hdisp : processIncomingMidiMessage c statusChannel data1 data2 s
      = setMidiCCParam c p data2 s := by
    rw [dispatch_controlChange c s statusChannel data1 data2 hon hoff hstatus, hcc, hbyte]
  rw [hdisp]
  obtain ⟨h1, h2, h3, h4, k1, k2, k3, h5, h6, h7⟩ := setMidiCCParam_envelope c s p data2 hp
  exact ⟨h1, h2, h3, h4, k1, k2, k3, h5, h6, h7, by rw [h7]⟩

/-- Instance of C16: control change 0 (`VCA_ATTACK` in the sample numbering) with value
63 stores an attack time of `(64 / 127) * 1000` ms. -/
theorem C16_envelope_control_change_witness :
    sampleConfig.NOTE_ON ≠ sampleConfig.CONTROL_CHANGE
    ∧ sampleConfig.ccParam (0 % 256) = some MidiCCParam.VCA_ATTACK
    ∧ (processIncomingMidiMessage sampleConfig 0xB0 0 63 sampleEngine).vcaAdsr.attackTimeMs
        = (((63 : Nat) : ℚ) + 1) / 127 * 1000
    ∧ (processIncomingMidiMessage sampleConfig 0xB0 0 63 sampleEngine).trace
        = sampleEngine.trace :=
  have h := C16_envelope_control_change sampleConfig sampleEngine 0xB0 0 63
    MidiCCParam.VCA_ATTACK (by decide) (by decide) (by decide) (by decide) (by decide) rfl
  ⟨by decide, by decide, Option.some.inj h.1, h.2.2.2.2.2.2.2.2.2.1⟩

theorem time_bound (v : Nat) (M k : ℚ) (hM : 0 < M) (hk : ((v : ℚ) + 1) / 127 ≤ k) :
    0 < (((v : ℚ) + 1) / 127) * M ∧ (((v : ℚ) + 1) / 127) * M ≤ k * M := by
  have hv : (0 : ℚ) ≤ (v : ℚ) := Nat.cast_nonneg v
  have hpos : (0 : ℚ) < ((v : ℚ) + 1) / 127 := by positivity
  exact ⟨mul_pos hpos hM, mul_le_mul_of_nonneg_right hk (le_of_lt hM)⟩

theorem level_bound (v : Nat) (M : ℚ) (hv : v ≤ 127) (hM0 : 0 ≤ M) (hM1 : M ≤ 1) :
    0 ≤ ((v : ℚ) / 127) * M ∧ ((v : ℚ) / 127) * M ≤ 1 := by
  have hv0 : (0 : ℚ) ≤ (v : ℚ) / 127 := by positivity
  have hv1 : (v : ℚ) / 127 ≤ 1 := by
    rw [div_le_one (by norm_num)]
    exact_mod_cast hv
  exact ⟨mul_nonneg hv0 hM0, by nlinarith⟩

/-- A control change keeps both envelope configurations in range with maxima scaled by
`k`, as soon as `(v + 1) / 127 ≤ k`. -/
theorem configInRange_step (c : Config) (s : Engine) (p : MidiCCParam) (v : Nat) (k : ℚ)
    (hv : v ≤ 127) (hk : ((v : ℚ) + 1) / 127 ≤ k)
    (hA : 0 < c.MAX_ATTACK_TIME) (hD : 0 < c.MAX_DECAY_TIME) (hR : 0 < c.MAX_RELEASE_TIME)
    (hS0 : 0 ≤ c.MAX_SUSTAIN_LVL) (hS1 : c.MAX_SUSTAIN_LVL ≤ 1)
    (h : configInRange c k s) : configInRange c k (setMidiCCParam c p v s) := by
  obtain ⟨⟨a1, a2, a3, a4⟩, ⟨f1, f2, f3, f4⟩⟩ := h
  have tA := time_bound v c.MAX_ATTACK_TIME k hA hk
  have tD := time_bound v c.MAX_DECAY_TIME k hD hk
  have tR := time_bound v c.MAX_RELEASE_TIME k hR hk
  have lS := level_bound v c.MAX_SUSTAIN_LVL hv hS0 hS1
  cases p
  case VCA_ATTACK => exact ⟨⟨tA, a2, a3, a4⟩, ⟨f1, f2, f3, f4⟩⟩
  case VCA_DECAY => exact ⟨⟨a1, tD, a3, a4⟩, ⟨f1, f2, f3, f4⟩⟩
  case VCA_SUSTAIN => exact ⟨⟨a1, a2, a3, lS⟩, ⟨f1, f2, f3, f4⟩⟩
  case VCA_RELEASE => exact ⟨⟨a1, a2, tR, a4⟩, ⟨f1, f2, f3, f4⟩⟩
  case VCF_ATTACK => exact ⟨⟨a1, a2, a3, a4⟩, ⟨tA, f2, f3, f4⟩⟩
  case VCF_DECAY => exact ⟨⟨a1, a2, a3, a4⟩, ⟨f1, tD, f3, f4⟩⟩
  case VCF_SUSTAIN => exact ⟨⟨a1, a2, a3, a4⟩, ⟨f1, f2, f3, lS⟩⟩
  case VCF_RELEASE => exact ⟨⟨a1, a2, a3, a4⟩, ⟨f1, f2, tR, f4⟩⟩
  all_goals
    simp only [setMidiCCParam, configInRange, adsrInRange, dacWrite_vcaAdsr, dacWrite_vcfAdsr]
    first
      | exact ⟨⟨a1, a2, a3, a4⟩, ⟨f1, f2, f3, f4⟩⟩
      | (split_ifs <;> exact ⟨⟨a1, a2, a3, a4⟩, ⟨f1, f2, f3, f4⟩⟩)

/-- C17, counterexample: the sample configurations are in range, and the control change
`VCA_ATTACK` with value 127 stores an attack time of `(128 / 127) * MAX_ATTACK_TIME`,
above the maximum; and with a negative `MAX_SUSTAIN_LVL` (which is at most 1) and
positive `MAX` times the control change `VCA_SUSTAIN` with value 127 stores a negative
sustain level. -/
theorem C17_range_counterexample :
    (configInRange sampleConfig 1 sampleEngine
      ∧ 0 < sampleConfig.MAX_ATTACK_TIME ∧ 0 < sampleConfig.MAX_DECAY_TIME
      ∧ 0 < sampleConfig.MAX_RELEASE_TIME ∧ sampleConfig.MAX_SUSTAIN_LVL ≤ 1
      ∧ ¬ configInRange sampleConfig 1
          (setMidiCCParam sampleConfig MidiCCParam.VCA_ATTACK 127 sampleEngine)
      ∧ sampleConfig.MAX_ATTACK_TIME
          < (setMidiCCParam sampleConfig MidiCCParam.VCA_ATTACK 127 sampleEngine).vcaAdsr.attackTimeMs)
    ∧ (configInRange { sampleConfig with MAX_SUSTAIN_LVL := -1 } 1 sampleEngine
      ∧ ({ sampleConfig with MAX_SUSTAIN_LVL := -1 } : Config).MAX_SUSTAIN_LVL ≤ 1
      ∧ ¬ configInRange { sampleConfig with MAX_SUSTAIN_LVL := -1 } 1
          (setMidiCCParam { sampleConfig with MAX_SUSTAIN_LVL := -1 } MidiCCParam.VCA_SUSTAIN 127
            sampleEngine)) := by
  simp only [configInRange, adsrInRange, setMidiCCParam, sampleConfig, sampleEngine]
  norm_num

/-- C17, amended: with positive `MAX` times and `0 ≤ MAX_SUSTAIN_LVL ≤ 1`, every control
change (any parameter id, any value in 0..127) keeps both envelope configurations within
`0 < time ≤ (128 / 127) * MAX` and `0 ≤ sustainLevel ≤ 1`, whether they started within
that range or within the narrower `0 < time ≤ MAX`; and every control change of value
in 0..126 keeps them within `0 < time ≤ MAX` and `0 ≤ sustainLevel ≤ 1`. -/
theorem C17_config_range (c : Config) (s : Engine) (p : MidiCCParam) (v : Nat)
    (hv : v ≤ 127)
    (hA : 0 < c.MAX_ATTACK_TIME) (hD : 0 < c.MAX_DECAY_TIME) (hR : 0 < c.MAX_RELEASE_TIME)
    (hS0 : 0 ≤ c.MAX_SUSTAIN_LVL) (hS1 : c.MAX_SUSTAIN_LVL ≤ 1) :
    (configInRange c (128 / 127) s → configInRange c (128 / 127) (setMidiCCParam c p v s))
    ∧ (configInRange c 1 s → configInRange c (128 / 127) (setMidiCCParam c p v s))
    ∧ (v ≤ 126 → configInRange c 1 s → configInRange c 1 (setMidiCCParam c p v s)) := by
  have hk : ((v : ℚ) + 1) / 127 ≤ 128 / 127 := by
    have : (v : ℚ) ≤ 127 := by exact_mod_cast hv
    rw [div_le_div_iff_of_pos_right (by norm_num)]
    linarith
  refine ⟨configInRange_step c s p v _ hv hk hA hD hR hS0 hS1, ?_, ?_⟩
  · intro h
    apply configInRange_step c s p v _ hv hk hA hD hR hS0 hS1
    obtain ⟨⟨⟨a1, a1'⟩, ⟨a2, a2'⟩, ⟨a3, a3'⟩, a4⟩, ⟨⟨f1, f1'⟩, ⟨f2, f2'⟩, ⟨f3, f3'⟩, f4⟩⟩ := h
    exact ⟨⟨⟨a1, by linarith⟩, ⟨a2, by linarith⟩, ⟨a3, by linarith⟩, a4⟩,
      ⟨⟨f1, by linarith⟩, ⟨f2, by linarith⟩, ⟨f3, by linarith⟩, f4⟩⟩
  · intro hv'
    have hk1 : ((v : ℚ) + 1) / 127 ≤ 1 := by
      have : (v : ℚ) ≤ 126 := by exact_mod_cast hv'
      rw [div_le_one (by norm_num)]
      linarith
    exact configInRange_step c s p v 1 hv hk1 hA hD hR hS0 hS1

/-- Instance of C17: on the sample engine, the control change `VCA_ATTACK` of value 127
keeps the configurations within the range scaled by `128 / 127`. -/
theorem C17_config_range_witness :
    (127 : Nat) ≤ 127 ∧ 0 < sampleConfig.MAX_ATTACK_TIME
    ∧ configInRange sampleConfig (128 / 127)
        (setMidiCCParam sampleConfig MidiCCParam.VCA_ATTACK 127 sampleEngine) :=
  ⟨le_refl _, by simp [sampleConfig],
    (C17_config_range sampleConfig sampleEngine MidiCCParam.VCA_ATTACK 127 (le_refl _)
      (by simp [sampleConfig]) (by simp [sampleConfig]) (by simp [sampleConfig])
      (by simp [sampleConfig]) (by simp [sampleConfig])).2.1
      (by simp only [configInRange, adsrInRange, sampleConfig, sampleEngine]; norm_num)⟩

/-- C19, counterexample: on the sample engine (keyboard tracking 1/2, envelope amount 1)
the control change keyed by `VCF_KBDTRACKING` with value 0 leaves the keyboard tracking
amount at 1/2, and the one keyed by `VCF_EG` with value 0 leaves the envelope amount at
1, whereas `(0 / 127) * MAX_LEVEL` is 0 for every maximum. -/
theorem C19_tracking_counterexample :
    sampleConfig.ccParam 23 = some MidiCCParam.VCF_KBDTRACKING
    ∧ sampleConfig.ccParam 25 = some MidiCCParam.VCF_EG
    ∧ (processIncomingMidiMessage sampleConfig 0xB0 23 0 sampleEngine).stateMachineVcf.kbdTracking
        = 1 / 2
    ∧ (processIncomingMidiMessage sampleConfig 0xB0 25 0 sampleEngine).stateMachineVcf.envAmount
        = 1
    ∧ (∀ M : ℚ,
        (processIncomingMidiMessage sampleConfig 0xB0 23 0 sampleEngine).stateMachineVcf.kbdTracking
          ≠ (((0 : Nat) : ℚ) / 127) * M
        ∧ (processIncomingMidiMessage sampleConfig 0xB0 25 0 sampleEngine).stateMachineVcf.envAmount
          ≠ (((0 : Nat) : ℚ) / 127) * M) := by
  have h23 : processIncomingMidiMessage sampleConfig 0xB0 23 0 sampleEngine = sampleEngine := by
    rw [dispatch_controlChange sampleConfig sampleEngine 0xB0 23 0 (by decide) (by decide)
      (by decide)]
    rfl
  have h25 : processIncomingMidiMessage sampleConfig 0xB0 25 0 sampleEngine = sampleEngine := by
    rw [dispatch_controlChange sampleConfig sampleEngine 0xB0 25 0 (by decide) (by decide)
      (by decide)]
    rfl
  rw [h23, h25]
  refine ⟨by decide, by decide, rfl, rfl, ?_⟩
  intro M
  simp only [sampleEngine]
  norm_num

/-- C19, amended: the control changes keyed by `VCF_KBDTRACKING`, `VCF_EG` and `VCA_EG`
leave the whole engine unchanged, whatever the value; no control change at all (any
parameter id, any value) alters the VCF keyboard tracking amount or envelope amount; so
a note-on that follows one of these three control changes gives the same engine as
without it. -/
theorem C19_tracking_and_amount_unchanged (c : Config) (s : Engine) (v : Nat) :
    setMidiCCParam c MidiCCParam.VCF_KBDTRACKING v s = s
    ∧ setMidiCCParam c MidiCCParam.VCF_EG v s = s
    ∧ setMidiCCParam c MidiCCParam.VCA_EG v s = s
    ∧ (∀ p : MidiCCParam,
        (setMidiCCParam c p v s).stateMachineVcf.kbdTracking = s.stateMachineVcf.kbdTracking
        ∧ (setMidiCCParam c p v s).stateMachineVcf.envAmount = s.stateMachineVcf.envAmount)
    ∧ midiNoteOnHandler c (setMidiCCParam c MidiCCParam.VCF_KBDTRACKING v s)
        = midiNoteOnHandler c s
    ∧ midiNoteOnHandler c (setMidiCCParam c MidiCCParam.VCF_EG v s) = midiNoteOnHandler c s := by
  refine ⟨rfl, rfl, rfl, ?_, rfl, rfl⟩
  intro p
  cases p
  all_goals
    first
      | exact ⟨rfl, rfl⟩
      | (simp only [setMidiCCParam, dacWrite_stateMachineVcf, and_self]; done)
      | (simp only [setMidiCCParam]; split_ifs <;> exact ⟨rfl, rfl⟩)

/-! ## Held note and the calibration tables (C14) -/

/-- A NOTE_ON outside the drum channel holds `data1` as the note. -/
theorem dispatch_noteOn_note (c : Config) (s : Engine) (statusChannel data1 data2 : Nat)
    (hd1 : data1 < 256)
    (hstatus : (statusChannel % 256) &&& 0xF0 = c.NOTE_ON)
    (hch : (statusChannel % 256) &&& 0x0F ≠ c.DRUM_CHANNEL) :
    (processIncomingMidiMessage c statusChannel data1 data2 s).midiNote.note = data1 := by
  have h1 : data1 % 256 = data1 := Nat.mod_eq_of_lt hd1
  have hdisp : processIncomingMidiMessage c statusChannel data1 data2 s
      = midiNoteOnHandler c
          { s with midiNote := { note := data1, velocity := data2 % 256 } } := by
    simp [processIncomingMidiMessage, hstatus, hch, h1]
  rw [hdisp, (midiNoteOnHandler_drums c _).2]

set_option maxRecDepth 100000 in
/-- C14, counterexample: the NOTE_ON `0x90 200 100` on channel 0 of the sample
configuration holds note 200, which is not an index of the 128-entry tables: the pitch
refreshes of both oscillators then read outside their table. -/
theorem C14_held_note_counterexample :
    (0x90 % 256) &&& 0xF0 = sampleConfig.NOTE_ON
    ∧ (0x90 % 256) &&& 0x0F ≠ sampleConfig.DRUM_CHANNEL
    ∧ (processIncomingMidiMessage sampleConfig 0x90 200 100 sampleEngine).midiNote.note = 200
    ∧ ¬ (processIncomingMidiMessage sampleConfig 0x90 200 100 sampleEngine).midiNote.note
        < midiToVCO13700CV.length
    ∧ ¬ (processIncomingMidiMessage sampleConfig 0x90 200 100 sampleEngine).midiNote.note
        < midiToVCO3340CV.length
    ∧ runSlowUpdate sampleConfig SlowUpdate.pitch13700
        (processIncomingMidiMessage sampleConfig 0x90 200 100 sampleEngine) = none
    ∧ runSlowUpdate sampleConfig SlowUpdate.pitch3340
        (processIncomingMidiMessage sampleConfig 0x90 200 100 sampleEngine) = none := by
  have hnote := dispatch_noteOn_note sampleConfig sampleEngine 0x90 200 100 (by decide)
    (by decide) (by decide)
  refine ⟨by decide, by decide, hnote, ?_, ?_, ?_, ?_⟩
  · rw [hnote]; decide
  · rw [hnote]; decide
  · simp only [runSlowUpdate, hnote]; rfl
  · simp only [runSlowUpdate, hnote]; rfl

/-- C14, amended: for every data1 byte in 0..127 delivered in a non-drum NOTE_ON, the
held note afterwards is `data1`, a valid index of both 128-entry note-to-CV tables, so
the pitch refreshes of phases 0 and 1 read inside the tables and write the entry of the
note; and whenever data1 is outside 36..71 the pitch CV written for both oscillators is
0. -/
theorem C14_pitch_reads_in_table (c : Config) (s : Engine) (statusChannel data1 data2 : Nat)
    (hd1 : data1 < 128)
    (hstatus : (statusChannel % 256) &&& 0xF0 = c.NOTE_ON)
    (hch : (statusChannel % 256) &&& 0x0F ≠ c.DRUM_CHANNEL) :
    (processIncomingMidiMessage c statusChannel data1 data2 s).midiNote.note = data1
    ∧ (processIncomingMidiMessage c statusChannel data1 data2 s).midiNote.note
        < midiToVCO13700CV.length
    ∧ (processIncomingMidiMessage c statusChannel data1 data2 s).midiNote.note
        < midiToVCO3340CV.length
    ∧ SlowUpdate.pitch13700.phase = 0 ∧ SlowUpdate.pitch3340.phase = 1
    ∧ (∃ cv, midiToVCO13700CV[data1]? = some cv
        ∧ runSlowUpdate c SlowUpdate.pitch13700
            (processIncomingMidiMessage c statusChannel data1 data2 s)
          = some (dacWrite c cv Dac.DAC_VCO_13700
              (processIncomingMidiMessage c statusChannel data1 data2 s)))
    ∧ (∃ cv, midiToVCO3340CV[data1]? = some cv
        ∧ runSlowUpdate c SlowUpdate.pitch3340
            (processIncomingMidiMessage c statusChannel data1 data2 s)
          = some (dacWrite c cv Dac.DAC_VCO_3340_FREQ
              (processIncomingMidiMessage c statusChannel data1 data2 s)))
    ∧ ((data1 < 36 ∨ 71 < data1) →
        runSlowUpdate c SlowUpdate.pitch13700
            (processIncomingMidiMessage c statusChannel data1 data2 s)
          = some (dacWrite c 0 Dac.DAC_VCO_13700
              (processIncomingMidiMessage c statusChannel data1 data2 s))
        ∧ runSlowUpdate c SlowUpdate.pitch3340
            (processIncomingMidiMessage c statusChannel data1 data2 s)
          = some (dacWrite c 0 Dac.DAC_VCO_3340_FREQ
              (processIncomingMidiMessage c statusChannel data1 data2 s))) := by
  have hnote := dispatch_noteOn_note c s statusChannel data1 data2 (by omega) hstatus hch
  have hlenA : midiToVCO13700CV.length = 128 := rfl
  have hlenB : midiToVCO3340CV.length = 128 := rfl
  have hA : midiToVCO13700CV[data1]? = some (midiToVCO13700CV[data1]) :=
    List.getElem?_eq_getElem (by omega)
  have hB : midiToVCO3340CV[data1]? = some (midiToVCO3340CV[data1]) :=
    List.getElem?_eq_getElem (by omega)
  refine ⟨hnote, by omega, by omega, rfl, rfl, ⟨_, hA, ?_⟩, ⟨_, hB, ?_⟩, ?_⟩
  · simp only [runSlowUpdate, hnote, hA, Option.map_some']
  · simp only [runSlowUpdate, hnote, hB, Option.map_some']
  · intro hout
    have h0A := table_outside midiToVCO13700CV (Or.inl rfl) data1 hd1 (by omega)
    have h0B := table_outside midiToVCO3340CV (Or.inr rfl) data1 hd1 (by omega)
    constructor
    · simp only [runSlowUpdate, hnote, h0A, Option.map_some']
    · simp only [runSlowUpdate, hnote, h0B, Option.map_some']

/-- Instance of C14: NOTE_ON `0x90 100 90` holds note 100, outside 36..71, and the
refresh of oscillator 13700 writes the word 0. -/
theorem C14_pitch_reads_in_table_witness :
    (100 : Nat) < 128
    ∧ (0x90 % 256) &&& 0xF0 = sampleConfig.NOTE_ON
    ∧ (0x90 % 256) &&& 0x0F ≠ sampleConfig.DRUM_CHANNEL
    ∧ runSlowUpdate sampleConfig SlowUpdate.pitch13700
          (processIncomingMidiMessage sampleConfig 0x90 100 90 sampleEngine)
        = some (dacWrite sampleConfig 0 Dac.DAC_VCO_13700
            (processIncomingMidiMessage sampleConfig 0x90 100 90 sampleEngine)) :=
  ⟨by decide, by decide, by decide,
    ((C14_pitch_reads_in_table sampleConfig sampleEngine 0x90 100 90 (by decide) (by decide)
      (by decide)).2.2.2.2.2.2.2 (Or.inr (by decide))).1⟩

/-! ## The VCF tick reads the state of the VCA machine (C20) -/

/-- C20: the VCF tick is not a function of the VCF fields alone. The states
`releasingEngine` and `releasingVcfOnly` agree on every field but those of the VCA
machine, and both have the VCF machine in RELEASE with steps left; on the first (VCA in
RELEASE) the VCF tick steps the cutoff from 3/4 to 7/10 and transmits, on the second
(VCA idle) it does nothing. And with the VCF machine idle and the VCA machine in
RELEASE (`releasingVcaOnly`) the VCF tick is not a no-op: its step counter goes from 0
to 1. -/
theorem C20_vcf_tick_reads_vca_state :
    (releasingEngine.stateMachineVcf = releasingVcfOnly.stateMachineVcf
      ∧ releasingEngine.vcfAdsr = releasingVcfOnly.vcfAdsr
      ∧ releasingEngine.globalParams = releasingVcfOnly.globalParams
      ∧ releasingEngine.trace = releasingVcfOnly.trace
      ∧ releasingEngine.stateMachineVcf.machineState = MachineState.RELEASE)
    ∧ ((updateVCFEnveloppeStateMachine sampleConfig releasingEngine).stateMachineVcf.t = 1
      ∧ (updateVCFEnveloppeStateMachine sampleConfig releasingEngine).stateMachineVcf.cutoffFrequency
          = 7 / 10
      ∧ transmitCount (updateVCFEnveloppeStateMachine sampleConfig releasingEngine).trace = 1)
    ∧ updateVCFEnveloppeStateMachine sampleConfig releasingVcfOnly = releasingVcfOnly
    ∧ (releasingVcaOnly.stateMachineVcf.machineState = MachineState.IDLE
      ∧ releasingVcaOnly.stateMachineVcf.t = 0
      ∧ (updateVCFEnveloppeStateMachine sampleConfig releasingVcaOnly).stateMachineVcf.t
          = 1) := by
  have hstep : (0 : ℚ) + 1 ≤ 10 := by norm_num
  have hstep0 : ¬ ((0 : ℚ) + 1 ≤ 0) := by norm_num
  refine ⟨⟨rfl, rfl, rfl, rfl, rfl⟩, ⟨?_, ?_, ?_⟩, rfl, rfl, rfl, ?_⟩
  · simp only [updateVCFEnveloppeStateMachine, releasingEngine, sampleEngine, hstep, if_true,
      dacVcfCutoffWrite, dacWrite_stateMachineVcf]
    norm_num
  · simp only [updateVCFEnveloppeStateMachine, releasingEngine, sampleEngine, hstep, if_true,
      dacVcfCutoffWrite, dacWrite_stateMachineVcf]
    norm_num
  · simp only [updateVCFEnveloppeStateMachine, releasingEngine, sampleEngine, hstep, if_true,
      dacVcfCutoffWrite, dacWrite_transmitCount]
    rfl
  · simp only [updateVCFEnveloppeStateMachine, releasingVcaOnly, releasingEngine, sampleEngine,
      hstep0, if_false]
    norm_num

/-! ## Control changes during a ramp (C18) -/

theorem dacSelect_uniform (chip : Int) :
    ∃ evs, ∀ s : Engine, dacSelect chip s = { s with trace := s.trace ++ evs } := by
  unfold dacSelect
  simp only []
  split_ifs
  all_goals first
    | exact ⟨_, fun s => three_writes _ _ _ _ _ _ s⟩
    | exact ⟨[], fun s => by simp⟩

theorem dacWrite_uniform (c : Config) (w : Int) (d : Dac) :
    ∃ evs, ∀ s : Engine, dacWrite c w d s = { s with trace := s.trace ++ evs } := by
  obtain ⟨evs, h⟩ := dacSelect_uniform (dacRoute d).1
  refine ⟨evs ++ [HwEvent.gpioWrite Pin.DAC_CS false,
    HwEvent.spiTransmit (txSpiDacsBuff w (c.channelCode (dacRoute d).2)).1
      (txSpiDacsBuff w (c.channelCode (dacRoute d).2)).2], fun s => ?_⟩
  simp [dacWrite, dac4822ABWrite, h, emit, HAL_GPIO_WritePin]

/-- A DAC write appends its events to the trace and changes nothing else. -/
theorem dacWrite_eq (c : Config) (w : Int) (d : Dac) (s : Engine) :
    dacWrite c w d s = { s with trace := s.trace ++ dacEvents c w d } := by
  obtain ⟨evs, h⟩ := dacWrite_uniform c w d
  have he : dacEvents c w d = evs := by
    rw [dacEvents, h sampleEngine]
    rfl
  rw [he, h s]

/-- An envelope control change commutes with a VCA tick, unless it sets a parameter read
at the entry of DECAY while the machine is in ATTACK. -/
theorem updateVCA_comm (c : Config) (s : Engine) (p : MidiCCParam) (v : Nat)
    (hp : (specCcValue c p v).isSome = true)
    (hst : p.readAtDecayEntry = true → s.stateMachineVca.machineState ≠ MachineState.ATTACK) :
    updateVCAEnveloppeStateMachine c (setMidiCCParam c p v s)
      = setMidiCCParam c p v (updateVCAEnveloppeStateMachine c s) := by
  rcases s with ⟨vcaAdsr, ⟨sens, st, amp, tgt, dl⟩, vcfAdsr, vcf, gp, v1, v2, dt, mn, k, dm, dc, dn, tr⟩
  cases p <;> simp only [specCcValue, Option.isSome_none, Bool.false_eq_true] at hp <;>
    cases st <;>
    simp only [updateVCAEnveloppeStateMachine, setMidiCCParam, dacVcaWrite, dacWrite_eq] <;>
    (try split_ifs) <;>
    first
      | rfl
      | (exfalso; exact hst rfl rfl)

theorem updateVCF_comm (c : Config) (s : Engine) (p : MidiCCParam) (v : Nat)
    (hp : (specCcValue c p v).isSome = true)
    (hst : p.readAtDecayEntry = true → s.stateMachineVca.machineState ≠ MachineState.ATTACK) :
    updateVCFEnveloppeStateMachine c (setMidiCCParam c p v s)
      = setMidiCCParam c p v (updateVCFEnveloppeStateMachine c s) := by
  rcases s with ⟨vcaAdsr, ⟨sens, st, amp, tgt, dl⟩, vcfAdsr, vcf, gp, v1, v2, dt, mn, k, dm, dc, dn, tr⟩
  cases p <;> simp only [specCcValue, Option.isSome_none, Bool.false_eq_true] at hp <;>
    cases st <;>
    simp only [updateVCFEnveloppeStateMachine, setMidiCCParam, dacVcfCutoffWrite, dacWrite_eq] <;>
    (try split_ifs) <;>
    first
      | rfl
      | (exfalso; exact hst rfl rfl)

theorem updateDrumMachine_comm (c : Config) (s : Engine) (p : MidiCCParam) (v : Nat)
    (hp : (specCcValue c p v).isSome = true) :
    updateDrumMachine (setMidiCCParam c p v s) = setMidiCCParam c p v (updateDrumMachine s) := by
  rw [updateDrumMachine_eq, updateDrumMachine_eq]
  cases p <;> simp only [specCcValue, Option.isSome_none, Bool.false_eq_true] at hp <;> rfl

theorem runSlowUpdate_comm (c : Config) (u : SlowUpdate) (s : Engine) (p : MidiCCParam) (v : Nat)
    (hp : (specCcValue c p v).isSome = true)
    (hst : p.readAtDecayEntry = true → s.stateMachineVca.machineState ≠ MachineState.ATTACK) :
    runSlowUpdate c u (setMidiCCParam c p v s)
      = (runSlowUpdate c u s).map (setMidiCCParam c p v) := by
  have hnote : (setMidiCCParam c p v s).midiNote = s.midiNote :=
    (setMidiCCParam_envelope c s p v hp).2.2.2.2.2.2.2.1
  have hw : ∀ (w : Int) (d : Dac),
      dacWrite c w d (setMidiCCParam c p v s) = setMidiCCParam c p v (dacWrite c w d s) := by
    intro w d
    rw [dacWrite_eq, dacWrite_eq]
    cases p <;> simp only [specCcValue, Option.isSome_none, Bool.false_eq_true] at hp <;> rfl
  cases u with
  | pitch13700 =>
    simp only [runSlowUpdate, hnote]
    cases midiToVCO13700CV[s.midiNote.note]? with
    | none => rfl
    | some cv => simp only [Option.map_some', hw]
  | pitch3340 =>
    simp only [runSlowUpdate, hnote]
    cases midiToVCO3340CV[s.midiNote.note]? with
    | none => rfl
    | some cv => simp only [Option.map_some', hw]
  | vcaEnvelope => simp only [runSlowUpdate, Option.map_some', updateVCA_comm c s p v hp hst]
  | vcfEnvelope => simp only [runSlowUpdate, Option.map_some', updateVCF_comm c s p v hp hst]

/-- One tick with demo mode off, as the composition of its stages. -/
theorem tick_demo_off_eq (c : Config) (s : Engine) (hdemo : s.demoMode ≠ 1) :
    HAL_TIM_PeriodElapsedCallback c s
      = match selectSlowUpdate (tickPrologue c s).adsrInterruptCounter with
        | some u => runSlowUpdate c u (tickPrologue c s)
        | none => some (tickPrologue c s) := by
  have hk : ∀ b : Bool, (updateDrumMachine (HAL_GPIO_WritePin Pin.LD3 b s)).adsrInterruptCounter
      = s.adsrInterruptCounter := fun b => (updateDrumMachine_frame _).1
  have hd : ∀ b : Bool, (updateDrumMachine (HAL_GPIO_WritePin Pin.LD3 b s)).demoMode
      = s.demoMode := fun b => (updateDrumMachine_frame _).2.1
  unfold HAL_TIM_PeriodElapsedCallback tickPrologue
  simp only [hk, hd, hdemo, if_false]
  by_cases hK : s.adsrInterruptCounter + 1 = c.ADSR_TIMER_PERIOD_FACTOR
  · simp only [hK, if_true, Option.some_bind]
  · simp only [hK, if_false, Option.some_bind]

/-- An envelope control change commutes with the first stages of a tick. -/
theorem tickPrologue_comm (c : Config) (s : Engine) (p : MidiCCParam) (v : Nat)
    (hp : (specCcValue c p v).isSome = true) :
    tickPrologue c (setMidiCCParam c p v s) = setMidiCCParam c p v (tickPrologue c s) := by
  have hG : ∀ (b : Bool), HAL_GPIO_WritePin Pin.LD3 b (setMidiCCParam c p v s)
      = setMidiCCParam c p v (HAL_GPIO_WritePin Pin.LD3 b s) := by
    intro b
    cases p <;> simp only [specCcValue, Option.isSome_none, Bool.false_eq_true] at hp <;> rfl
  have hdm : (setMidiCCParam c p v s).demoMode = s.demoMode := by
    cases p <;> simp only [specCcValue, Option.isSome_none, Bool.false_eq_true] at hp <;> rfl
  have hcnt : ∀ (t : Engine) (k : Int),
      { setMidiCCParam c p v t with adsrInterruptCounter := k }
        = setMidiCCParam c p v { t with adsrInterruptCounter := k } := by
    intro t k
    cases p <;> simp only [specCcValue, Option.isSome_none, Bool.false_eq_true] at hp <;> rfl
  have hk : ∀ t : Engine, (setMidiCCParam c p v t).adsrInterruptCounter
      = t.adsrInterruptCounter := by
    intro t
    cases p <;> simp only [specCcValue, Option.isSome_none, Bool.false_eq_true] at hp <;> rfl
  unfold tickPrologue
  simp only [hdm, hG, updateDrumMachine_comm c _ p v hp, hk, hcnt]
  split_ifs <;> rfl

/-- The first stages of a tick leave both machines, the demo mode and the held note
unchanged. -/
theorem tickPrologue_frame (c : Config) (s : Engine) :
    (tickPrologue c s).stateMachineVca = s.stateMachineVca
    ∧ (tickPrologue c s).stateMachineVcf = s.stateMachineVcf
    ∧ (tickPrologue c s).demoMode = s.demoMode := by
  unfold tickPrologue
  simp only [updateDrumMachine_eq, HAL_GPIO_WritePin, emit]
  split_ifs <;> exact ⟨rfl, rfl, rfl⟩

/-- The VCF tick leaves the VCA machine unchanged. -/
theorem updateVCF_vca (c : Config) (s : Engine) :
    (updateVCFEnveloppeStateMachine c s).stateMachineVca = s.stateMachineVca
    ∧ (updateVCFEnveloppeStateMachine c s).demoMode = s.demoMode := by
  rcases s with ⟨vcaAdsr, ⟨sens, st, amp, tgt, dl⟩, vcfAdsr, vcf, gp, v1, v2, dt, mn, k, dm, dc, dn, tr⟩
  cases st <;>
    simp only [updateVCFEnveloppeStateMachine, dacVcfCutoffWrite, dacWrite_eq] <;>
    (try split_ifs) <;> first | exact ⟨rfl, rfl⟩ | exact ⟨trivial, trivial⟩

/-- A slow update keeps the demo mode, and keeps the VCA machine out of ATTACK once it
has left it. -/
theorem runSlowUpdate_keeps (c : Config) (u : SlowUpdate) (s s1 : Engine)
    (h : runSlowUpdate c u s = some s1) :
    s1.demoMode = s.demoMode
    ∧ (s.stateMachineVca.machineState ≠ MachineState.ATTACK →
        s1.stateMachineVca.machineState ≠ MachineState.ATTACK) := by
  cases u with
  | pitch13700 =>
    simp only [runSlowUpdate] at h
    cases hcv : midiToVCO13700CV[s.midiNote.note]? with
    | none => simp [hcv] at h
    | some cv =>
      simp only [hcv, Option.map_some', Option.some.injEq] at h
      subst h
      exact ⟨dacWrite_demoMode _ _ _ _, fun hne => by rw [dacWrite_stateMachineVca]; exact hne⟩
  | pitch3340 =>
    simp only [runSlowUpdate] at h
    cases hcv : midiToVCO3340CV[s.midiNote.note]? with
    | none => simp [hcv] at h
    | some cv =>
      simp only [hcv, Option.map_some', Option.some.injEq] at h
      subst h
      exact ⟨dacWrite_demoMode _ _ _ _, fun hne => by rw [dacWrite_stateMachineVca]; exact hne⟩
  | vcaEnvelope =>
    simp only [runSlowUpdate, Option.some.injEq] at h
    subst h
    refine ⟨(updateVCA_frame c s).2.1, ?_⟩
    rw [(updateVCA_vca c s).1]
    intro hne
    unfold vcaStep
    cases hst : s.stateMachineVca.machineState with
    | IDLE => simp [hst]
    | ATTACK => exact absurd hst hne
    | DECAY => simp only []; split_ifs <;> simp [hst]
    | RELEASE => simp only []; split_ifs <;> simp [hst]
  | vcfEnvelope =>
    simp only [runSlowUpdate, Option.some.injEq] at h
    subst h
    rw [(updateVCF_vca c s).1, (updateVCF_vca c s).2]
    exact ⟨rfl, id⟩

/-- One tick with demo mode off commutes with an envelope control change, unless the
control change sets a parameter read at the entry of DECAY while the VCA machine is in
ATTACK. -/
theorem tick_comm (c : Config) (s : Engine) (p : MidiCCParam) (v : Nat)
    (hp : (specCcValue c p v).isSome = true) (hdemo : s.demoMode ≠ 1)
    (hst : p.readAtDecayEntry = true → s.stateMachineVca.machineState ≠ MachineState.ATTACK) :
    HAL_TIM_PeriodElapsedCallback c (setMidiCCParam c p v s)
      = (HAL_TIM_PeriodElapsedCallback c s).map (setMidiCCParam c p v) := by
  have hdm : (setMidiCCParam c p v s).demoMode = s.demoMode := by
    cases p <;> simp only [specCcValue, Option.isSome_none, Bool.false_eq_true] at hp <;> rfl
  have hk : ∀ t : Engine, (setMidiCCParam c p v t).adsrInterruptCounter
      = t.adsrInterruptCounter := by
    intro t
    cases p <;> simp only [specCcValue, Option.isSome_none, Bool.false_eq_true] at hp <;> rfl
  have hst1 : p.readAtDecayEntry = true →
      (tickPrologue c s).stateMachineVca.machineState ≠ MachineState.ATTACK := by
    intro h
    rw [(tickPrologue_frame c s).1]
    exact hst h
  rw [tick_demo_off_eq c _ (by rw [hdm]; exact hdemo), tick_demo_off_eq c s hdemo,
    tickPrologue_comm c s p v hp, hk]
  cases selectSlowUpdate (tickPrologue c s).adsrInterruptCounter with
  | none => rfl
  | some u => exact runSlowUpdate_comm c u _ p v hp hst1

/-- One tick with demo mode off keeps the demo mode off and keeps the VCA machine out of
ATTACK. -/
theorem tick_keeps (c : Config) (s s1 : Engine) (hdemo : s.demoMode ≠ 1)
    (h : HAL_TIM_PeriodElapsedCallback c s = some s1) :
    s1.demoMode ≠ 1
    ∧ (s.stateMachineVca.machineState ≠ MachineState.ATTACK →
        s1.stateMachineVca.machineState ≠ MachineState.ATTACK) := by
  rw [tick_demo_off_eq c s hdemo] at h
  have hf := tickPrologue_frame c s
  cases hsel : selectSlowUpdate (tickPrologue c s).adsrInterruptCounter with
  | none =>
    rw [hsel] at h
    simp only [Option.some.injEq] at h
    subst h
    rw [hf.1, hf.2.2]
    exact ⟨hdemo, id⟩
  | some u =>
    rw [hsel] at h
    obtain ⟨h1, h2⟩ := runSlowUpdate_keeps c u _ s1 h
    rw [hf.1] at h2
    rw [hf.2.2] at h1
    exact ⟨by rw [h1]; exact hdemo, h2⟩

/-- A run of ticks with demo mode off commutes with an envelope control change, unless
the control change sets a parameter read at the entry of DECAY while the VCA machine is
in ATTACK. -/
theorem runTicks_comm (c : Config) (n : Nat) (s : Engine) (p : MidiCCParam) (v : Nat)
    (hp : (specCcValue c p v).isSome = true) (hdemo : s.demoMode ≠ 1)
    (hst : p.readAtDecayEntry = true → s.stateMachineVca.machineState ≠ MachineState.ATTACK) :
    runTicks c n (setMidiCCParam c p v s) = (runTicks c n s).map (setMidiCCParam c p v) := by
  induction n generalizing s with
  | zero => rfl
  | succ n ih =>
    simp only [runTicks]
    rw [tick_comm c s p v hp hdemo hst]
    cases h1 : HAL_TIM_PeriodElapsedCallback c s with
    | none => rfl
    | some s1 =>
      obtain ⟨hd1, hs1⟩ := tick_keeps c s s1 hdemo h1
      simp only [Option.map_some', Option.some_bind]
      exact ih s1 hd1 (fun h => hs1 (hst h))

/-- The note-on handler leaves the VCA envelope configuration unchanged. -/
theorem midiNoteOnHandler_vcaAdsr (c : Config) (s : Engine) :
    (midiNoteOnHandler c s).vcaAdsr = s.vcaAdsr := by
  simp [midiNoteOnHandler, HAL_GPIO_WritePin, emit]

/-- The attack leg of the scenario for any decay time and sustain level: ten ticks bring
the level to 1 and the machine to DECAY, with the target and delta computed from the
configuration of that moment. -/
theorem scenario_attack_entry (adsr : AdsrParams) (σ : ℚ) :
    (vcaStep 1 adsr)^[10]
      { velocitySensitivity := σ, machineState := MachineState.ATTACK, amplitude := 0,
        tmpTargetLevel := 1, tmpDelta := 1 / 10 }
    = { velocitySensitivity := σ, machineState := MachineState.DECAY, amplitude := 1,
        tmpTargetLevel := adsr.sustainLevel,
        tmpDelta := (adsr.sustainLevel - 1) / adsr.decayTimeMs } := by
  have hrun := vcaStep_attack_run 1 adsr σ 0 1 (1 / 10) 9 (by
    intro i hi
    have : (i : ℚ) ≤ 8 := by exact_mod_cast Nat.le_of_lt_succ hi
    linarith)
  have hten : (10 : Nat) = 9 + 1 := rfl
  rw [hten, Function.iterate_succ_apply', hrun,
    vcaStep_attack_last 1 adsr σ _ 1 (1 / 10) (by norm_num)]
  norm_num

/-- C18, counterexample: in the state reached by a note-on of velocity 127 in the
scenario (VCA in ATTACK, sustain level 1/2, decay 20 ms), the control change
`VCA_SUSTAIN` of value 0 changes the levels produced by the following ticks: after 11
VCA ticks the amplitude is 19/20 instead of 39/40, the decay ramp entered at tick 10
being computed from the new sustain level. -/
theorem C18_sustain_counterexample :
    (midiNoteOnHandler sampleConfig scenarioEngine).stateMachineVca.machineState
        = MachineState.ATTACK
    ∧ (specCcValue sampleConfig MidiCCParam.VCA_SUSTAIN 0).isSome = true
    ∧ (vcaTicks sampleConfig 11
        (midiNoteOnHandler sampleConfig scenarioEngine)).stateMachineVca.amplitude = 39 / 40
    ∧ (vcaTicks sampleConfig 11
        (setMidiCCParam sampleConfig MidiCCParam.VCA_SUSTAIN 0
          (midiNoteOnHandler sampleConfig scenarioEngine))).stateMachineVca.amplitude
        = 19 / 20 := by
  have hm : (midiNoteOnHandler sampleConfig scenarioEngine).stateMachineVca
      = { velocitySensitivity := 1 / 2, machineState := MachineState.ATTACK, amplitude := 0,
          tmpTargetLevel := 1, tmpDelta := 1 / 10 } := by
    rw [midiNoteOnHandler_vca]
    simp only [scenarioEngine, sampleEngine, sampleConfig]
    norm_num
  have hP : sampleConfig.ADSR_TIMER_PERIOD_MS = 1 := rfl
  have h11 : (11 : Nat) = 10 + 1 := rfl
  refine ⟨by rw [hm], rfl, ?_, ?_⟩
  · rw [(vcaTicks_vca _ _ _).1, hP, hm, h11, Function.iterate_succ_apply',
      scenario_attack_entry, midiNoteOnHandler_vcaAdsr]
    simp only [vcaStep, scenarioEngine, sampleEngine]
    norm_num
  · have hcfg : (setMidiCCParam sampleConfig MidiCCParam.VCA_SUSTAIN 0
        (midiNoteOnHandler sampleConfig scenarioEngine)).vcaAdsr
        = { attackTimeMs := 10, decayTimeMs := 20, releaseTimeMs := 10, sustainLevel := 0 } := by
      simp only [setMidiCCParam, midiNoteOnHandler_vcaAdsr, scenarioEngine, sampleEngine,
        sampleConfig]
      norm_num
    have hrt : (setMidiCCParam sampleConfig MidiCCParam.VCA_SUSTAIN 0
        (midiNoteOnHandler sampleConfig scenarioEngine)).stateMachineVca
        = (midiNoteOnHandler sampleConfig scenarioEngine).stateMachineVca := rfl
    rw [(vcaTicks_vca _ _ _).1, hP, hrt, hm, h11, Function.iterate_succ_apply',
      scenario_attack_entry, hcfg]
    simp only [vcaStep]
    norm_num

/-- C18, amended: with demo mode off, an envelope control change (attack, decay,
sustain, release time or velocity sensitivity of either envelope, any value) commutes
with any number of ticks of the scheduler (no note-on or note-off in between) in every
state of the machines when it sets an attack time, a release time or a velocity
sensitivity, and when both machines are in DECAY if it sets a decay time or a sustain
level: the run after the control change returns exactly when the run without it does,
and then both machines have the same state, level, target, delta and step counters and
the same hardware events have been emitted. -/
theorem C18_control_change_commutes_with_ticks (c : Config) (s : Engine) (p : MidiCCParam)
    (v n : Nat)
    (hp : (specCcValue c p v).isSome = true) (hdemo : s.demoMode ≠ 1)
    (hstate : p.readAtDecayEntry = true →
      s.stateMachineVca.machineState = MachineState.DECAY
      ∧ s.stateMachineVcf.machineState = MachineState.DECAY) :
    runTicks c n (setMidiCCParam c p v s) = (runTicks c n s).map (setMidiCCParam c p v)
    ∧ ∀ s1 : Engine, runTicks c n s = some s1 →
        ∃ s2 : Engine, runTicks c n (setMidiCCParam c p v s) = some s2
          ∧ s2.stateMachineVca.runtime = s1.stateMachineVca.runtime
          ∧ s2.stateMachineVcf.runtime = s1.stateMachineVcf.runtime
          ∧ s2.trace = s1.trace := by
  have hst : p.readAtDecayEntry = true →
      s.stateMachineVca.machineState ≠ MachineState.ATTACK := by
    intro h
    rw [(hstate h).1]
    decide
  have hcomm := runTicks_comm c n s p v hp hdemo hst
  refine ⟨hcomm, ?_⟩
  intro s1 h1
  obtain ⟨_, _, h3, h4, _, _, _, _, _, h7⟩ := setMidiCCParam_envelope c s1 p v hp
  exact ⟨setMidiCCParam c p v s1, by rw [hcomm, h1, Option.map_some'], h3, h4, h7⟩

/-- Instance of C18: while the note of the sample state sounds (both machines in DECAY),
setting the VCA sustain level to 0 commutes with 40 ticks. -/
theorem C18_control_change_commutes_with_ticks_witness :
    (specCcValue sampleConfig MidiCCParam.VCA_SUSTAIN 0).isSome = true
    ∧ soundingEngine.demoMode ≠ 1
    ∧ soundingEngine.stateMachineVca.machineState = MachineState.DECAY
    ∧ soundingEngine.stateMachineVcf.machineState = MachineState.DECAY
    ∧ runTicks sampleConfig 40 (setMidiCCParam sampleConfig MidiCCParam.VCA_SUSTAIN 0 soundingEngine)
        = (runTicks sampleConfig 40 soundingEngine).map
            (setMidiCCParam sampleConfig MidiCCParam.VCA_SUSTAIN 0) :=
  ⟨rfl, by decide, rfl, rfl,
    (C18_control_change_commutes_with_ticks sampleConfig soundingEngine MidiCCParam.VCA_SUSTAIN
      0 40 rfl (by decide) (fun _ => ⟨rfl, rfl⟩)).1⟩

/-! ## End of the release (C11) -/

/-- An idle VCA machine is left unchanged by any number of ticks. -/
theorem vcaStep_idle (P : ℚ) (adsr : AdsrParams) (m : StateMachineVca)
    (hst : m.machineState = MachineState.IDLE) (n : Nat) :
    (vcaStep P adsr)^[n] m = m := by
  have hstep : vcaStep P adsr m = m := by
    simp only [vcaStep, hst]
  exact Function.iterate_fixed hstep n

/-- The level of a release ramp after `i` steps, as a fraction of the release time. -/
theorem release_level (P R a : ℚ) (i : Nat) (hR : 0 < R) :
    a + (i : ℚ) * (-P * a / R) = a * (R - (i : ℚ) * P) / R := by
  field_simp
  ring

/-- C11, counterexample: with a release time of 3/2 ms and a tick period of 1 ms, a
note-on, one VCA tick and a note-off leave the VCA at amplitude 1/10 in RELEASE with
delta -1/15; the machine is still in RELEASE after 2 ticks and first becomes IDLE at
the third, with amplitude -1/30, not 0. -/
theorem C11_release_rest_counterexample :
    0 < shortReleaseEngine.vcaAdsr.releaseTimeMs
    ∧ 0 < sampleConfig.ADSR_TIMER_PERIOD_MS
    ∧ (vcaTicks sampleConfig 1
        (midiNoteOffHandler sampleConfig
          (vcaTicks sampleConfig 1
            (midiNoteOnHandler sampleConfig shortReleaseEngine)))).stateMachineVca.machineState
        = MachineState.RELEASE
    ∧ (vcaTicks sampleConfig 2
        (midiNoteOffHandler sampleConfig
          (vcaTicks sampleConfig 1
            (midiNoteOnHandler sampleConfig shortReleaseEngine)))).stateMachineVca.machineState
        = MachineState.RELEASE
    ∧ (vcaTicks sampleConfig 3
        (midiNoteOffHandler sampleConfig
          (vcaTicks sampleConfig 1
            (midiNoteOnHandler sampleConfig shortReleaseEngine)))).stateMachineVca.machineState
        = MachineState.IDLE
    ∧ (vcaTicks sampleConfig 3
        (midiNoteOffHandler sampleConfig
          (vcaTicks sampleConfig 1
            (midiNoteOnHandler sampleConfig shortReleaseEngine)))).stateMachineVca.amplitude
        = -1 / 30 := by
  have hP : sampleConfig.ADSR_TIMER_PERIOD_MS = 1 := rfl
  have hon : (midiNoteOnHandler sampleConfig shortReleaseEngine).stateMachineVca
      = { velocitySensitivity := 1 / 2, machineState := MachineState.ATTACK, amplitude := 0,
          tmpTargetLevel := 1, tmpDelta := 1 / 10 } := by
    rw [midiNoteOnHandler_vca]
    simp only [shortReleaseEngine, scenarioEngine, scenarioAdsr, sampleEngine, sampleConfig]
    norm_num
  have h1 : (vcaTicks sampleConfig 1
      (midiNoteOnHandler sampleConfig shortReleaseEngine)).stateMachineVca
      = { velocitySensitivity := 1 / 2, machineState := MachineState.ATTACK,
          amplitude := 1 / 10, tmpTargetLevel := 1, tmpDelta := 1 / 10 } := by
    rw [(vcaTicks_vca _ _ _).1, hP, hon, Function.iterate_one]
    simp only [vcaStep]
    norm_num
  have hR : (vcaTicks sampleConfig 1
      (midiNoteOnHandler sampleConfig shortReleaseEngine)).vcaAdsr.releaseTimeMs = 3 / 2 := by
    rw [(vcaTicks_vca _ _ _).2, midiNoteOnHandler_vcaAdsr]
    rfl
  have hoff : (midiNoteOffHandler sampleConfig
      (vcaTicks sampleConfig 1
        (midiNoteOnHandler sampleConfig shortReleaseEngine))).stateMachineVca
      = { velocitySensitivity := 1 / 2, machineState := MachineState.RELEASE,
          amplitude := 1 / 10, tmpTargetLevel := 0, tmpDelta := -1 / 15 } := by
    rw [midiNoteOffHandler_vca, h1, hR, hP]
    norm_num
  have hrun : ∀ n : Nat, n ≤ 2 →
      (vcaTicks sampleConfig n
        (midiNoteOffHandler sampleConfig
          (vcaTicks sampleConfig 1
            (midiNoteOnHandler sampleConfig shortReleaseEngine)))).stateMachineVca
      = { velocitySensitivity := 1 / 2, machineState := MachineState.RELEASE,
          amplitude := 1 / 10 + (n : ℚ) * (-1 / 15), tmpTargetLevel := 0,
          tmpDelta := -1 / 15 } := by
    intro n hn
    rw [(vcaTicks_vca _ _ _).1, hoff]
    apply vcaStep_release_run
    intro i hi
    have : (i : ℚ) ≤ 1 := by exact_mod_cast (by omega : i ≤ 1)
    linarith
  have h3 : (vcaTicks sampleConfig 3
      (midiNoteOffHandler sampleConfig
        (vcaTicks sampleConfig 1
          (midiNoteOnHandler sampleConfig shortReleaseEngine)))).stateMachineVca
      = { velocitySensitivity := 1 / 2, machineState := MachineState.IDLE,
          amplitude := 1 / 10 + ((2 : Nat) : ℚ) * (-1 / 15), tmpTargetLevel := 0,
          tmpDelta := -1 / 15 } := by
    have h2 := hrun 2 (le_refl _)
    rw [(vcaTicks_vca _ _ _).1] at h2 ⊢
    rw [show (3 : Nat) = 2 + 1 from rfl, Function.iterate_succ_apply', h2]
    exact vcaStep_release_last _ _ _ _ _ _ (by norm_num)
  refine ⟨by norm_num [shortReleaseEngine], by norm_num [sampleConfig], ?_, ?_, ?_, ?_⟩
  · rw [hrun 1 (by omega)]
  · rw [hrun 2 (by omega)]
  · rw [h3]
  · rw [h3]
    norm_num

/-- C11, amended (VCA envelope): for every positive release time `R`, every positive
tick period `P` and every state of the engine, with `a` its VCA amplitude, after a
note-off the VCA machine does reach IDLE. There is a tick `n ≥ 1` such that the machine
is in RELEASE before tick `n`, its amplitude is positive at every tick before `n - 1`,
and it is in IDLE at tick `n` and stays as it is at every later tick; the tick into
IDLE leaves the amplitude as the previous tick left it, and that amplitude is the first
level of the ramp that is not positive, which need not be 0: when `a ≥ 0` it lies
between the release delta `-P * a / R` (one step below 0) and 0, and when `a ≤ 0` the
machine is in IDLE at the first tick with the amplitude `a` it had. The levels are those
of the exact ramp, which the `double` program follows up to the rounding of its
additions; the tick `n` is not fixed, because that rounding can add a tick. -/
theorem C11_vca_release_reaches_idle (c : Config) (s : Engine)
    (hP : 0 < c.ADSR_TIMER_PERIOD_MS) (hR : 0 < s.vcaAdsr.releaseTimeMs) :
    ∃ n : Nat, 1 ≤ n
      ∧ (∀ k : Nat, k < n →
          (vcaTicks c k (midiNoteOffHandler c s)).stateMachineVca.machineState
            = MachineState.RELEASE)
      ∧ (∀ k : Nat, k + 1 < n →
          0 < (vcaTicks c k (midiNoteOffHandler c s)).stateMachineVca.amplitude)
      ∧ (vcaTicks c n (midiNoteOffHandler c s)).stateMachineVca.machineState
          = MachineState.IDLE
      ∧ (∀ m : Nat, n ≤ m →
          (vcaTicks c m (midiNoteOffHandler c s)).stateMachineVca
            = (vcaTicks c n (midiNoteOffHandler c s)).stateMachineVca)
      ∧ (vcaTicks c n (midiNoteOffHandler c s)).stateMachineVca.amplitude
          = (vcaTicks c (n - 1) (midiNoteOffHandler c s)).stateMachineVca.amplitude
      ∧ (vcaTicks c n (midiNoteOffHandler c s)).stateMachineVca.tmpDelta
          = -c.ADSR_TIMER_PERIOD_MS * s.stateMachineVca.amplitude / s.vcaAdsr.releaseTimeMs
      ∧ (vcaTicks c n (midiNoteOffHandler c s)).stateMachineVca.amplitude ≤ 0
      ∧ (0 ≤ s.stateMachineVca.amplitude →
          (vcaTicks c n (midiNoteOffHandler c s)).stateMachineVca.tmpDelta
            ≤ (vcaTicks c n (midiNoteOffHandler c s)).stateMachineVca.amplitude)
      ∧ (s.stateMachineVca.amplitude ≤ 0 →
          n = 1
          ∧ (vcaTicks c n (midiNoteOffHandler c s)).stateMachineVca.amplitude
              = s.stateMachineVca.amplitude) := by
  generalize hPdef : c.ADSR_TIMER_PERIOD_MS = P at hP ⊢
  generalize hRdef : s.vcaAdsr.releaseTimeMs = R at hR ⊢
  generalize hadef : s.stateMachineVca.amplitude = a
  have hRP : 0 < R / P := div_pos hR hP
  have hNle : R / P ≤ (⌈R / P⌉₊ : ℚ) := Nat.le_ceil _
  have hNlt : (⌈R / P⌉₊ : ℚ) - 1 < R / P := by
    have := Nat.ceil_lt_add_one (le_of_lt hRP)
    linarith
  have hoff : (midiNoteOffHandler c s).stateMachineVca
      = { velocitySensitivity := s.stateMachineVca.velocitySensitivity,
          machineState := MachineState.RELEASE, amplitude := a, tmpTargetLevel := 0,
          tmpDelta := -P * a / R } := by
    rw [midiNoteOffHandler_vca, hPdef, hRdef, ← hadef]
  have hNP : R ≤ (⌈R / P⌉₊ : ℚ) * P := (div_le_iff₀ hP).mp hNle
  have hNP1 : ((⌈R / P⌉₊ : ℚ) - 1) * P < R := (lt_div_iff₀ hP).mp hNlt
  have hstay : ∀ (n : Nat) (m0 : StateMachineVca),
      (vcaTicks c n (midiNoteOffHandler c s)).stateMachineVca = m0 →
      m0.machineState = MachineState.IDLE →
      ∀ m : Nat, n ≤ m → (vcaTicks c m (midiNoteOffHandler c s)).stateMachineVca = m0 := by
    intro n m0 hn hidle m hm
    obtain ⟨d, rfl⟩ := Nat.exists_eq_add_of_le hm
    rw [(vcaTicks_vca _ _ _).1] at hn ⊢
    rw [Nat.add_comm, Function.iterate_add_apply, hn]
    exact vcaStep_idle _ _ _ hidle d
  rcases lt_or_le 0 a with hapos | hanonpos
  · have ha : 0 ≤ a := le_of_lt hapos
    have hpos : ∀ i : Nat, i < ⌈R / P⌉₊ → 0 < a + (i : ℚ) * (-P * a / R) := by
      intro i hi
      have hi' : (i : ℚ) < R / P := Nat.lt_ceil.mp hi
      have hiP : (i : ℚ) * P < R := (lt_div_iff₀ hP).mp hi'
      rw [release_level P R a i hR]
      exact div_pos (mul_pos hapos (by linarith)) hR
    have hlast : a + (⌈R / P⌉₊ : ℚ) * (-P * a / R) ≤ 0 := by
      rw [release_level P R a _ hR]
      exact div_nonpos_of_nonpos_of_nonneg
        (mul_nonpos_of_nonneg_of_nonpos ha (by linarith)) (le_of_lt hR)
    have hlow : -P * a / R ≤ a + (⌈R / P⌉₊ : ℚ) * (-P * a / R) := by
      rw [release_level P R a _ hR, ← sub_nonneg, ← sub_div]
      apply div_nonneg _ (le_of_lt hR)
      have hsum : a * (R - (⌈R / P⌉₊ : ℚ) * P) - -P * a
          = a * (R - ((⌈R / P⌉₊ : ℚ) - 1) * P) := by
        ring
      rw [hsum]
      exact mul_nonneg ha (by linarith)
    have hrun : ∀ k : Nat, k ≤ ⌈R / P⌉₊ →
        (vcaTicks c k (midiNoteOffHandler c s)).stateMachineVca
        = { velocitySensitivity := s.stateMachineVca.velocitySensitivity,
            machineState := MachineState.RELEASE,
            amplitude := a + (k : ℚ) * (-P * a / R), tmpTargetLevel := 0,
            tmpDelta := -P * a / R } := by
      intro k hk
      rw [(vcaTicks_vca _ _ _).1, hoff,
        vcaStep_release_run _ _ _ a 0 (-P * a / R) k
          (fun i hi => hpos i (lt_of_lt_of_le hi hk))]
    have hfinal : (vcaTicks c (⌈R / P⌉₊ + 1) (midiNoteOffHandler c s)).stateMachineVca
        = { velocitySensitivity := s.stateMachineVca.velocitySensitivity,
            machineState := MachineState.IDLE,
            amplitude := a + (⌈R / P⌉₊ : ℚ) * (-P * a / R), tmpTargetLevel := 0,
            tmpDelta := -P * a / R } := by
      have h := hrun ⌈R / P⌉₊ (le_refl _)
      rw [(vcaTicks_vca _ _ _).1] at h ⊢
      rw [Function.iterate_succ_apply', h]
      exact vcaStep_release_last _ _ _ _ _ _ hlast
    refine ⟨⌈R / P⌉₊ + 1, by omega, ?_, ?_, by rw [hfinal], ?_, ?_, by rw [hfinal], ?_, ?_,
      ?_⟩
    · intro k hk
      rw [hrun k (by omega)]
    · intro k hk
      rw [hrun k (by omega)]
      exact hpos k (by omega)
    · intro m hm
      rw [hfinal]
      exact hstay _ _ hfinal rfl m hm
    · rw [hfinal, Nat.add_sub_cancel, hrun _ (le_refl _)]
    · rw [hfinal]
      exact hlast
    · intro _
      rw [hfinal]
      exact hlow
    · intro hle
      exact absurd hapos (not_lt.mpr hle)
  · have h0 : (vcaTicks c 0 (midiNoteOffHandler c s)).stateMachineVca
        = { velocitySensitivity := s.stateMachineVca.velocitySensitivity,
            machineState := MachineState.RELEASE, amplitude := a, tmpTargetLevel := 0,
            tmpDelta := -P * a / R } := hoff
    have h1 : (vcaTicks c 1 (midiNoteOffHandler c s)).stateMachineVca
        = { velocitySensitivity := s.stateMachineVca.velocitySensitivity,
            machineState := MachineState.IDLE, amplitude := a, tmpTargetLevel := 0,
            tmpDelta := -P * a / R } := by
      rw [(vcaTicks_vca _ _ _).1, hoff, Function.iterate_one]
      exact vcaStep_release_last _ _ _ a _ _ hanonpos
    refine ⟨1, le_refl _, ?_, ?_, by rw [h1], ?_, ?_, by rw [h1], ?_, ?_, ?_⟩
    · intro k hk
      obtain rfl : k = 0 := by omega
      rw [h0]
    · intro k hk
      omega
    · intro m hm
      rw [h1]
      exact hstay _ _ h1 rfl m hm
    · rw [h1, h0]
    · rw [h1]
      exact hanonpos
    · intro ha
      obtain rfl : a = 0 := le_antisymm hanonpos ha
      rw [h1]
      norm_num
    · intro _
      exact ⟨rfl, by rw [h1]⟩

/-- Instance of C11: the sounding state with a release time of 8 ms (amplitude 1/2,
period 1 ms), every level of whose release ramp is a multiple of 1/16. -/
theorem C11_vca_release_reaches_idle_witness :
    0 < sampleConfig.ADSR_TIMER_PERIOD_MS
    ∧ 0 < evenReleaseEngine.vcaAdsr.releaseTimeMs
    ∧ ∃ n : Nat, 1 ≤ n
      ∧ (vcaTicks sampleConfig n
          (midiNoteOffHandler sampleConfig evenReleaseEngine)).stateMachineVca.machineState
          = MachineState.IDLE
      ∧ (vcaTicks sampleConfig n
          (midiNoteOffHandler sampleConfig evenReleaseEngine)).stateMachineVca.amplitude
          ≤ 0 :=
  have hP : 0 < sampleConfig.ADSR_TIMER_PERIOD_MS := by norm_num [sampleConfig]
  have hR : 0 < evenReleaseEngine.vcaAdsr.releaseTimeMs := by
    norm_num [evenReleaseEngine, scenarioAdsr]
  have h := C11_vca_release_reaches_idle sampleConfig evenReleaseEngine hP hR
  ⟨hP, hR, h.elim fun n hn => ⟨n, hn.1, hn.2.2.2.1, hn.2.2.2.2.2.2.2.1⟩⟩

/-! ## Sustain plateau (C12) -/

/-- The attack ramp of the VCA ends: from level 0 with target `T ≥ 0` and delta
`P * T / A`, some number of ticks brings the machine to DECAY at a peak not below `T`,
with the decay ramp computed from that peak. -/
theorem vca_attack_peak (P : ℚ) (adsr : AdsrParams) (σ T : ℚ)
    (hP : 0 < P) (hA : 0 < adsr.attackTimeMs) (hT : 0 ≤ T) :
    ∃ (na : Nat) (peak : ℚ), T ≤ peak ∧
      (vcaStep P adsr)^[na]
        { velocitySensitivity := σ, machineState := MachineState.ATTACK, amplitude := 0,
          tmpTargetLevel := T, tmpDelta := P * T / adsr.attackTimeMs }
      = { velocitySensitivity := σ, machineState := MachineState.DECAY, amplitude := peak,
          tmpTargetLevel := T * adsr.sustainLevel,
          tmpDelta := P * (T * adsr.sustainLevel - peak) / adsr.decayTimeMs } := by
  have hAP : 0 < adsr.attackTimeMs / P := div_pos hA hP
  have hN1 : 1 ≤ ⌈adsr.attackTimeMs / P⌉₊ := Nat.ceil_pos.mpr hAP
  obtain ⟨k, hk⟩ : ∃ k : Nat, ⌈adsr.attackTimeMs / P⌉₊ = k + 1 := ⟨_, (Nat.sub_add_cancel hN1).symm⟩
  have hceil : adsr.attackTimeMs / P ≤ ((k + 1 : Nat) : ℚ) := by
    rw [← hk]
    exact Nat.le_ceil _
  have hkA : adsr.attackTimeMs ≤ ((k : ℚ) + 1) * P := by
    have := (div_le_iff₀ hP).mp hceil
    push_cast at this
    exact this
  have hlevel : ∀ x : ℚ, x * (P * T / adsr.attackTimeMs) = T * (x * P) / adsr.attackTimeMs := by
    intro x
    field_simp
    ring
  have hlast : T ≤ 0 + (k : ℚ) * (P * T / adsr.attackTimeMs) + P * T / adsr.attackTimeMs := by
    have h1 : 0 + (k : ℚ) * (P * T / adsr.attackTimeMs) + P * T / adsr.attackTimeMs
        = T * (((k : ℚ) + 1) * P) / adsr.attackTimeMs := by
      field_simp
      ring
    rw [h1, le_div_iff₀ hA]
    exact mul_le_mul_of_nonneg_left hkA hT
  rcases lt_or_eq_of_le hT with hTpos | hTzero
  · have hrun := vcaStep_attack_run P adsr σ 0 T (P * T / adsr.attackTimeMs) k (by
      intro i hi
      have hi1 : i + 1 < ⌈adsr.attackTimeMs / P⌉₊ := by omega
      have hi2 : ((i + 1 : Nat) : ℚ) < adsr.attackTimeMs / P := Nat.lt_ceil.mp hi1
      have hi3 : ((i : ℚ) + 1) * P < adsr.attackTimeMs := by
        have := (lt_div_iff₀ hP).mp hi2
        push_cast at this
        exact this
      rw [zero_add, hlevel, div_lt_iff₀ hA]
      exact mul_lt_mul_of_pos_left hi3 hTpos)
    refine ⟨k + 1, 0 + (k : ℚ) * (P * T / adsr.attackTimeMs) + P * T / adsr.attackTimeMs,
      hlast, ?_⟩
    rw [Function.iterate_succ_apply', hrun]
    exact vcaStep_attack_last P adsr σ _ T _ hlast
  · subst hTzero
    refine ⟨1, 0 + P * 0 / adsr.attackTimeMs, by simp, ?_⟩
    rw [Function.iterate_one]
    exact vcaStep_attack_last P adsr σ 0 0 _ (by simp)

/-- The decay ramp of the VCA settles: from a level `a` not below the target `G`, with
delta `P * (G - a) / D`, the machine stays in DECAY and its level stops changing after
some number of ticks, at a held level in `[G + delta, G]`, above `G + delta` when the
delta is not 0. -/
theorem vca_decay_settle (P : ℚ) (adsr : AdsrParams) (σ a G : ℚ)
    (hP : 0 < P) (hD : 0 < adsr.decayTimeMs) (haG : G ≤ a) :
    ∃ (nd : Nat) (held : ℚ),
      (∀ n : Nat, nd ≤ n →
        (vcaStep P adsr)^[n]
          { velocitySensitivity := σ, machineState := MachineState.DECAY, amplitude := a,
            tmpTargetLevel := G, tmpDelta := P * (G - a) / adsr.decayTimeMs }
        = { velocitySensitivity := σ, machineState := MachineState.DECAY, amplitude := held,
            tmpTargetLevel := G, tmpDelta := P * (G - a) / adsr.decayTimeMs })
      ∧ held ≤ G ∧ G + P * (G - a) / adsr.decayTimeMs ≤ held
      ∧ (P * (G - a) / adsr.decayTimeMs ≠ 0 → G + P * (G - a) / adsr.decayTimeMs < held) := by
  rcases lt_or_eq_of_le haG with hlt | heq
  · have hDP : 0 < adsr.decayTimeMs / P := div_pos hD hP
    have hceil : adsr.decayTimeMs / P ≤ (⌈adsr.decayTimeMs / P⌉₊ : ℚ) := Nat.le_ceil _
    have hNP : adsr.decayTimeMs ≤ (⌈adsr.decayTimeMs / P⌉₊ : ℚ) * P :=
      (div_le_iff₀ hP).mp hceil
    have hNP1 : ((⌈adsr.decayTimeMs / P⌉₊ : ℚ) - 1) * P < adsr.decayTimeMs := by
      have := Nat.ceil_lt_add_one (le_of_lt hDP)
      exact (lt_div_iff₀ hP).mp (by linarith)
    have hlevel : ∀ x : ℚ, a + x * (P * (G - a) / adsr.decayTimeMs)
        = G + (a - G) * (adsr.decayTimeMs - x * P) / adsr.decayTimeMs := by
      intro x
      field_simp
      ring
    have hag : 0 < a - G := by linarith
    have hrun := vcaStep_decay_run P adsr σ a G (P * (G - a) / adsr.decayTimeMs)
      ⌈adsr.decayTimeMs / P⌉₊ (by
        intro i hi
        have hi2 : (i : ℚ) < adsr.decayTimeMs / P := Nat.lt_ceil.mp hi
        have hi3 : (i : ℚ) * P < adsr.decayTimeMs := (lt_div_iff₀ hP).mp hi2
        rw [hlevel]
        have : 0 < (a - G) * (adsr.decayTimeMs - (i : ℚ) * P) / adsr.decayTimeMs :=
          div_pos (mul_pos hag (by linarith)) hD
        linarith)
    have hheld : a + (⌈adsr.decayTimeMs / P⌉₊ : ℚ) * (P * (G - a) / adsr.decayTimeMs) ≤ G := by
      rw [hlevel]
      have : (a - G) * (adsr.decayTimeMs - (⌈adsr.decayTimeMs / P⌉₊ : ℚ) * P)
          / adsr.decayTimeMs ≤ 0 :=
        div_nonpos_of_nonpos_of_nonneg
          (mul_nonpos_of_nonneg_of_nonpos (le_of_lt hag) (by linarith)) (le_of_lt hD)
      linarith
    have habove : G + P * (G - a) / adsr.decayTimeMs
        < a + (⌈adsr.decayTimeMs / P⌉₊ : ℚ) * (P * (G - a) / adsr.decayTimeMs) := by
      have h1 : a + (⌈adsr.decayTimeMs / P⌉₊ : ℚ) * (P * (G - a) / adsr.decayTimeMs)
          - P * (G - a) / adsr.decayTimeMs
          = G + (a - G) * (adsr.decayTimeMs - ((⌈adsr.decayTimeMs / P⌉₊ : ℚ) - 1) * P)
              / adsr.decayTimeMs := by
        field_simp
        ring
      have h2 : 0 < (a - G) * (adsr.decayTimeMs - ((⌈adsr.decayTimeMs / P⌉₊ : ℚ) - 1) * P)
          / adsr.decayTimeMs :=
        div_pos (mul_pos hag (by linarith)) hD
      linarith
    refine ⟨⌈adsr.decayTimeMs / P⌉₊,
      a + (⌈adsr.decayTimeMs / P⌉₊ : ℚ) * (P * (G - a) / adsr.decayTimeMs), ?_, hheld,
      le_of_lt habove, fun _ => habove⟩
    intro n hn
    obtain ⟨m, rfl⟩ : ∃ m : Nat, n = m + ⌈adsr.decayTimeMs / P⌉₊ :=
      ⟨n - ⌈adsr.decayTimeMs / P⌉₊, (Nat.sub_add_cancel hn).symm⟩
    rw [Function.iterate_add_apply, hrun]
    exact vcaStep_decay_parked P adsr _ rfl hheld m
  · subst heq
    refine ⟨0, G, ?_, le_refl _, by simp, fun h => absurd (by simp) h⟩
    intro n _
    exact vcaStep_decay_parked P adsr _ rfl (le_refl _) n

/-- After a note-on the VCA level settles in DECAY: the attack ramp ends at a peak not
below the target `T`, and the decay ramp from that peak stops within one step below
`T * sustainLevel`. -/
theorem vca_plateau (P : ℚ) (adsr : AdsrParams) (σ T : ℚ)
    (hP : 0 < P) (hA : 0 < adsr.attackTimeMs) (hD : 0 < adsr.decayTimeMs)
    (hS1 : adsr.sustainLevel ≤ 1) (hT : 0 ≤ T) :
    ∃ (n0 : Nat) (held δ : ℚ),
      (∀ n : Nat, n0 ≤ n →
        (vcaStep P adsr)^[n]
          { velocitySensitivity := σ, machineState := MachineState.ATTACK, amplitude := 0,
            tmpTargetLevel := T, tmpDelta := P * T / adsr.attackTimeMs }
        = { velocitySensitivity := σ, machineState := MachineState.DECAY, amplitude := held,
            tmpTargetLevel := T * adsr.sustainLevel, tmpDelta := δ })
      ∧ δ ≤ 0 ∧ held ≤ T * adsr.sustainLevel ∧ T * adsr.sustainLevel + δ ≤ held
      ∧ (δ ≠ 0 → T * adsr.sustainLevel + δ < held) := by
  obtain ⟨na, peak, hpeak, hna⟩ := vca_attack_peak P adsr σ T hP hA hT
  have hTS : T * adsr.sustainLevel ≤ T := by
    have := mul_le_mul_of_nonneg_left hS1 hT
    linarith
  obtain ⟨nd, held, hrun, h1, h2, h3⟩ :=
    vca_decay_settle P adsr σ peak (T * adsr.sustainLevel) hP hD (le_trans hTS hpeak)
  refine ⟨nd + na, held, P * (T * adsr.sustainLevel - peak) / adsr.decayTimeMs, ?_, ?_, h1, h2,
    h3⟩
  · intro n hn
    obtain ⟨m, rfl⟩ : ∃ m : Nat, n = m + na := ⟨n - na, (Nat.sub_add_cancel (by omega)).symm⟩
    rw [Function.iterate_add_apply, hna]
    exact hrun m (by omega)
  · exact div_nonpos_of_nonpos_of_nonneg
      (mul_nonpos_of_nonneg_of_nonpos (le_of_lt hP) (by linarith)) (le_of_lt hD)

/-- The attack leg from level 0 to the target 1 in steps of 1/8, for any decay time and
sustain level: eight ticks bring the level to 1 and the machine to DECAY, with the
target and delta computed from the configuration of that moment. -/
theorem even_attack_entry (adsr : AdsrParams) (σ : ℚ) :
    (vcaStep 1 adsr)^[8]
      { velocitySensitivity := σ, machineState := MachineState.ATTACK, amplitude := 0,
        tmpTargetLevel := 1, tmpDelta := 1 / 8 }
    = { velocitySensitivity := σ, machineState := MachineState.DECAY, amplitude := 1,
        tmpTargetLevel := adsr.sustainLevel,
        tmpDelta := (adsr.sustainLevel - 1) / adsr.decayTimeMs } := by
  have hrun := vcaStep_attack_run 1 adsr σ 0 1 (1 / 8) 7 (by
    intro i hi
    have : (i : ℚ) ≤ 6 := by exact_mod_cast Nat.le_of_lt_succ hi
    linarith)
  have height : (8 : Nat) = 7 + 1 := rfl
  rw [height, Function.iterate_succ_apply', hrun,
    vcaStep_attack_last 1 adsr σ _ 1 (1 / 8) (by norm_num)]
  norm_num

/-- C12, counterexample: with sustain level 1, velocity 127, attack time 8 ms and period
1 ms, the attack ramp rises by 1/8 per tick (it is still in ATTACK at level 7/8 after 7
ticks) and reaches DECAY after 8 ticks at amplitude 1 with decay delta 0, where it stays
(same machine after 9 and after 1000 ticks); the held amplitude equals
`velocityFactor * s = 1`, so it does not differ from it by less than the decay step,
which is 0. -/
theorem C12_plateau_counterexample :
    fullSustainEngine.vcaAdsr.sustainLevel = 1
    ∧ (1 - fullSustainEngine.stateMachineVca.velocitySensitivity)
        + ((fullSustainEngine.midiNote.velocity : ℚ) / 127)
          * fullSustainEngine.stateMachineVca.velocitySensitivity = 1
    ∧ (vcaTicks sampleConfig 7
        (midiNoteOnHandler sampleConfig fullSustainEngine)).stateMachineVca
        = { velocitySensitivity := 1 / 2, machineState := MachineState.ATTACK,
            amplitude := 7 / 8, tmpTargetLevel := 1, tmpDelta := 1 / 8 }
    ∧ (vcaTicks sampleConfig 8
        (midiNoteOnHandler sampleConfig fullSustainEngine)).stateMachineVca
        = { velocitySensitivity := 1 / 2, machineState := MachineState.DECAY, amplitude := 1,
            tmpTargetLevel := 1, tmpDelta := 0 }
    ∧ (vcaTicks sampleConfig 9
        (midiNoteOnHandler sampleConfig fullSustainEngine)).stateMachineVca
        = (vcaTicks sampleConfig 8
            (midiNoteOnHandler sampleConfig fullSustainEngine)).stateMachineVca
    ∧ (vcaTicks sampleConfig 1000
        (midiNoteOnHandler sampleConfig fullSustainEngine)).stateMachineVca
        = (vcaTicks sampleConfig 8
            (midiNoteOnHandler sampleConfig fullSustainEngine)).stateMachineVca
    ∧ ¬ (|(vcaTicks sampleConfig 8
            (midiNoteOnHandler sampleConfig fullSustainEngine)).stateMachineVca.amplitude
          - 1 * fullSustainEngine.vcaAdsr.sustainLevel|
        < |(vcaTicks sampleConfig 8
            (midiNoteOnHandler sampleConfig fullSustainEngine)).stateMachineVca.tmpDelta|) := by
  have hP : sampleConfig.ADSR_TIMER_PERIOD_MS = 1 := rfl
  have hon : (midiNoteOnHandler sampleConfig fullSustainEngine).stateMachineVca
      = { velocitySensitivity := 1 / 2, machineState := MachineState.ATTACK, amplitude := 0,
          tmpTargetLevel := 1, tmpDelta := 1 / 8 } := by
    rw [midiNoteOnHandler_vca]
    simp only [fullSustainEngine, scenarioEngine, evenAdsr, sampleEngine, sampleConfig]
    norm_num
  have hadsr : (midiNoteOnHandler sampleConfig fullSustainEngine).vcaAdsr
      = { attackTimeMs := 8, decayTimeMs := 16, releaseTimeMs := 8, sustainLevel := 1 } := by
    rw [midiNoteOnHandler_vcaAdsr]
    rfl
  have h7 : (vcaTicks sampleConfig 7
      (midiNoteOnHandler sampleConfig fullSustainEngine)).stateMachineVca
      = { velocitySensitivity := 1 / 2, machineState := MachineState.ATTACK,
          amplitude := 7 / 8, tmpTargetLevel := 1, tmpDelta := 1 / 8 } := by
    rw [(vcaTicks_vca _ _ _).1, hP, hon, hadsr,
      vcaStep_attack_run 1 _ (1 / 2) 0 1 (1 / 8) 7 (by
        intro i hi
        have : (i : ℚ) ≤ 6 := by exact_mod_cast Nat.le_of_lt_succ hi
        linarith)]
    norm_num
  have hrun : ∀ m : Nat, (vcaTicks sampleConfig (m + 8)
      (midiNoteOnHandler sampleConfig fullSustainEngine)).stateMachineVca
      = { velocitySensitivity := 1 / 2, machineState := MachineState.DECAY, amplitude := 1,
          tmpTargetLevel := 1, tmpDelta := 0 } := by
    intro m
    rw [(vcaTicks_vca _ _ _).1, hP, hon, hadsr, Function.iterate_add_apply,
      even_attack_entry]
    norm_num
    exact vcaStep_decay_parked _ _ _ rfl (le_refl _) m
  have h8 := hrun 0
  have h9 := hrun 1
  have h1000 := hrun 992
  refine ⟨rfl, ?_, h7, h8, h9.trans h8.symm, h1000.trans h8.symm, ?_⟩
  · norm_num [fullSustainEngine, scenarioEngine, sampleEngine]
  · rw [h8]
    norm_num [fullSustainEngine, evenAdsr]

/-- C12, amended (VCA envelope): for every sustain level `s ≤ 1`, every velocity,
every velocity sensitivity in `[0, 1]`, every positive tick period and all positive
attack and decay times, after a note-on there is a number of ticks from which the VCA
machine is in DECAY and its amplitude no longer changes; the decay delta is not
positive, and the held amplitude differs from `velocityFactor * s` by at most one decay
step `|delta|`: by less than one step when the delta is not 0, and not at all when it
is 0. The levels are those of the exact ramp, which the `double` program follows up to
the rounding of its additions. -/
theorem C12_vca_sustain_plateau (c : Config) (s : Engine)
    (hP : 0 < c.ADSR_TIMER_PERIOD_MS)
    (hA : 0 < s.vcaAdsr.attackTimeMs) (hD : 0 < s.vcaAdsr.decayTimeMs)
    (hS1 : s.vcaAdsr.sustainLevel ≤ 1)
    (hσ0 : 0 ≤ s.stateMachineVca.velocitySensitivity)
    (hσ1 : s.stateMachineVca.velocitySensitivity ≤ 1) :
    ∃ (n0 : Nat) (held δ : ℚ),
      (∀ n : Nat, n0 ≤ n →
        (vcaTicks c n (midiNoteOnHandler c s)).stateMachineVca.machineState
            = MachineState.DECAY
        ∧ (vcaTicks c n (midiNoteOnHandler c s)).stateMachineVca.amplitude = held
        ∧ (vcaTicks c n (midiNoteOnHandler c s)).stateMachineVca.tmpTargetLevel
            = ((1 - s.stateMachineVca.velocitySensitivity)
                + ((s.midiNote.velocity : ℚ) / 127) * s.stateMachineVca.velocitySensitivity)
              * s.vcaAdsr.sustainLevel
        ∧ (vcaTicks c n (midiNoteOnHandler c s)).stateMachineVca.tmpDelta = δ)
      ∧ δ ≤ 0
      ∧ |held - ((1 - s.stateMachineVca.velocitySensitivity)
            + ((s.midiNote.velocity : ℚ) / 127) * s.stateMachineVca.velocitySensitivity)
          * s.vcaAdsr.sustainLevel| ≤ |δ|
      ∧ (δ ≠ 0 →
          |held - ((1 - s.stateMachineVca.velocitySensitivity)
              + ((s.midiNote.velocity : ℚ) / 127) * s.stateMachineVca.velocitySensitivity)
            * s.vcaAdsr.sustainLevel| < |δ|)
      ∧ (δ = 0 →
          held = ((1 - s.stateMachineVca.velocitySensitivity)
              + ((s.midiNote.velocity : ℚ) / 127) * s.stateMachineVca.velocitySensitivity)
            * s.vcaAdsr.sustainLevel) := by
  have hT : 0 ≤ (1 - s.stateMachineVca.velocitySensitivity)
      + ((s.midiNote.velocity : ℚ) / 127) * s.stateMachineVca.velocitySensitivity := by
    have hv : (0 : ℚ) ≤ (s.midiNote.velocity : ℚ) / 127 := by positivity
    have := mul_nonneg hv hσ0
    linarith
  obtain ⟨n0, held, δ, hrun, hδ, h1, h2, h3⟩ :=
    vca_plateau c.ADSR_TIMER_PERIOD_MS s.vcaAdsr s.stateMachineVca.velocitySensitivity _
      hP hA hD hS1 hT
  refine ⟨n0, held, δ, ?_, hδ, ?_, ?_, ?_⟩
  · intro n hn
    rw [(vcaTicks_vca _ _ _).1, midiNoteOnHandler_vca, midiNoteOnHandler_vcaAdsr, hrun n hn]
    exact ⟨rfl, rfl, rfl, rfl⟩
  · rw [abs_of_nonpos (by linarith), abs_of_nonpos hδ]
    linarith
  · intro hne
    rw [abs_of_nonpos (by linarith), abs_of_nonpos hδ]
    linarith [h3 hne]
  · intro hz
    rw [hz] at h2
    linarith

/-- Instance of C12: the even scenario state (sustain 1/2, velocity 127, attack 8 ms,
decay 16 ms, period 1 ms), every level of whose ramps is a multiple of 1/32. -/
theorem C12_vca_sustain_plateau_witness :
    0 < sampleConfig.ADSR_TIMER_PERIOD_MS
    ∧ 0 < evenScenarioEngine.vcaAdsr.attackTimeMs
    ∧ 0 < evenScenarioEngine.vcaAdsr.decayTimeMs
    ∧ evenScenarioEngine.vcaAdsr.sustainLevel ≤ 1
    ∧ 0 ≤ evenScenarioEngine.stateMachineVca.velocitySensitivity
    ∧ evenScenarioEngine.stateMachineVca.velocitySensitivity ≤ 1
    ∧ ∃ (n0 : Nat) (held δ : ℚ),
        (∀ n : Nat, n0 ≤ n →
          (vcaTicks sampleConfig n
            (midiNoteOnHandler sampleConfig evenScenarioEngine)).stateMachineVca.machineState
              = MachineState.DECAY
          ∧ (vcaTicks sampleConfig n
            (midiNoteOnHandler sampleConfig evenScenarioEngine)).stateMachineVca.amplitude
              = held)
        ∧ δ ≤ 0 :=
  have hP : 0 < sampleConfig.ADSR_TIMER_PERIOD_MS := by norm_num [sampleConfig]
  have hA : 0 < evenScenarioEngine.vcaAdsr.attackTimeMs := by
    norm_num [evenScenarioEngine, evenAdsr]
  have hD : 0 < evenScenarioEngine.vcaAdsr.decayTimeMs := by
    norm_num [evenScenarioEngine, evenAdsr]
  have hS1 : evenScenarioEngine.vcaAdsr.sustainLevel ≤ 1 := by
    norm_num [evenScenarioEngine, evenAdsr]
  have hσ0 : 0 ≤ evenScenarioEngine.stateMachineVca.velocitySensitivity := by
    norm_num [evenScenarioEngine, scenarioEngine, sampleEngine]
  have hσ1 : evenScenarioEngine.stateMachineVca.velocitySensitivity ≤ 1 := by
    norm_num [evenScenarioEngine, scenarioEngine, sampleEngine]
  have h := C12_vca_sustain_plateau sampleConfig evenScenarioEngine hP hA hD hS1 hσ0 hσ1
  ⟨hP, hA, hD, hS1, hσ0, hσ1, h.elim fun n0 h1 => h1.elim fun held h2 => h2.elim fun δ h3 =>
    ⟨n0, held, δ, fun n hn => ⟨(h3.1 n hn).1, (h3.1 n hn).2.1⟩, h3.2.1⟩⟩

/-! ## Messages without effect (C29) -/

/-- C29: a 3-byte message whose status nibble is none of NOTE_ON, NOTE_OFF,
CONTROL_CHANGE, and a NOTE_ON on the drum channel whose data1 is not the note of one of
the five drum voices, leave the whole engine unchanged: same state (both envelopes, both
configurations, held note, drum counters, global parameters) and same hardware trace,
hence no transmit and no trigger-line write. -/
theorem C29_unhandled_message_is_noop (c : Config) (s : Engine)
    (statusChannel data1 data2 : Nat) (hd1 : data1 < 256)
    (h : ((statusChannel % 256) &&& 0xF0 ≠ c.NOTE_ON
          ∧ (statusChannel % 256) &&& 0xF0 ≠ c.NOTE_OFF
          ∧ (statusChannel % 256) &&& 0xF0 ≠ c.CONTROL_CHANGE)
        ∨ ((statusChannel % 256) &&& 0xF0 = c.NOTE_ON
          ∧ (statusChannel % 256) &&& 0x0F = c.DRUM_CHANNEL
          ∧ ∀ v : DrumVoice, data1 ≠ v.note c)) :
    processIncomingMidiMessage c statusChannel data1 data2 s = s
    ∧ (processIncomingMidiMessage c statusChannel data1 data2 s).trace = s.trace
    ∧ transmitCount (processIncomingMidiMessage c statusChannel data1 data2 s).trace
        = transmitCount s.trace
    ∧ ∀ v : DrumVoice,
        lineLevel v.pin (processIncomingMidiMessage c statusChannel data1 data2 s).trace
          = lineLevel v.pin s.trace := by
  have heq : processIncomingMidiMessage c statusChannel data1 data2 s = s := by
    rcases h with ⟨h1, h2, h3⟩ | ⟨h1, h2, h3⟩
    · simp only [processIncomingMidiMessage, h1, h2, h3, if_false]
    · have hb : data1 % 256 = data1 := Nat.mod_eq_of_lt hd1
      simp only [processIncomingMidiMessage, h1, h2, if_true, hb]
      exact playDrumMachine_other c data1 s h3
  rw [heq]
  exact ⟨rfl, rfl, rfl, fun _ => rfl⟩

/-- Instances of C29 in the sample configuration: a pitch-bend message (status `0xE0`),
and a NOTE_ON on the drum channel with note 40, which is no drum voice. -/
theorem C29_unhandled_message_is_noop_witness :
    processIncomingMidiMessage sampleConfig 0xE3 10 20 soundingEngine = soundingEngine
    ∧ processIncomingMidiMessage sampleConfig 0x99 40 100 soundingEngine = soundingEngine :=
  ⟨(C29_unhandled_message_is_noop sampleConfig soundingEngine 0xE3 10 20 (by decide)
      (Or.inl ⟨by decide, by decide, by decide⟩)).1,
   (C29_unhandled_message_is_noop sampleConfig soundingEngine 0x99 40 100 (by decide)
      (Or.inr ⟨by decide, by decide, fun v => by cases v <;> decide⟩)).1⟩

/-! ## Decoder address (C28) -/

/-- The masked chip number lies in 0..7, for every integer. -/
theorem land_seven_bounds (n : Int) : 0 ≤ Int.land n 0x07 ∧ Int.land n 0x07 ≤ 7 := by
  have h7 : (0x07 : Int) = ((7 : Nat) : Int) := rfl
  cases n with
  | ofNat m =>
    rw [h7]
    show 0 ≤ ((m &&& 7 : Nat) : Int) ∧ ((m &&& 7 : Nat) : Int) ≤ 7
    have : m &&& 7 ≤ 7 := Nat.and_le_right
    omega
  | negSucc m =>
    rw [h7]
    show 0 ≤ ((Nat.ldiff 7 m : Nat) : Int) ∧ ((Nat.ldiff 7 m : Nat) : Int) ≤ 7
    have hlt : Nat.ldiff 7 m < 2 ^ 3 := by
      apply Nat.lt_pow_two_of_testBit
      intro i hi
      rw [Nat.testBit_ldiff]
      have h7i : Nat.testBit 7 i = false :=
        Nat.testBit_eq_false_of_lt (lt_of_lt_of_le (by norm_num) (Nat.pow_le_pow_right (by norm_num) hi))
      simp [h7i]
    omega

/-- The address left by the three writes of one `case` of `dacSelect`. -/
theorem decoderAddress_drive (a2 a1 a0 : Bool) (s : Engine) :
    decoderAddress
      (HAL_GPIO_WritePin Pin.LS138_A0 a0
        (HAL_GPIO_WritePin Pin.LS138_A1 a1 (HAL_GPIO_WritePin Pin.LS138_A2 a2 s))).trace
      = some (4 * (if a2 then 1 else 0) + 2 * (if a1 then 1 else 0) + (if a0 then 1 else 0)) := by
  have h0 : lineLevel Pin.LS138_A0
      (HAL_GPIO_WritePin Pin.LS138_A0 a0
        (HAL_GPIO_WritePin Pin.LS138_A1 a1 (HAL_GPIO_WritePin Pin.LS138_A2 a2 s))).trace
      = some a0 := by
    simp only [HAL_GPIO_WritePin, emit, lineLevel_write, if_true]
  have h1 : lineLevel Pin.LS138_A1
      (HAL_GPIO_WritePin Pin.LS138_A0 a0
        (HAL_GPIO_WritePin Pin.LS138_A1 a1 (HAL_GPIO_WritePin Pin.LS138_A2 a2 s))).trace
      = some a1 := by
    simp [HAL_GPIO_WritePin, emit, lineLevel_append, lineLevel]
  have h2 : lineLevel Pin.LS138_A2
      (HAL_GPIO_WritePin Pin.LS138_A0 a0
        (HAL_GPIO_WritePin Pin.LS138_A1 a1 (HAL_GPIO_WritePin Pin.LS138_A2 a2 s))).trace
      = some a2 := by
    simp [HAL_GPIO_WritePin, emit, lineLevel_append, lineLevel]
  simp only [decoderAddress, h0, h1, h2]

/-- The address driven by `dacSelect` is the chip number masked with 7. -/
theorem dacSelect_address (chipNumber : Int) (s : Engine) :
    decoderAddress (dacSelect chipNumber s).trace = some (Int.land chipNumber 0x07) := by
  obtain ⟨h0, h7⟩ := land_seven_bounds chipNumber
  unfold dacSelect
  simp only []
  generalize Int.land chipNumber 0x07 = k at h0 h7 ⊢
  interval_cases k <;> simp [decoderAddress_drive]

/-- C28: for every integer chip number, after `dacSelect` the three decoder address
lines, read as the binary number A2 A1 A0, hold `chipNumber & 7`, which lies in 0..7;
consequently two chip numbers in 0..7 that produce the same address are equal. -/
theorem C28_decoder_address (s : Engine) :
    (∀ chipNumber : Int,
      decoderAddress (dacSelect chipNumber s).trace = some (Int.land chipNumber 0x07)
      ∧ 0 ≤ Int.land chipNumber 0x07 ∧ Int.land chipNumber 0x07 ≤ 7)
    ∧ (∀ a b : Int, 0 ≤ a → a ≤ 7 → 0 ≤ b → b ≤ 7 →
        decoderAddress (dacSelect a s).trace = decoderAddress (dacSelect b s).trace → a = b) := by
  refine ⟨fun n => ⟨dacSelect_address n s, land_seven_bounds n⟩, ?_⟩
  intro a b ha0 ha7 hb0 hb7 h
  rw [dacSelect_address, dacSelect_address] at h
  have hab : Int.land a 0x07 = Int.land b 0x07 := Option.some.inj h
  have hida : Int.land a 0x07 = a := by
    interval_cases a <;> rfl
  have hidb : Int.land b 0x07 = b := by
    interval_cases b <;> rfl
  rw [hida, hidb] at hab
  exact hab

/-- Instance of C28: chip numbers 6 and 13 (13 & 7 = 5) from the sample state. -/
theorem C28_decoder_address_witness :
    decoderAddress (dacSelect 6 sampleEngine).trace = some 6
    ∧ decoderAddress (dacSelect 13 sampleEngine).trace = some (Int.land 13 0x07)
    ∧ Int.land 13 0x07 = 5 :=
  ⟨((C28_decoder_address sampleEngine).1 6).1, ((C28_decoder_address sampleEngine).1 13).1,
    by decide⟩

/-! ## Envelope codes (C27) -/

/-- The C conversion of a non-negative `double` to `int` is the floor. -/
theorem cTrunc_of_nonneg (q : ℚ) (hq : 0 ≤ q) : cTrunc q = ⌊q⌋ := by
  rw [cTrunc, Rat.floor_def, Int.tdiv_eq_ediv (Rat.num_nonneg.mpr hq) (Int.ofNat_nonneg _)]

/-- The two clamps of the source, written with tests in either order, are the clamp to
`[0, 1]`. -/
theorem clamp_forms (x : ℚ) :
    (if x < 0 then 0 else if x > 1 then 1 else x) = clamp01 x
    ∧ (if x > 1 then 1 else if x < 0 then 0 else x) = clamp01 x := by
  unfold clamp01
  constructor
  · split_ifs with h1 h2
    · rw [min_eq_left (by linarith), max_eq_left (by linarith)]
    · rw [min_eq_right (by linarith), max_eq_right (by linarith)]
    · rw [min_eq_left (by linarith), max_eq_right (by linarith)]
  · split_ifs with h1 h2
    · rw [min_eq_right (by linarith), max_eq_right (by linarith)]
    · rw [min_eq_left (by linarith), max_eq_left (by linarith)]
    · rw [min_eq_left (by linarith), max_eq_right (by linarith)]

theorem clamp01_bounds (x : ℚ) : 0 ≤ clamp01 x ∧ clamp01 x ≤ 1 := by
  unfold clamp01
  exact ⟨le_max_left _ _, max_le (by norm_num) (min_le_right _ _)⟩

theorem clamp01_mono (x y : ℚ) (h : x ≤ y) : clamp01 x ≤ clamp01 y := by
  unfold clamp01
  exact max_le_max (le_refl _) (min_le_min h (le_refl _))

theorem envelopeCode_bounds (x : ℚ) : 0 ≤ envelopeCode x ∧ envelopeCode x ≤ 4095 := by
  obtain ⟨h0, h1⟩ := clamp01_bounds x
  unfold envelopeCode
  constructor
  · exact Int.floor_nonneg.mpr (by nlinarith)
  · have : (1 - clamp01 x) * 4095 ≤ ((4095 : Int) : ℚ) := by
      push_cast
      nlinarith
    exact Int.floor_le_floor this |>.trans (by rw [Int.floor_intCast])

/-- The address lines are left as `dacSelect` set them by the rest of `dac4822ABWrite`. -/
theorem dac4822ABWrite_address (word12bits chip channelAB : Int) (s : Engine) :
    decoderAddress (dac4822ABWrite word12bits chip channelAB s).trace
      = some (Int.land chip 0x07) := by
  rw [← dacSelect_address chip s, dac4822ABWrite_trace]
  simp [decoderAddress, lineLevel_append, lineLevel]

/-! ### Rounding of the `double` operations -/

theorem roundHalfEven_bounds (x : ℚ) : ⌊x⌋ ≤ roundHalfEven x ∧ roundHalfEven x ≤ ⌊x⌋ + 1 := by
  unfold roundHalfEven
  simp only []
  split_ifs <;> constructor <;> omega

theorem roundHalfEven_int (n : Int) : roundHalfEven (n : ℚ) = n := by
  unfold roundHalfEven
  simp

theorem roundHalfEven_mono (x y : ℚ) (h : x ≤ y) : roundHalfEven x ≤ roundHalfEven y := by
  rcases (Int.floor_mono h).lt_or_eq with hlt | heq
  · have := (roundHalfEven_bounds x).2
    have := (roundHalfEven_bounds y).1
    omega
  · unfold roundHalfEven
    simp only []
    rw [← heq]
    split_ifs <;> first | omega | (exfalso; linarith)

theorem log_two_eq (q : ℚ) (e : Int) (h1 : (2 : ℚ) ^ e ≤ q) (h2 : q < (2 : ℚ) ^ (e + 1)) :
    Int.log 2 q = e := by
  have hq : 0 < q := lt_of_lt_of_le (by positivity) h1
  have a := (Int.zpow_le_iff_le_log (b := 2) (by norm_num) hq (x := e)).mp (by exact_mod_cast h1)
  have b := (Int.lt_zpow_iff_log_lt (b := 2) (by norm_num) hq (x := e + 1)).mp (by exact_mod_cast h2)
  omega

theorem log_two_bounds (q : ℚ) (hq : 0 < q) :
    (2 : ℚ) ^ (Int.log 2 q) ≤ q ∧ q < (2 : ℚ) ^ (Int.log 2 q + 1) := by
  have a := Int.zpow_log_le_self (b := 2) (r := q) (by norm_num) hq
  have b := Int.lt_zpow_succ_log_self (b := 2) (by norm_num) q
  constructor
  · exact_mod_cast a
  · exact_mod_cast b


theorem roundDouble_zero : roundDouble 0 = 0 := by
  simp [roundDouble]

theorem roundDouble_pos_eq (q : ℚ) (hq : 0 < q) :
    roundDouble q
      = (roundHalfEven (q / 2 ^ (Int.log 2 q - 52)) : ℚ) * 2 ^ (Int.log 2 q - 52) := by
  unfold roundDouble
  simp only [if_neg hq.ne', abs_of_pos hq, if_neg (not_lt.mpr hq.le), one_mul]

/-- A positive value rounds into the binade it lies in. -/
theorem roundDouble_binade (q : ℚ) (hq : 0 < q) :
    (2 : ℚ) ^ (Int.log 2 q) ≤ roundDouble q ∧ roundDouble q ≤ (2 : ℚ) ^ (Int.log 2 q + 1) := by
  obtain ⟨h1, h2⟩ := log_two_bounds q hq
  rw [roundDouble_pos_eq q hq]
  set e := Int.log 2 q
  have hu : (0 : ℚ) < 2 ^ (e - 52) := by positivity
  have e1 : (2 : ℚ) ^ e = ((2 ^ 52 : Int) : ℚ) * 2 ^ (e - 52) := by
    rw [zpow_sub₀ (by norm_num)]; push_cast; field_simp; norm_num; ring
  have e2 : (2 : ℚ) ^ (e + 1) = ((2 ^ 53 : Int) : ℚ) * 2 ^ (e - 52) := by
    rw [zpow_sub₀ (by norm_num), zpow_add₀ (by norm_num)]; push_cast; field_simp; norm_num; ring
  constructor
  · rw [e1]
    apply mul_le_mul_of_nonneg_right _ hu.le
    have : ((2 ^ 52 : Int) : ℚ) ≤ q / 2 ^ (e - 52) := by
      rw [le_div_iff₀ hu, ← e1]; exact h1
    have := roundHalfEven_mono _ _ this
    rw [roundHalfEven_int] at this
    exact_mod_cast this
  · rw [e2]
    apply mul_le_mul_of_nonneg_right _ hu.le
    have : q / 2 ^ (e - 52) ≤ ((2 ^ 53 : Int) : ℚ) := by
      rw [div_le_iff₀ hu, ← e2]; exact h2.le
    have := roundHalfEven_mono _ _ this
    rw [roundHalfEven_int] at this
    exact_mod_cast this

theorem roundDouble_nonneg (q : ℚ) (hq : 0 ≤ q) : 0 ≤ roundDouble q := by
  rcases hq.lt_or_eq with h | h
  · exact le_trans (by positivity) (roundDouble_binade q h).1
  · rw [← h, roundDouble_zero]

/-- Rounding is monotone (stated on the non-negative values, the only ones rounded
here). -/
theorem roundDouble_mono (q r : ℚ) (hq : 0 ≤ q) (h : q ≤ r) : roundDouble q ≤ roundDouble r := by
  rcases hq.lt_or_eq with hq0 | hq0
  · have hr0 : 0 < r := lt_of_lt_of_le hq0 h
    have hlog : Int.log 2 q ≤ Int.log 2 r := Int.log_mono_right hq0 h
    rcases hlog.lt_or_eq with hlt | heq
    · refine le_trans (roundDouble_binade q hq0).2 (le_trans ?_ (roundDouble_binade r hr0).1)
      exact zpow_le_zpow_right₀ (by norm_num) (by omega)
    · rw [roundDouble_pos_eq q hq0, roundDouble_pos_eq r hr0, heq]
      have hu : (0 : ℚ) < 2 ^ (Int.log 2 r - 52) := by positivity
      apply mul_le_mul_of_nonneg_right _ hu.le
      have : q / 2 ^ (Int.log 2 r - 52) ≤ r / 2 ^ (Int.log 2 r - 52) :=
        div_le_div_of_nonneg_right h hu.le
      exact_mod_cast roundHalfEven_mono _ _ this
  · rw [← hq0, roundDouble_zero]
    exact roundDouble_nonneg r (hq0 ▸ h)

/-- A value with a 53-bit significand is its own rounding. -/
theorem roundDouble_exact (m : Int) (k : Int) (h1 : 2 ^ 52 ≤ m) (h2 : m < 2 ^ 53) :
    roundDouble ((m : ℚ) * 2 ^ k) = (m : ℚ) * 2 ^ k := by
  have hm : (0 : ℚ) < m := by exact_mod_cast (lt_of_lt_of_le (by norm_num) h1 : (0 : Int) < m)
  have hpos : (0 : ℚ) < (m : ℚ) * 2 ^ k := by positivity
  have hlog : Int.log 2 ((m : ℚ) * 2 ^ k) = k + 52 := by
    apply log_two_eq
    · rw [zpow_add₀ (by norm_num), mul_comm]
      apply mul_le_mul_of_nonneg_right _ (by positivity)
      exact_mod_cast h1
    · rw [show k + 52 + 1 = 53 + k by ring, zpow_add₀ (by norm_num)]
      apply mul_lt_mul_of_pos_right _ (by positivity)
      exact_mod_cast h2
  rw [roundDouble_pos_eq _ hpos, hlog, show k + 52 - 52 = k by ring,
    mul_div_assoc, div_self (by positivity), mul_one, roundHalfEven_int]

theorem roundDouble_one : roundDouble 1 = 1 := by
  have := roundDouble_exact (2 ^ 52) (-52) (by norm_num) (by norm_num)
  norm_num at this
  exact this

theorem roundDouble_4095 : roundDouble 4095 = 4095 := by
  have := roundDouble_exact (4095 * 2 ^ 41) (-41) (by norm_num) (by norm_num)
  norm_num at this
  exact this

theorem roundHalfEven_error (x : ℚ) : |(roundHalfEven x : ℚ) - x| ≤ 1 / 2 := by
  have h1 := Int.floor_le x
  have h2 := Int.lt_floor_add_one x
  unfold roundHalfEven
  simp only []
  rw [abs_le]
  split_ifs <;> push_cast <;> constructor <;> linarith

/-- The relative error of one rounding is at most `2^-53`. -/
theorem roundDouble_error (q : ℚ) (hq : 0 ≤ q) : |roundDouble q - q| ≤ q / 2 ^ 53 := by
  rcases hq.lt_or_eq with h | h
  · obtain ⟨h1, _⟩ := log_two_bounds q h
    rw [roundDouble_pos_eq q h]
    set e := Int.log 2 q
    have hu : (0 : ℚ) < 2 ^ (e - 52) := by positivity
    have hq' : q = q / 2 ^ (e - 52) * 2 ^ (e - 52) := by field_simp
    have herr := roundHalfEven_error (q / 2 ^ (e - 52))
    have e1 : (2 : ℚ) ^ e = 2 ^ 52 * 2 ^ (e - 52) := by
      rw [zpow_sub₀ (by norm_num)]; field_simp; ring
    calc |(roundHalfEven (q / 2 ^ (e - 52)) : ℚ) * 2 ^ (e - 52) - q|
        = |(roundHalfEven (q / 2 ^ (e - 52)) : ℚ) - q / 2 ^ (e - 52)| * 2 ^ (e - 52) := by
          rw [← abs_of_pos hu, ← abs_mul, abs_of_pos hu, sub_mul, ← hq']
      _ ≤ 1 / 2 * 2 ^ (e - 52) := mul_le_mul_of_nonneg_right herr hu.le
      _ = 2 ^ e / 2 ^ 53 := by rw [e1]; norm_num; ring
      _ ≤ q / 2 ^ 53 := div_le_div_of_nonneg_right h1 (by positivity)
  · rw [← h, roundDouble_zero]
    norm_num

/-- The value that is truncated to the word, between 0 and 4095 and within
`8190 / 2^53` of the exact product. -/
theorem envelope_product (x : ℚ) :
    0 ≤ roundDouble (roundDouble (1 - clamp01 x) * 4095)
    ∧ roundDouble (roundDouble (1 - clamp01 x) * 4095) ≤ 4095
    ∧ |roundDouble (roundDouble (1 - clamp01 x) * 4095) - (1 - clamp01 x) * 4095|
        ≤ 8190 / 2 ^ 53 := by
  obtain ⟨h0, h1⟩ := clamp01_bounds x
  have hy0 : 0 ≤ 1 - clamp01 x := by linarith
  have hy1 : 1 - clamp01 x ≤ 1 := by linarith
  have hr0 := roundDouble_nonneg _ hy0
  have hr1 : roundDouble (1 - clamp01 x) ≤ 1 := by
    have := roundDouble_mono _ _ hy0 hy1
    rwa [roundDouble_one] at this
  have hz0 : 0 ≤ roundDouble (1 - clamp01 x) * 4095 := by positivity
  have hz1 : roundDouble (1 - clamp01 x) * 4095 ≤ 4095 := by linarith
  refine ⟨roundDouble_nonneg _ hz0, ?_, ?_⟩
  · have := roundDouble_mono _ _ hz0 hz1
    rwa [roundDouble_4095] at this
  · have e1 := roundDouble_error _ hy0
    have e2 := roundDouble_error _ hz0
    rw [abs_le] at e1 e2 ⊢
    have : (0 : ℚ) < 2 ^ 53 := by positivity
    have k1 : (1 - clamp01 x) / 2 ^ 53 ≤ 1 / 2 ^ 53 := div_le_div_of_nonneg_right hy1 this.le
    have k2 : roundDouble (1 - clamp01 x) * 4095 / 2 ^ 53 ≤ 4095 / 2 ^ 53 :=
      div_le_div_of_nonneg_right hz1 this.le
    constructor <;> linarith

theorem envelopeWord_eq_floor (x : ℚ) :
    envelopeWord x = ⌊roundDouble (roundDouble (1 - clamp01 x) * 4095)⌋ :=
  cTrunc_of_nonneg _ (envelope_product x).1

theorem envelopeWord_bounds (x : ℚ) : 0 ≤ envelopeWord x ∧ envelopeWord x ≤ 4095 := by
  obtain ⟨h0, h1, _⟩ := envelope_product x
  rw [envelopeWord_eq_floor]
  constructor
  · exact Int.floor_nonneg.mpr h0
  · have : roundDouble (roundDouble (1 - clamp01 x) * 4095) ≤ ((4095 : Int) : ℚ) := by
      push_cast
      exact h1
    exact Int.floor_le_floor this |>.trans (by rw [Int.floor_intCast])

theorem envelopeWord_anti (x y : ℚ) (h : x ≤ y) : envelopeWord y ≤ envelopeWord x := by
  rw [envelopeWord_eq_floor, envelopeWord_eq_floor]
  apply Int.floor_le_floor
  obtain ⟨_, hy1⟩ := clamp01_bounds y
  have hm := clamp01_mono x y h
  have h1 : roundDouble (1 - clamp01 y) ≤ roundDouble (1 - clamp01 x) :=
    roundDouble_mono _ _ (by linarith) (by linarith)
  have h0 := roundDouble_nonneg (1 - clamp01 y) (by linarith)
  exact roundDouble_mono _ _ (by positivity) (by linarith)

theorem envelopeWord_near (x : ℚ) :
    envelopeCode x - 1 ≤ envelopeWord x ∧ envelopeWord x ≤ envelopeCode x + 1 := by
  obtain ⟨_, _, h⟩ := envelope_product x
  rw [envelopeWord_eq_floor]
  unfold envelopeCode
  rw [abs_le] at h
  have hs : (8190 : ℚ) / 2 ^ 53 < 1 := by norm_num
  constructor
  · have : (1 - clamp01 x) * 4095 - 1 ≤ roundDouble (roundDouble (1 - clamp01 x) * 4095) := by
      linarith
    have := Int.floor_le_floor this
    rwa [Int.floor_sub_one] at this
  · have : roundDouble (roundDouble (1 - clamp01 x) * 4095) ≤ (1 - clamp01 x) * 4095 + 1 := by
      linarith
    have := Int.floor_le_floor this
    rwa [Int.floor_add_one] at this

/-! ### The word sent for a level -/

/-- The two functions pass the word `envelopeWord x` to `dac4822ABWrite`: the VCA word
to chip 4 with the channel-B selector, the VCF word to chip 6 with the channel-A
selector. -/
theorem envelope_write_word (c : Config) (s : Engine) (x : ℚ) :
    dacVcaWrite c x s
        = dac4822ABWrite (envelopeWord x) 4
            (c.channelCode Mcp4822Channel.MCP4822_CHANNEL_B) s
    ∧ dacVcfCutoffWrite c x s
        = dac4822ABWrite (envelopeWord x) 6
            (c.channelCode Mcp4822Channel.MCP4822_CHANNEL_A) s := by
  constructor
  · simp only [dacVcaWrite, (clamp_forms x).1, envelopeWord, dacWrite, dacRoute]
  · simp only [dacVcfCutoffWrite, (clamp_forms x).2, envelopeWord, dacWrite, dacRoute]

/-- The subtraction `1.0 - 2^-60` gives `1.0`: the exact difference is nearer to 1 than
to the next `double` below 1, which is `1 - 2^-53`. -/
theorem roundDouble_near_one : roundDouble (1 - 1 / 2 ^ 60) = 1 := by
  have hlog : Int.log 2 ((1 : ℚ) - 1 / 2 ^ 60) = -1 :=
    log_two_eq _ _ (by norm_num) (by norm_num)
  have hx : ((1 : ℚ) - 1 / 2 ^ 60) / 2 ^ ((-1 : Int) - 52) = 2 ^ 53 - 1 / 128 := by norm_num
  have hf : ⌊(2 : ℚ) ^ 53 - 1 / 128⌋ = 2 ^ 53 - 1 := by
    rw [Int.floor_eq_iff]
    norm_num
  have hr : roundHalfEven ((2 : ℚ) ^ 53 - 1 / 128) = 2 ^ 53 := by
    unfold roundHalfEven
    simp only [hf]
    norm_num
  rw [roundDouble_pos_eq _ (by norm_num), hlog, hx, hr]
  norm_num

theorem clamp01_of_mem (x : ℚ) (h0 : 0 ≤ x) (h1 : x ≤ 1) : clamp01 x = x := by
  unfold clamp01
  rw [min_eq_left h1, max_eq_right h0]

theorem envelopeWord_tiny : envelopeWord (1 / 2 ^ 60) = 4095 := by
  unfold envelopeWord
  rw [clamp01_of_mem _ (by norm_num) (by norm_num), roundDouble_near_one, one_mul,
    roundDouble_4095, cTrunc_of_nonneg _ (by norm_num)]
  exact Int.floor_ofNat 4095

theorem envelopeCode_tiny : envelopeCode (1 / 2 ^ 60) = 4094 := by
  unfold envelopeCode
  rw [clamp01_of_mem _ (by norm_num) (by norm_num), Int.floor_eq_iff]
  norm_num

/-- C27 as stated fails: at the level `2^-60` the `double` subtraction `1.0 - x` gives
`1.0`, so both functions send the code 4095 (data bits 4095 on the wire), whereas
`floor((1 - x) * 4095)` is 4094. -/
theorem C27_rounding_counterexample :
    envelopeCode (1 / 2 ^ 60) = 4094
    ∧ dacVcaWrite sampleConfig (1 / 2 ^ 60) sampleEngine
        = dac4822ABWrite 4095 4
            (sampleConfig.channelCode Mcp4822Channel.MCP4822_CHANNEL_B) sampleEngine
    ∧ dacVcfCutoffWrite sampleConfig (1 / 2 ^ 60) sampleEngine
        = dac4822ABWrite 4095 6
            (sampleConfig.channelCode Mcp4822Channel.MCP4822_CHANNEL_A) sampleEngine
    ∧ (∃ b, lastTransmit (dacVcaWrite sampleConfig (1 / 2 ^ 60) sampleEngine).trace = some b
        ∧ dataBits b = 4095 ∧ (dataBits b : Int) ≠ envelopeCode (1 / 2 ^ 60))
    ∧ (∃ b, lastTransmit (dacVcfCutoffWrite sampleConfig (1 / 2 ^ 60) sampleEngine).trace
          = some b
        ∧ dataBits b = 4095 ∧ (dataBits b : Int) ≠ envelopeCode (1 / 2 ^ 60)) := by
  obtain ⟨hvca, hvcf⟩ := envelope_write_word sampleConfig sampleEngine (1 / 2 ^ 60)
  rw [envelopeWord_tiny] at hvca hvcf
  refine ⟨envelopeCode_tiny, hvca, hvcf,
    ⟨txSpiDacsBuff 4095 (sampleConfig.channelCode Mcp4822Channel.MCP4822_CHANNEL_B),
      ?_, ?_, ?_⟩,
    ⟨txSpiDacsBuff 4095 (sampleConfig.channelCode Mcp4822Channel.MCP4822_CHANNEL_A),
      ?_, ?_, ?_⟩⟩
  · rw [hvca, dac4822ABWrite_lastTransmit]
  · decide
  · rw [envelopeCode_tiny]
    decide
  · rw [hvcf, dac4822ABWrite_lastTransmit]
  · decide
  · rw [envelopeCode_tiny]
    decide

/-- C27, amended: for every level `x`, `dacVcaWrite` and `dacVcfCutoffWrite` each send
the word `(int)((1.0 - clamp(x, 0, 1)) * 4095)` evaluated in `double` arithmetic, the
VCA word through chip 4 with the channel-B selector and the VCF word through chip 6
with the channel-A selector, in one transmit; the word lies in 0..4095 (so the encoder
keeps it as it is), is non-increasing in `x`, is 4095 for every `x ≤ 0` and 0 for every
`x ≥ 1`, and differs from `floor((1 - clamp(x, 0, 1)) * 4095)` by at most 1. -/
theorem C27_envelope_words (c : Config) (s : Engine) (x : ℚ) :
    dacVcaWrite c x s
        = dac4822ABWrite (envelopeWord x) 4
            (c.channelCode Mcp4822Channel.MCP4822_CHANNEL_B) s
    ∧ dacVcfCutoffWrite c x s
        = dac4822ABWrite (envelopeWord x) 6
            (c.channelCode Mcp4822Channel.MCP4822_CHANNEL_A) s
    ∧ decoderAddress (dacVcaWrite c x s).trace = some 4
    ∧ decoderAddress (dacVcfCutoffWrite c x s).trace = some 6
    ∧ transmitCount (dacVcaWrite c x s).trace = transmitCount s.trace + 1
    ∧ transmitCount (dacVcfCutoffWrite c x s).trace = transmitCount s.trace + 1
    ∧ 0 ≤ envelopeWord x ∧ envelopeWord x ≤ 4095
    ∧ maskWord12 (envelopeWord x) = envelopeWord x
    ∧ (∀ y : ℚ, x ≤ y → envelopeWord y ≤ envelopeWord x)
    ∧ (x ≤ 0 → envelopeWord x = 4095)
    ∧ (1 ≤ x → envelopeWord x = 0)
    ∧ envelopeCode x - 1 ≤ envelopeWord x ∧ envelopeWord x ≤ envelopeCode x + 1 := by
  obtain ⟨hvca, hvcf⟩ := envelope_write_word c s x
  obtain ⟨hc0, hc1⟩ := envelopeWord_bounds x
  refine ⟨hvca, hvcf, ?_, ?_, ?_, ?_, hc0, hc1, ?_, envelopeWord_anti x, ?_, ?_,
    envelopeWord_near x⟩
  · rw [hvca, dac4822ABWrite_address]
    rfl
  · rw [hvcf, dac4822ABWrite_address]
    rfl
  · rw [hvca, dac4822ABWrite_transmitCount]
  · rw [hvcf, dac4822ABWrite_transmitCount]
  · obtain ⟨n, hn⟩ := Int.eq_ofNat_of_zero_le hc0
    rw [hn, maskWord12_ofNat]
    have : n < 4096 := by omega
    rw [Nat.mod_eq_of_lt this]
  · intro hx
    have hcl : clamp01 x = 0 := by
      unfold clamp01
      rw [min_eq_left (by linarith), max_eq_left hx]
    unfold envelopeWord
    rw [hcl, sub_zero, roundDouble_one, one_mul, roundDouble_4095,
      cTrunc_of_nonneg _ (by norm_num)]
    exact Int.floor_ofNat 4095
  · intro hx
    have hcl : clamp01 x = 1 := by
      unfold clamp01
      rw [min_eq_right hx, max_eq_right (by norm_num)]
    unfold envelopeWord
    rw [hcl, sub_self, roundDouble_zero, zero_mul, roundDouble_zero,
      cTrunc_of_nonneg _ (le_refl _)]
    exact Int.floor_zero

/-- Instance of C27 (amended) at the level 3/2 (word 0), at the level 1/2 and at the
level `2^-60` (word within 1 of the exact code 4094). -/
theorem C27_envelope_words_witness :
    dacVcaWrite sampleConfig (3 / 2) sampleEngine
        = dac4822ABWrite (envelopeWord (3 / 2)) 4
            (sampleConfig.channelCode Mcp4822Channel.MCP4822_CHANNEL_B) sampleEngine
    ∧ envelopeWord (3 / 2) = 0
    ∧ envelopeWord (1 / 2) ≤ 4095
    ∧ envelopeWord (1 / 2 ^ 60) ≤ envelopeCode (1 / 2 ^ 60) + 1 :=
  ⟨(C27_envelope_words sampleConfig sampleEngine (3 / 2)).1,
    (C27_envelope_words sampleConfig sampleEngine (3 / 2)).2.2.2.2.2.2.2.2.2.2.2.1
      (by norm_num),
    (C27_envelope_words sampleConfig sampleEngine (1 / 2)).2.2.2.2.2.2.2.1,
    (C27_envelope_words sampleConfig sampleEngine (1 / 2 ^ 60)).2.2.2.2.2.2.2.2.2.2.2.2.2⟩

/-! ## Keyboard shift (C26) -/

/-- The keyboard shift set by the note-on handler. -/
theorem midiNoteOnHandler_shift (c : Config) (s : Engine) :
    (midiNoteOnHandler c s).stateMachineVcf.tmpKbdtrackingShiftFactor
      = (((s.midiNote.note : ℚ) - 64) / 64) * s.stateMachineVcf.kbdTracking
          * c.MAX_KBD_TRACKING := by
  simp [midiNoteOnHandler, HAL_GPIO_WritePin, emit]

/-- The VCF tick keeps the keyboard shift, and what it emits, if anything, is one cutoff
write of a cutoff level (the level before the tick or the level after it) plus the
shift. -/
theorem updateVCF_shift (c : Config) (s : Engine) :
    (updateVCFEnveloppeStateMachine c s).stateMachineVcf.tmpKbdtrackingShiftFactor
        = s.stateMachineVcf.tmpKbdtrackingShiftFactor
    ∧ ((updateVCFEnveloppeStateMachine c s).trace = s.trace
      ∨ ∃ level : ℚ,
          (level = s.stateMachineVcf.cutoffFrequency
            ∨ level = (updateVCFEnveloppeStateMachine c s).stateMachineVcf.cutoffFrequency)
          ∧ (updateVCFEnveloppeStateMachine c s).trace
              = (dacVcfCutoffWrite c
                  (level + s.stateMachineVcf.tmpKbdtrackingShiftFactor) s).trace) := by
  rcases s with ⟨vcaAdsr, ⟨sens, st, amp, tgt, dl⟩, vcfAdsr, vcf, gp, v1, v2, dt, mn, k, dm, dc, dn, tr⟩
  cases st
  · exact ⟨rfl, Or.inl rfl⟩
  · refine ⟨?_, Or.inr ⟨vcf.cutoffFrequency, Or.inl rfl, ?_⟩⟩
    · simp only [updateVCFEnveloppeStateMachine, dacVcfCutoffWrite, dacWrite_eq]
      split_ifs <;> rfl
    · simp only [updateVCFEnveloppeStateMachine, dacVcfCutoffWrite, dacWrite_eq]
      split_ifs <;> rfl
  · by_cases hstep : vcf.t ≤ vcf.tMax
    · refine ⟨?_, Or.inr ⟨vcf.cutoffFrequency + vcf.tmpDelta, Or.inr ?_, ?_⟩⟩
      · simp only [updateVCFEnveloppeStateMachine, dacVcfCutoffWrite, dacWrite_eq, hstep,
          if_true]
      · simp only [updateVCFEnveloppeStateMachine, dacVcfCutoffWrite, dacWrite_eq, hstep,
          if_true]
      · simp only [updateVCFEnveloppeStateMachine, dacVcfCutoffWrite, dacWrite_eq, hstep,
          if_true]
    · refine ⟨?_, Or.inl ?_⟩
      · simp only [updateVCFEnveloppeStateMachine, hstep, if_false]
      · simp only [updateVCFEnveloppeStateMachine, hstep, if_false]
  · by_cases hstep : vcf.t + 1 ≤ vcf.tMax
    · refine ⟨?_, Or.inr ⟨vcf.cutoffFrequency + vcf.tmpDelta, Or.inr ?_, ?_⟩⟩
      · simp only [updateVCFEnveloppeStateMachine, dacVcfCutoffWrite, dacWrite_eq, hstep,
          if_true]
      · simp only [updateVCFEnveloppeStateMachine, dacVcfCutoffWrite, dacWrite_eq, hstep,
          if_true]
      · simp only [updateVCFEnveloppeStateMachine, dacVcfCutoffWrite, dacWrite_eq, hstep,
          if_true]
    · refine ⟨?_, Or.inl ?_⟩
      · simp only [updateVCFEnveloppeStateMachine, hstep, if_false]
      · simp only [updateVCFEnveloppeStateMachine, hstep, if_false]

/-- The VCA tick leaves the VCF machine unchanged. -/
theorem updateVCA_vcf (c : Config) (s : Engine) :
    (updateVCAEnveloppeStateMachine c s).stateMachineVcf = s.stateMachineVcf := by
  rcases s with ⟨vcaAdsr, ⟨sens, st, amp, tgt, dl⟩, vcfAdsr, vcf, gp, v1, v2, dt, mn, k, dm, dc, dn, tr⟩
  cases st <;>
    simp only [updateVCAEnveloppeStateMachine, dacVcaWrite, dacWrite_eq] <;>
    (try split_ifs) <;> rfl

/-- C26: for every held note `n`, `midiNoteOnHandler` sets the VCF keyboard shift to
`((n - 64) / 64) * keyboardTrackingAmount * MAX_KBD_TRACKING`, which is 0 for `n = 64`
and, for a non-negative tracking amount and a non-negative `MAX_KBD_TRACKING`,
non-decreasing in `n`; the VCA tick, the VCF tick and the note-off handler leave the
shift unchanged; and the VCF tick either emits nothing or makes one cutoff write whose
argument is a cutoff level of the machine (the level before the tick in ATTACK, the
level after it in DECAY and RELEASE) plus exactly this shift. -/
theorem C26_keyboard_shift (c : Config) (s : Engine) :
    (midiNoteOnHandler c s).stateMachineVcf.tmpKbdtrackingShiftFactor
        = (((s.midiNote.note : ℚ) - 64) / 64) * s.stateMachineVcf.kbdTracking
            * c.MAX_KBD_TRACKING
    ∧ (s.midiNote.note = 64 →
        (midiNoteOnHandler c s).stateMachineVcf.tmpKbdtrackingShiftFactor = 0)
    ∧ (0 ≤ s.stateMachineVcf.kbdTracking → 0 ≤ c.MAX_KBD_TRACKING →
        ∀ n m : Nat, n ≤ m →
          (midiNoteOnHandler c
              { s with midiNote := { s.midiNote with note := n } }).stateMachineVcf.tmpKbdtrackingShiftFactor
            ≤ (midiNoteOnHandler c
              { s with midiNote := { s.midiNote with note := m } }).stateMachineVcf.tmpKbdtrackingShiftFactor)
    ∧ (updateVCAEnveloppeStateMachine c s).stateMachineVcf.tmpKbdtrackingShiftFactor
        = s.stateMachineVcf.tmpKbdtrackingShiftFactor
    ∧ (updateVCFEnveloppeStateMachine c s).stateMachineVcf.tmpKbdtrackingShiftFactor
        = s.stateMachineVcf.tmpKbdtrackingShiftFactor
    ∧ (midiNoteOffHandler c s).stateMachineVcf.tmpKbdtrackingShiftFactor
        = s.stateMachineVcf.tmpKbdtrackingShiftFactor
    ∧ ((updateVCFEnveloppeStateMachine c s).trace = s.trace
      ∨ ∃ level : ℚ,
          (level = s.stateMachineVcf.cutoffFrequency
            ∨ level = (updateVCFEnveloppeStateMachine c s).stateMachineVcf.cutoffFrequency)
          ∧ (updateVCFEnveloppeStateMachine c s).trace
              = (dacVcfCutoffWrite c
                  (level + s.stateMachineVcf.tmpKbdtrackingShiftFactor) s).trace) := by
  refine ⟨midiNoteOnHandler_shift c s, ?_, ?_, ?_, (updateVCF_shift c s).1, ?_,
    (updateVCF_shift c s).2⟩
  · intro h64
    rw [midiNoteOnHandler_shift, h64]
    norm_num
  · intro hk hM n m hnm
    rw [midiNoteOnHandler_shift, midiNoteOnHandler_shift]
    have hq : (n : ℚ) ≤ (m : ℚ) := by exact_mod_cast hnm
    have h1 : ((n : ℚ) - 64) / 64 ≤ ((m : ℚ) - 64) / 64 := by linarith
    exact mul_le_mul_of_nonneg_right (mul_le_mul_of_nonneg_right h1 hk) hM
  · rw [updateVCA_vcf]
  · rw [midiNoteOffHandler_vcf]

/-- Instance of C26 on the sample state (note 60, tracking 1/2, range 1): the shift is
-1/32; and it does not decrease from note 60 to note 72. -/
theorem C26_keyboard_shift_witness :
    (midiNoteOnHandler sampleConfig sampleEngine).stateMachineVcf.tmpKbdtrackingShiftFactor
        = (((sampleEngine.midiNote.note : ℚ) - 64) / 64) * sampleEngine.stateMachineVcf.kbdTracking
            * sampleConfig.MAX_KBD_TRACKING
    ∧ (midiNoteOnHandler sampleConfig
          { sampleEngine with
            midiNote := { sampleEngine.midiNote with note := 60 } }).stateMachineVcf.tmpKbdtrackingShiftFactor
        ≤ (midiNoteOnHandler sampleConfig
          { sampleEngine with
            midiNote := { sampleEngine.midiNote with note := 72 } }).stateMachineVcf.tmpKbdtrackingShiftFactor :=
  ⟨(C26_keyboard_shift sampleConfig sampleEngine).1,
    (C26_keyboard_shift sampleConfig sampleEngine).2.2.1
      (by norm_num [sampleEngine]) (by norm_num [sampleConfig]) 60 72 (by decide)⟩

/-! ## Release delta of the VCF (C23) -/

/-- One VCF tick in the RELEASE case (VCA machine in RELEASE) with steps left: the step
counter advances and the delta is added to the cutoff level. -/
theorem updateVCF_release_step (c : Config) (s : Engine)
    (hvca : s.stateMachineVca.machineState = MachineState.RELEASE)
    (hstep : s.stateMachineVcf.t + 1 ≤ s.stateMachineVcf.tMax) :
    (updateVCFEnveloppeStateMachine c s).stateMachineVcf
        = { s.stateMachineVcf with
            t := s.stateMachineVcf.t + 1
            cutoffFrequency := s.stateMachineVcf.cutoffFrequency + s.stateMachineVcf.tmpDelta }
    ∧ (updateVCFEnveloppeStateMachine c s).stateMachineVca = s.stateMachineVca := by
  rcases s with ⟨vcaAdsr, ⟨sens, st, amp, tgt, dl⟩, vcfAdsr, vcf, gp, v1, v2, dt, mn, k, dm, dc, dn, tr⟩
  simp only at hvca hstep
  subst hvca
  simp only [updateVCFEnveloppeStateMachine, dacVcfCutoffWrite, dacWrite_eq, hstep, if_true,
    and_self]

/-- A run of VCF ticks in the RELEASE case within the step budget. -/
theorem vcfTicks_release_run (c : Config) (n : Nat) (s : Engine)
    (hvca : s.stateMachineVca.machineState = MachineState.RELEASE)
    (hbudget : s.stateMachineVcf.t + (n : ℚ) ≤ s.stateMachineVcf.tMax) :
    (vcfTicks c n s).stateMachineVcf
        = { s.stateMachineVcf with
            t := s.stateMachineVcf.t + (n : ℚ)
            cutoffFrequency := s.stateMachineVcf.cutoffFrequency
              + (n : ℚ) * s.stateMachineVcf.tmpDelta }
    ∧ (vcfTicks c n s).stateMachineVca = s.stateMachineVca := by
  induction n with
  | zero => simp [vcfTicks]
  | succ n ih =>
    have hn : s.stateMachineVcf.t + (n : ℚ) ≤ s.stateMachineVcf.tMax := by
      push_cast at hbudget
      linarith
    obtain ⟨ih1, ih2⟩ := ih hn
    have hstep := updateVCF_release_step c (vcfTicks c n s) (by rw [ih2]; exact hvca)
      (by rw [ih1]; push_cast at hbudget; simp only; linarith)
    have hsucc : vcfTicks c (n + 1) s
        = updateVCFEnveloppeStateMachine c (vcfTicks c n s) := by
      simp only [vcfTicks, Function.iterate_succ_apply']
    rw [hsucc, hstep.1, hstep.2, ih1, ih2]
    refine ⟨?_, rfl⟩
    simp only
    congr 1
    · push_cast
      ring
    · push_cast
      ring

/-- C23: with a tick period of 2 ms and a VCF release time of 10 ms (step budget
N = 5), a current cutoff level of 3/4 and a baseline cutoff of 1/4, `midiNoteOffHandler`
sets the VCF delta to -1/5, not to (baseline - c) / N = -1/10; the 5 steps of the
release bring the level to -1/4, not to the baseline. -/
theorem C23_release_delta_scaled :
    0 < slowTickConfig.ADSR_TIMER_PERIOD_MS
    ∧ 0 < soundingEngine.vcfAdsr.releaseTimeMs
    ∧ soundingEngine.stateMachineVcf.cutoffFrequency = 3 / 4
    ∧ soundingEngine.globalParams.vcfCutoff = 1 / 4
    ∧ (midiNoteOffHandler slowTickConfig soundingEngine).stateMachineVcf.tMax = 5
    ∧ (midiNoteOffHandler slowTickConfig soundingEngine).stateMachineVcf.tmpDelta = -1 / 5
    ∧ (soundingEngine.globalParams.vcfCutoff - soundingEngine.stateMachineVcf.cutoffFrequency)
        / (soundingEngine.vcfAdsr.releaseTimeMs / slowTickConfig.ADSR_TIMER_PERIOD_MS)
        = -1 / 10
    ∧ (vcfTicks slowTickConfig 5
        (midiNoteOffHandler slowTickConfig soundingEngine)).stateMachineVcf.cutoffFrequency
        = -1 / 4
    ∧ (vcfTicks slowTickConfig 5
        (midiNoteOffHandler slowTickConfig soundingEngine)).stateMachineVcf.t = 5 := by
  have hoff : (midiNoteOffHandler slowTickConfig soundingEngine).stateMachineVcf
      = { t := 0, tMax := 5, velocitySensitivity := 1 / 2, kbdTracking := 1 / 2,
          envAmount := 1, machineState := MachineState.RELEASE, cutoffFrequency := 3 / 4,
          tmpTargetLevel := 1 / 4, tmpDelta := -1 / 5, tmpKbdtrackingShiftFactor := 0 } := by
    rw [midiNoteOffHandler_vcf]
    simp only [soundingEngine, sampleEngine, slowTickConfig, sampleConfig]
    norm_num
  have hvca : (midiNoteOffHandler slowTickConfig soundingEngine).stateMachineVca.machineState
      = MachineState.RELEASE := by
    rw [midiNoteOffHandler_vca]
  have hrun := (vcfTicks_release_run slowTickConfig 5
    (midiNoteOffHandler slowTickConfig soundingEngine) hvca (by rw [hoff]; norm_num)).1
  rw [hoff] at hrun
  refine ⟨by norm_num [slowTickConfig, sampleConfig], by norm_num [soundingEngine, sampleEngine],
    rfl, rfl, by rw [hoff], by rw [hoff], ?_, ?_, ?_⟩
  · norm_num [soundingEngine, sampleEngine, slowTickConfig, sampleConfig]
  · rw [hrun]
    norm_num
  · rw [hrun]
    norm_num

/-! ## A tick in either demo mode -/

/-- One tick as the composition of its three stages: the prologue, the demo sequence on
the ticks that wrap the phase counter when demo mode is on, and the switch. -/
theorem tick_eq (c : Config) (s : Engine) :
    HAL_TIM_PeriodElapsedCallback c s
      = (if s.adsrInterruptCounter + 1 = c.ADSR_TIMER_PERIOD_FACTOR ∧ s.demoMode = 1 then
          playDemo c (tickPrologue c s)
        else some (tickPrologue c s)).bind (tickEpilogue c) := by
  have hk : ∀ b : Bool, (updateDrumMachine (HAL_GPIO_WritePin Pin.LD3 b s)).adsrInterruptCounter
      = s.adsrInterruptCounter := fun b => (updateDrumMachine_frame _).1
  have hd : ∀ b : Bool, (updateDrumMachine (HAL_GPIO_WritePin Pin.LD3 b s)).demoMode
      = s.demoMode := fun b => (updateDrumMachine_frame _).2.1
  unfold HAL_TIM_PeriodElapsedCallback tickPrologue
  simp only [hk, hd]
  by_cases hK : s.adsrInterruptCounter + 1 = c.ADSR_TIMER_PERIOD_FACTOR
  · by_cases hdemo : s.demoMode = 1
    · simp only [hK, hdemo, if_true, and_self]
      rfl
    · simp only [hK, hdemo, if_true, if_false, and_false]
      rfl
  · simp only [hK, if_false, false_and]
    rfl

/-- The prologue of a tick changes the drum counters, the phase counter and the trace
only, and issues no transmit. -/
theorem tickPrologue_fields (c : Config) (s : Engine) :
    (tickPrologue c s).midiNote = s.midiNote
    ∧ (tickPrologue c s).demoCounter = s.demoCounter
    ∧ (tickPrologue c s).demoNoteCounter = s.demoNoteCounter
    ∧ (tickPrologue c s).vcaAdsr = s.vcaAdsr
    ∧ (tickPrologue c s).vcfAdsr = s.vcfAdsr
    ∧ (tickPrologue c s).globalParams = s.globalParams
    ∧ (tickPrologue c s).adsrInterruptCounter
        = (if s.adsrInterruptCounter + 1 = c.ADSR_TIMER_PERIOD_FACTOR then 0
           else s.adsrInterruptCounter + 1)
    ∧ transmitCount (tickPrologue c s).trace = transmitCount s.trace := by
  have hpulse : ∀ (v : DrumVoice) (d : DrumTriggers), transmitCount (pulseEnd v d) = 0 := by
    intro v d
    unfold pulseEnd
    split_ifs <;> rfl
  unfold tickPrologue
  simp only [updateDrumMachine_eq, HAL_GPIO_WritePin, emit]
  split_ifs
  all_goals
    refine ⟨rfl, rfl, rfl, rfl, rfl, rfl, rfl, ?_⟩
    simp [transmitCount_append, transmitCount, hpulse]

/-! ## Effect of a message on the machine states and on the transport -/

/-- The drum trigger changes one drum counter and the trace only, without a transmit. -/
theorem playDrumMachine_frame (c : Config) (data1 : Nat) (s : Engine) :
    (playDrumMachine c data1 s).stateMachineVca = s.stateMachineVca
    ∧ (playDrumMachine c data1 s).stateMachineVcf = s.stateMachineVcf
    ∧ (playDrumMachine c data1 s).midiNote = s.midiNote
    ∧ (playDrumMachine c data1 s).demoMode = s.demoMode
    ∧ (playDrumMachine c data1 s).demoCounter = s.demoCounter
    ∧ (playDrumMachine c data1 s).demoNoteCounter = s.demoNoteCounter
    ∧ (playDrumMachine c data1 s).adsrInterruptCounter = s.adsrInterruptCounter
    ∧ transmitCount (playDrumMachine c data1 s).trace = transmitCount s.trace := by
  unfold playDrumMachine
  simp only [HAL_GPIO_WritePin, emit]
  split_ifs
  all_goals
    refine ⟨rfl, rfl, rfl, rfl, rfl, rfl, rfl, ?_⟩
    simp [transmitCount_append, transmitCount]

/-- The note-on handler: both machines in ATTACK, one LED write, no transmit. -/
theorem midiNoteOnHandler_frame (c : Config) (s : Engine) :
    (midiNoteOnHandler c s).stateMachineVca.machineState = MachineState.ATTACK
    ∧ (midiNoteOnHandler c s).stateMachineVcf.machineState = MachineState.ATTACK
    ∧ (midiNoteOnHandler c s).midiNote = s.midiNote
    ∧ (midiNoteOnHandler c s).demoMode = s.demoMode
    ∧ (midiNoteOnHandler c s).demoCounter = s.demoCounter
    ∧ (midiNoteOnHandler c s).demoNoteCounter = s.demoNoteCounter
    ∧ (midiNoteOnHandler c s).adsrInterruptCounter = s.adsrInterruptCounter
    ∧ transmitCount (midiNoteOnHandler c s).trace = transmitCount s.trace := by
  simp [midiNoteOnHandler, HAL_GPIO_WritePin, emit, transmitCount_append, transmitCount]

/-- The note-off handler: both machines in RELEASE, one LED write, no transmit. -/
theorem midiNoteOffHandler_frame (c : Config) (s : Engine) :
    (midiNoteOffHandler c s).stateMachineVca.machineState = MachineState.RELEASE
    ∧ (midiNoteOffHandler c s).stateMachineVcf.machineState = MachineState.RELEASE
    ∧ (midiNoteOffHandler c s).midiNote = s.midiNote
    ∧ (midiNoteOffHandler c s).demoMode = s.demoMode
    ∧ (midiNoteOffHandler c s).demoCounter = s.demoCounter
    ∧ (midiNoteOffHandler c s).demoNoteCounter = s.demoNoteCounter
    ∧ (midiNoteOffHandler c s).adsrInterruptCounter = s.adsrInterruptCounter
    ∧ transmitCount (midiNoteOffHandler c s).trace = transmitCount s.trace := by
  simp [midiNoteOffHandler, HAL_GPIO_WritePin, emit, transmitCount_append, transmitCount]

/-- No control change alters the state of a machine. -/
theorem setMidiCCParam_states (c : Config) (p : MidiCCParam) (v : Nat) (s : Engine) :
    (setMidiCCParam c p v s).stateMachineVca.machineState = s.stateMachineVca.machineState
    ∧ (setMidiCCParam c p v s).stateMachineVcf.machineState
        = s.stateMachineVcf.machineState := by
  cases p
  all_goals
    first
      | exact ⟨rfl, rfl⟩
      | (simp only [setMidiCCParam, dacWrite_stateMachineVca, dacWrite_stateMachineVcf,
          and_self]; done)
      | (simp only [setMidiCCParam]; split_ifs <;> exact ⟨rfl, rfl⟩)

/-- A message leaves the states of the two machines as they are, or puts both in ATTACK
(only when its status nibble is NOTE_ON), or puts both in RELEASE (only when its status
nibble is NOTE_OFF). -/
theorem dispatch_states (c : Config) (s : Engine) (statusChannel data1 data2 : Nat) :
    ((processIncomingMidiMessage c statusChannel data1 data2 s).stateMachineVca.machineState
        = s.stateMachineVca.machineState
      ∧ (processIncomingMidiMessage c statusChannel data1 data2 s).stateMachineVcf.machineState
        = s.stateMachineVcf.machineState)
    ∨ ((statusChannel % 256) &&& 0xF0 = c.NOTE_ON
      ∧ (processIncomingMidiMessage c statusChannel data1 data2 s).stateMachineVca.machineState
        = MachineState.ATTACK
      ∧ (processIncomingMidiMessage c statusChannel data1 data2 s).stateMachineVcf.machineState
        = MachineState.ATTACK)
    ∨ ((statusChannel % 256) &&& 0xF0 = c.NOTE_OFF
      ∧ (processIncomingMidiMessage c statusChannel data1 data2 s).stateMachineVca.machineState
        = MachineState.RELEASE
      ∧ (processIncomingMidiMessage c statusChannel data1 data2 s).stateMachineVcf.machineState
        = MachineState.RELEASE) := by
  by_cases hon : (statusChannel % 256) &&& 0xF0 = c.NOTE_ON
  · by_cases hch : (statusChannel % 256) &&& 0x0F = c.DRUM_CHANNEL
    · left
      have hdisp : processIncomingMidiMessage c statusChannel data1 data2 s
          = playDrumMachine c (data1 % 256) s := by
        simp only [processIncomingMidiMessage, hon, hch, if_true]
      rw [hdisp, (playDrumMachine_frame c _ s).1, (playDrumMachine_frame c _ s).2.1]
      exact ⟨rfl, rfl⟩
    · right; left
      have hdisp : processIncomingMidiMessage c statusChannel data1 data2 s
          = midiNoteOnHandler c
              { s with midiNote := { note := data1 % 256, velocity := data2 % 256 } } := by
        simp only [processIncomingMidiMessage, hon, hch, if_true, if_false]
      rw [hdisp]
      exact ⟨hon, (midiNoteOnHandler_frame c _).1, (midiNoteOnHandler_frame c _).2.1⟩
  · by_cases hoff : (statusChannel % 256) &&& 0xF0 = c.NOTE_OFF
    · right; right
      have hdisp : processIncomingMidiMessage c statusChannel data1 data2 s
          = midiNoteOffHandler c s := by
        simp only [processIncomingMidiMessage]
        rw [if_neg hon, if_pos hoff]
      rw [hdisp]
      exact ⟨hoff, (midiNoteOffHandler_frame c _).1, (midiNoteOffHandler_frame c _).2.1⟩
    · left
      by_cases hcc : (statusChannel % 256) &&& 0xF0 = c.CONTROL_CHANGE
      · simp only [processIncomingMidiMessage]
        rw [if_neg hon, if_neg hoff, if_pos hcc]
        cases c.ccParam (data1 % 256) with
        | none => exact ⟨rfl, rfl⟩
        | some p => exact setMidiCCParam_states c p _ s
      · simp only [processIncomingMidiMessage]
        rw [if_neg hon, if_neg hoff, if_neg hcc]
        exact ⟨rfl, rfl⟩

/-- A message whose status nibble is NOTE_ON or NOTE_OFF issues no transmit, keeps the
demo variables and the phase counter, and holds either the note it carries or the note
held before. -/
theorem dispatch_note_frame (c : Config) (s : Engine) (statusChannel data1 data2 : Nat)
    (h : (statusChannel % 256) &&& 0xF0 = c.NOTE_ON
      ∨ (statusChannel % 256) &&& 0xF0 = c.NOTE_OFF) :
    transmitCount (processIncomingMidiMessage c statusChannel data1 data2 s).trace
        = transmitCount s.trace
    ∧ (processIncomingMidiMessage c statusChannel data1 data2 s).demoMode = s.demoMode
    ∧ (processIncomingMidiMessage c statusChannel data1 data2 s).demoCounter = s.demoCounter
    ∧ (processIncomingMidiMessage c statusChannel data1 data2 s).demoNoteCounter
        = s.demoNoteCounter
    ∧ (processIncomingMidiMessage c statusChannel data1 data2 s).adsrInterruptCounter
        = s.adsrInterruptCounter
    ∧ ((processIncomingMidiMessage c statusChannel data1 data2 s).midiNote.note
          = s.midiNote.note
      ∨ (processIncomingMidiMessage c statusChannel data1 data2 s).midiNote.note
          = data1 % 256) := by
  by_cases hon : (statusChannel % 256) &&& 0xF0 = c.NOTE_ON
  · by_cases hch : (statusChannel % 256) &&& 0x0F = c.DRUM_CHANNEL
    · have hdisp : processIncomingMidiMessage c statusChannel data1 data2 s
          = playDrumMachine c (data1 % 256) s := by
        simp only [processIncomingMidiMessage, hon, hch, if_true]
      obtain ⟨_, _, h3, h4, h5, h6, h7, h8⟩ := playDrumMachine_frame c (data1 % 256) s
      rw [hdisp]
      exact ⟨h8, h4, h5, h6, h7, Or.inl (by rw [h3])⟩
    · have hdisp : processIncomingMidiMessage c statusChannel data1 data2 s
          = midiNoteOnHandler c
              { s with midiNote := { note := data1 % 256, velocity := data2 % 256 } } := by
        simp only [processIncomingMidiMessage, hon, hch, if_true, if_false]
      obtain ⟨_, _, h3, h4, h5, h6, h7, h8⟩ := midiNoteOnHandler_frame c
        { s with midiNote := { note := data1 % 256, velocity := data2 % 256 } }
      rw [hdisp]
      exact ⟨h8, h4, h5, h6, h7, Or.inr (by rw [h3])⟩
  · have hoff : (statusChannel % 256) &&& 0xF0 = c.NOTE_OFF := h.resolve_left hon
    have hdisp : processIncomingMidiMessage c statusChannel data1 data2 s
        = midiNoteOffHandler c s := by
      simp only [processIncomingMidiMessage]
      rw [if_neg hon, if_pos hoff]
    obtain ⟨_, _, h3, h4, h5, h6, h7, h8⟩ := midiNoteOffHandler_frame c s
    rw [hdisp]
    exact ⟨h8, h4, h5, h6, h7, Or.inl (by rw [h3])⟩

/-! ## The demo sequence -/

/-- The entries of `demoNotes` are 36 and 48. -/
theorem demoNotes_entries (i n : Int) (h : readArray demoNotes i = some n) :
    toUint8 n = 36 ∨ toUint8 n = 48 := by
  unfold readArray at h
  split_ifs at h with hi
  obtain ⟨k, rfl⟩ := Int.eq_ofNat_of_zero_le hi
  simp only [Int.toNat_ofNat, demoNotes] at h
  match k, h with
  | 0, h => left; simp at h; subst h; rfl
  | 1, h => right; simp at h; subst h; rfl
  | 2, h => left; simp at h; subst h; rfl
  | 3, h => right; simp at h; subst h; rfl
  | k + 4, h => simp at h

/-- Reading `demoNotes` at an index in 0..3 succeeds. -/
theorem demoNotes_read (i : Int) (h0 : 0 ≤ i) (h1 : i < 4) : ∃ n, readArray demoNotes i = some n := by
  unfold readArray
  rw [if_pos h0]
  obtain ⟨k, rfl⟩ := Int.eq_ofNat_of_zero_le h0
  have hk : k < 4 := by omega
  simp only [Int.toNat_ofNat, demoNotes]
  interval_cases k <;> exact ⟨_, rfl⟩

/-- What `playDemo` does, when it returns: it leaves the engine as it is, or injects a
NOTE_ON carrying an entry of `demoNotes` followed by a bass drum trigger, or injects a
NOTE_OFF; then it updates the two demo counters only. -/
theorem playDemo_cases (c : Config) (s s1 : Engine) (h : playDemo c s = some s1) :
    ∃ t : Engine,
      (t = s
        ∨ (∃ n : Nat, (n = 36 ∨ n = 48)
            ∧ t = playDrumMachine c (c.BASS_DRUM_NOTE % 256)
                (processIncomingMidiMessage c c.NOTE_ON n 50
                  { s with demoNoteCounter := s.demoNoteCounter + 1 }))
        ∨ t = processIncomingMidiMessage c c.NOTE_OFF 36 0 s
        ∨ t = { s with demoCounter := -1 })
      ∧ s1.trace = t.trace ∧ s1.stateMachineVca = t.stateMachineVca
      ∧ s1.stateMachineVcf = t.stateMachineVcf ∧ s1.midiNote = t.midiNote
      ∧ s1.adsrInterruptCounter = t.adsrInterruptCounter ∧ s1.demoMode = t.demoMode := by
  unfold playDemo at h
  obtain ⟨t, hr, hg⟩ := Option.map_eq_some'.mp h
  have hagree : s1.trace = t.trace ∧ s1.stateMachineVca = t.stateMachineVca
      ∧ s1.stateMachineVcf = t.stateMachineVcf ∧ s1.midiNote = t.midiNote
      ∧ s1.adsrInterruptCounter = t.adsrInterruptCounter ∧ s1.demoMode = t.demoMode := by
    rw [← hg]
    simp only []
    split_ifs <;> exact ⟨rfl, rfl, rfl, rfl, rfl, rfl⟩
  refine ⟨t, ?_, hagree⟩
  clear hg h hagree
  by_cases h0 : s.demoCounter = 0
  · rw [if_pos h0] at hr
    cases hread : readArray demoNotes s.demoNoteCounter with
    | none =>
      rw [hread] at hr
      exact absurd hr (by simp)
    | some n =>
      rw [hread] at hr
      have ht := Option.some.inj hr
      exact Or.inr (Or.inl ⟨toUint8 n, demoNotes_entries _ _ hread, ht.symm⟩)
  · rw [if_neg h0] at hr
    by_cases h200 : s.demoCounter = 200
    · rw [if_pos h200] at hr
      exact Or.inr (Or.inr (Or.inl (Option.some.inj hr).symm))
    · rw [if_neg h200] at hr
      by_cases h400 : s.demoCounter = 400
      · rw [if_pos h400] at hr
        exact Or.inr (Or.inr (Or.inr (Option.some.inj hr).symm))
      · rw [if_neg h400] at hr
        exact Or.inl (Option.some.inj hr).symm

/-- The demo sequence issues no transmit, keeps the phase counter and the demo mode,
keeps the held note an index of the tables, and leaves the states of the two machines
as they are or puts both in ATTACK or both in RELEASE. -/
theorem playDemo_frame (c : Config) (s s1 : Engine) (hlab : c.statusNibbles)
    (h : playDemo c s = some s1) :
    transmitCount s1.trace = transmitCount s.trace
    ∧ s1.adsrInterruptCounter = s.adsrInterruptCounter
    ∧ s1.demoMode = s.demoMode
    ∧ (s.midiNote.note < 128 → s1.midiNote.note < 128)
    ∧ ((s1.stateMachineVca.machineState = s.stateMachineVca.machineState
          ∧ s1.stateMachineVcf.machineState = s.stateMachineVcf.machineState)
      ∨ (s1.stateMachineVca.machineState = MachineState.ATTACK
          ∧ s1.stateMachineVcf.machineState = MachineState.ATTACK)
      ∨ (s1.stateMachineVca.machineState = MachineState.RELEASE
          ∧ s1.stateMachineVcf.machineState = MachineState.RELEASE)) := by
  obtain ⟨t, ht, htr, hvca, hvcf, hnote, hk, hdm⟩ := playDemo_cases c s s1 h
  rw [htr, hvca, hvcf, hnote, hk, hdm]
  rcases ht with rfl | ⟨n, hn, rfl⟩ | rfl | rfl
  · exact ⟨rfl, rfl, rfl, id, Or.inl ⟨rfl, rfl⟩⟩
  · obtain ⟨d1, d2, d3, d4, _, _, d7, d8⟩ := playDrumMachine_frame c (c.BASS_DRUM_NOTE % 256)
      (processIncomingMidiMessage c c.NOTE_ON n 50
        { s with demoNoteCounter := s.demoNoteCounter + 1 })
    obtain ⟨p1, p2, _, _, p5, p6⟩ := dispatch_note_frame c
      { s with demoNoteCounter := s.demoNoteCounter + 1 } c.NOTE_ON n 50 (Or.inl hlab.1)
    rw [d1, d2, d3, d4, d7, d8, p1, p2, p5]
    refine ⟨rfl, rfl, rfl, ?_, ?_⟩
    · intro hs
      rcases p6 with p6 | p6
      · rw [p6]
        exact hs
      · rw [p6]
        rcases hn with rfl | rfl <;> decide
    · rcases dispatch_states c { s with demoNoteCounter := s.demoNoteCounter + 1 }
        c.NOTE_ON n 50 with h1 | ⟨_, h1⟩ | ⟨_, h1⟩
      · exact Or.inl h1
      · exact Or.inr (Or.inl h1)
      · exact Or.inr (Or.inr h1)
  · obtain ⟨p1, p2, _, _, p5, p6⟩ := dispatch_note_frame c s c.NOTE_OFF 36 0 (Or.inr hlab.2)
    rw [p1, p2, p5]
    refine ⟨rfl, rfl, rfl, ?_, ?_⟩
    · intro hs
      rcases p6 with p6 | p6
      · rw [p6]
        exact hs
      · rw [p6]
        decide
    · rcases dispatch_states c s c.NOTE_OFF 36 0 with h1 | ⟨_, h1⟩ | ⟨_, h1⟩
      · exact Or.inl h1
      · exact Or.inr (Or.inl h1)
      · exact Or.inr (Or.inr h1)
  · exact ⟨rfl, rfl, rfl, id, Or.inl ⟨rfl, rfl⟩⟩

/-- The demo sequence returns when its note index is inside `demoNotes`. -/
theorem playDemo_returns (c : Config) (s : Engine)
    (h0 : 0 ≤ s.demoNoteCounter) (h1 : s.demoNoteCounter < 4) :
    ∃ s1, playDemo c s = some s1 := by
  obtain ⟨n, hn⟩ := demoNotes_read s.demoNoteCounter h0 h1
  unfold playDemo
  rw [hn]
  simp only []
  split_ifs <;> exact ⟨_, rfl⟩

/-! ## The switch of a tick -/

theorem dacEvents_transmitCount (c : Config) (w : Int) (d : Dac) :
    transmitCount (dacEvents c w d) = 1 := by
  have := dacWrite_transmitCount c w d sampleEngine
  rw [dacEvents, this]
  rfl

/-- The VCA tick changes the state of its machine by an allowed step only, leaves the
VCF machine, the held note and the demo mode unchanged and issues at most one
transmit. -/
theorem updateVCA_step (c : Config) (s : Engine) :
    tickStep s.stateMachineVca.machineState
        (updateVCAEnveloppeStateMachine c s).stateMachineVca.machineState
    ∧ transmitCount (updateVCAEnveloppeStateMachine c s).trace ≤ transmitCount s.trace + 1 := by
  rcases s with ⟨vcaAdsr, ⟨sens, st, amp, tgt, dl⟩, vcfAdsr, vcf, gp, v1, v2, dt, mn, k, dm, dc, dn, tr⟩
  cases st <;>
    simp only [updateVCAEnveloppeStateMachine, dacVcaWrite, dacWrite_eq, tickStep] <;>
    (try split_ifs) <;>
    simp [transmitCount_append, dacEvents_transmitCount]

/-- The VCF tick changes the state of the VCF machine only as the case selected by the
state of the VCA machine does: to DECAY in the ATTACK case, to IDLE in the RELEASE case;
it issues at most one transmit. -/
theorem updateVCF_step (c : Config) (s : Engine) :
    ((updateVCFEnveloppeStateMachine c s).stateMachineVcf.machineState
        = s.stateMachineVcf.machineState
      ∨ (s.stateMachineVca.machineState = MachineState.ATTACK
        ∧ (updateVCFEnveloppeStateMachine c s).stateMachineVcf.machineState
            = MachineState.DECAY)
      ∨ (s.stateMachineVca.machineState = MachineState.RELEASE
        ∧ (updateVCFEnveloppeStateMachine c s).stateMachineVcf.machineState
            = MachineState.IDLE))
    ∧ transmitCount (updateVCFEnveloppeStateMachine c s).trace ≤ transmitCount s.trace + 1 := by
  rcases s with ⟨vcaAdsr, ⟨sens, st, amp, tgt, dl⟩, vcfAdsr, vcf, gp, v1, v2, dt, mn, k, dm, dc, dn, tr⟩
  cases st <;>
    simp only [updateVCFEnveloppeStateMachine, dacVcfCutoffWrite, dacWrite_eq] <;>
    (try split_ifs) <;>
    simp [transmitCount_append, dacEvents_transmitCount]

/-- The switch of a tick, when it returns: at most one transmit, held note, demo mode
and phase counter unchanged, the VCA state changed by an allowed step only, the VCF
state changed only as the case selected by the VCA state does; and nothing at all
happens when the phase selects no slow update. -/
theorem tickEpilogue_frame (c : Config) (s s1 : Engine) (h : tickEpilogue c s = some s1) :
    transmitCount s1.trace ≤ transmitCount s.trace + 1
    ∧ s1.midiNote = s.midiNote ∧ s1.demoMode = s.demoMode
    ∧ s1.adsrInterruptCounter = s.adsrInterruptCounter
    ∧ tickStep s.stateMachineVca.machineState s1.stateMachineVca.machineState
    ∧ (s1.stateMachineVcf.machineState = s.stateMachineVcf.machineState
      ∨ (s.stateMachineVca.machineState = MachineState.ATTACK
        ∧ s1.stateMachineVcf.machineState = MachineState.DECAY)
      ∨ (s.stateMachineVca.machineState = MachineState.RELEASE
        ∧ s1.stateMachineVcf.machineState = MachineState.IDLE))
    ∧ (selectSlowUpdate s.adsrInterruptCounter = none → s1 = s) := by
  unfold tickEpilogue at h
  cases hsel : selectSlowUpdate s.adsrInterruptCounter with
  | none =>
    rw [hsel] at h
    have hs : s = s1 := Option.some.inj h
    subst hs
    exact ⟨Nat.le_succ _, rfl, rfl, rfl, Or.inl rfl, Or.inl rfl, fun _ => rfl⟩
  | some u =>
    rw [hsel] at h
    have hpitch : ∀ (w : Int) (d : Dac),
        transmitCount (dacWrite c w d s).trace ≤ transmitCount s.trace + 1
        ∧ (dacWrite c w d s).midiNote = s.midiNote ∧ (dacWrite c w d s).demoMode = s.demoMode
        ∧ (dacWrite c w d s).adsrInterruptCounter = s.adsrInterruptCounter
        ∧ tickStep s.stateMachineVca.machineState (dacWrite c w d s).stateMachineVca.machineState
        ∧ ((dacWrite c w d s).stateMachineVcf.machineState = s.stateMachineVcf.machineState
          ∨ (s.stateMachineVca.machineState = MachineState.ATTACK
            ∧ (dacWrite c w d s).stateMachineVcf.machineState = MachineState.DECAY)
          ∨ (s.stateMachineVca.machineState = MachineState.RELEASE
            ∧ (dacWrite c w d s).stateMachineVcf.machineState = MachineState.IDLE))
        ∧ (some u = none → dacWrite c w d s = s) := by
      intro w d
      refine ⟨le_of_eq (dacWrite_transmitCount c w d s), dacWrite_midiNote c w d s,
        dacWrite_demoMode c w d s, dacWrite_adsrInterruptCounter c w d s, ?_, ?_,
        fun hn => absurd hn (by simp)⟩
      · rw [dacWrite_stateMachineVca]
        exact Or.inl rfl
      · rw [dacWrite_stateMachineVcf]
        exact Or.inl rfl
    cases u with
    | pitch13700 =>
      simp only [runSlowUpdate] at h
      cases hcv : midiToVCO13700CV[s.midiNote.note]? with
      | none => rw [hcv] at h; exact absurd h (by simp)
      | some cv =>
        rw [hcv] at h
        have hs := Option.some.inj h
        rw [← hs]
        exact hpitch cv Dac.DAC_VCO_13700
    | pitch3340 =>
      simp only [runSlowUpdate] at h
      cases hcv : midiToVCO3340CV[s.midiNote.note]? with
      | none => rw [hcv] at h; exact absurd h (by simp)
      | some cv =>
        rw [hcv] at h
        have hs := Option.some.inj h
        rw [← hs]
        exact hpitch cv Dac.DAC_VCO_3340_FREQ
    | vcaEnvelope =>
      simp only [runSlowUpdate, Option.some.injEq] at h
      subst h
      obtain ⟨f1, f2, f3⟩ := updateVCA_frame c s
      refine ⟨(updateVCA_step c s).2, f3, f2, f1, (updateVCA_step c s).1, ?_,
        fun hn => absurd hn (by simp)⟩
      rw [updateVCA_vcf]
      exact Or.inl rfl
    | vcfEnvelope =>
      simp only [runSlowUpdate, Option.some.injEq] at h
      subst h
      obtain ⟨f1, f2, f3⟩ := updateVCF_frame c s
      refine ⟨(updateVCF_step c s).2, f3, f2, f1, ?_, (updateVCF_step c s).1,
        fun hn => absurd hn (by simp)⟩
      rw [(updateVCF_vca c s).1]
      exact Or.inl rfl

/-- The switch of a tick returns when the held note is an index of the tables. -/
theorem tickEpilogue_returns (c : Config) (s : Engine) (hnote : s.midiNote.note < 128) :
    ∃ s1, tickEpilogue c s = some s1 := by
  obtain ⟨s1, h, _⟩ := slow_stage c s hnote
  exact ⟨s1, h⟩

/-! ## Transmits of one tick (C24) -/

/-- C24: with NOTE_ON and NOTE_OFF status bytes, for every engine state, every phase
counter value and either demo-mode setting (the ticks on which the demo sequence injects
a note-on, a drum trigger or a note-off included), one invocation of the tick handler
that returns has issued at most one transmit; when the phase counter, after its
increment, is in 4..K-1 it has issued none and has left both envelope machines and the
held note unchanged. The handler does return when the held note is an index of the
note tables and the demo note index is an index of `demoNotes`. -/
theorem C24_tick_transmits (c : Config) (s : Engine) (hlab : c.statusNibbles) :
    (∀ s1 : Engine, HAL_TIM_PeriodElapsedCallback c s = some s1 →
        transmitCount s1.trace ≤ transmitCount s.trace + 1
        ∧ (4 ≤ s.adsrInterruptCounter + 1 →
            s.adsrInterruptCounter + 1 < c.ADSR_TIMER_PERIOD_FACTOR →
            transmitCount s1.trace = transmitCount s.trace
            ∧ s1.stateMachineVca = s.stateMachineVca
            ∧ s1.stateMachineVcf = s.stateMachineVcf
            ∧ s1.midiNote = s.midiNote))
    ∧ (s.midiNote.note < 128 → 0 ≤ s.demoNoteCounter → s.demoNoteCounter < 4 →
        ∃ s1 : Engine, HAL_TIM_PeriodElapsedCallback c s = some s1) := by
  obtain ⟨pnote, _, pidx, _, _, _, pk, ptr⟩ := tickPrologue_fields c s
  obtain ⟨pvca, pvcf, _⟩ := tickPrologue_frame c s
  constructor
  · intro s1 h
    rw [tick_eq] at h
    by_cases hdemo : s.adsrInterruptCounter + 1 = c.ADSR_TIMER_PERIOD_FACTOR ∧ s.demoMode = 1
    · rw [if_pos hdemo] at h
      obtain ⟨t, ht, he⟩ := Option.bind_eq_some.mp h
      obtain ⟨d1, _⟩ := playDemo_frame c _ t hlab ht
      obtain ⟨e1, _⟩ := tickEpilogue_frame c t s1 he
      refine ⟨by omega, fun _ h2 => ?_⟩
      omega
    · rw [if_neg hdemo, Option.some_bind] at h
      obtain ⟨e1, e2, _, _, _, _, e7⟩ := tickEpilogue_frame c _ s1 h
      refine ⟨by omega, fun h1 h2 => ?_⟩
      have hk : (tickPrologue c s).adsrInterruptCounter = s.adsrInterruptCounter + 1 := by
        rw [pk, if_neg (by omega)]
      have hsel : selectSlowUpdate (tickPrologue c s).adsrInterruptCounter = none := by
        rw [hk]
        unfold selectSlowUpdate
        rw [if_neg (by omega), if_neg (by omega), if_neg (by omega), if_neg (by omega)]
      rw [e7 hsel]
      exact ⟨ptr, pvca, pvcf, pnote⟩
  · intro hnote h0 h1
    rw [tick_eq]
    by_cases hdemo : s.adsrInterruptCounter + 1 = c.ADSR_TIMER_PERIOD_FACTOR ∧ s.demoMode = 1
    · rw [if_pos hdemo]
      obtain ⟨t, ht⟩ := playDemo_returns c (tickPrologue c s) (by rw [pidx]; exact h0)
        (by rw [pidx]; exact h1)
      obtain ⟨_, _, _, d4, _⟩ := playDemo_frame c _ t hlab ht
      obtain ⟨s1, hs1⟩ := tickEpilogue_returns c t (d4 (by rw [pnote]; exact hnote))
      exact ⟨s1, by rw [ht, Option.some_bind, hs1]⟩
    · rw [if_neg hdemo, Option.some_bind]
      exact tickEpilogue_returns c _ (by rw [pnote]; exact hnote)

/-- Instance of C24: the sample state with demo mode on and the phase counter at
K - 1 = 19, so that the tick runs the demo sequence (note-on and bass drum trigger) and
then the pitch refresh of phase 0. -/
theorem C24_tick_transmits_witness :
    sampleConfig.statusNibbles
    ∧ ∃ s1 : Engine,
        HAL_TIM_PeriodElapsedCallback sampleConfig
          { sampleEngine with demoMode := 1, adsrInterruptCounter := 19 } = some s1
        ∧ transmitCount s1.trace
          ≤ transmitCount
              ({ sampleEngine with demoMode := 1, adsrInterruptCounter := 19 } : Engine).trace + 1 :=
  have h := C24_tick_transmits sampleConfig
    { sampleEngine with demoMode := 1, adsrInterruptCounter := 19 } (by decide)
  ⟨by decide, (h.2 (by decide) (by decide) (by decide)).elim fun s1 hs1 =>
    ⟨s1, hs1, (h.1 s1 hs1).1⟩⟩

/-! ## Transition structure (C21) -/

/-- What an allowed step of a tick means: it never enters ATTACK or RELEASE, and it
keeps IDLE and DECAY. -/
theorem tickStep_spec (a b : MachineState) (h : tickStep a b) :
    (b = MachineState.ATTACK → a = MachineState.ATTACK)
    ∧ (b = MachineState.RELEASE → a = MachineState.RELEASE)
    ∧ (a = MachineState.IDLE → b = MachineState.IDLE)
    ∧ (a = MachineState.DECAY → b = MachineState.DECAY) := by
  unfold tickStep at h
  cases a <;> cases b <;> simp_all

/-- The coupling of the two states is kept by a switch of the tick handler, and under
the coupling the change of the VCF state is an allowed step. -/
theorem coupled_step (a f a1 f1 : MachineState)
    (hc : (a = MachineState.ATTACK → f = MachineState.ATTACK ∨ f = MachineState.DECAY)
      ∧ (a = MachineState.RELEASE → f = MachineState.RELEASE ∨ f = MachineState.IDLE))
    (hv : tickStep a a1)
    (hf : f1 = f ∨ (a = MachineState.ATTACK ∧ f1 = MachineState.DECAY)
      ∨ (a = MachineState.RELEASE ∧ f1 = MachineState.IDLE))
    (hone : a1 = a ∨ f1 = f) :
    ((a1 = MachineState.ATTACK → f1 = MachineState.ATTACK ∨ f1 = MachineState.DECAY)
      ∧ (a1 = MachineState.RELEASE → f1 = MachineState.RELEASE ∨ f1 = MachineState.IDLE))
    ∧ tickStep f f1 := by
  unfold tickStep at hv ⊢
  cases a <;> cases f <;> cases a1 <;> cases f1 <;> simp_all

/-- The coupling holds after a message: the states are as before, or both ATTACK, or
both RELEASE. -/
theorem coupled_dispatch (s s1 : Engine) (hc : statesCoupled s)
    (h : (s1.stateMachineVca.machineState = s.stateMachineVca.machineState
          ∧ s1.stateMachineVcf.machineState = s.stateMachineVcf.machineState)
      ∨ (s1.stateMachineVca.machineState = MachineState.ATTACK
          ∧ s1.stateMachineVcf.machineState = MachineState.ATTACK)
      ∨ (s1.stateMachineVca.machineState = MachineState.RELEASE
          ∧ s1.stateMachineVcf.machineState = MachineState.RELEASE)) :
    statesCoupled s1 := by
  unfold statesCoupled at hc ⊢
  rcases h with ⟨h1, h2⟩ | ⟨h1, h2⟩ | ⟨h1, h2⟩
  · rw [h1, h2]
    exact hc
  · rw [h1, h2]
    simp
  · rw [h1, h2]
    simp

/-- The demo sequence leaves the states of the two machines as they are or puts both in
ATTACK or both in RELEASE, whatever the status macros are. -/
theorem playDemo_states (c : Config) (s s1 : Engine) (h : playDemo c s = some s1) :
    (s1.stateMachineVca.machineState = s.stateMachineVca.machineState
        ∧ s1.stateMachineVcf.machineState = s.stateMachineVcf.machineState)
    ∨ (s1.stateMachineVca.machineState = MachineState.ATTACK
        ∧ s1.stateMachineVcf.machineState = MachineState.ATTACK)
    ∨ (s1.stateMachineVca.machineState = MachineState.RELEASE
        ∧ s1.stateMachineVcf.machineState = MachineState.RELEASE) := by
  obtain ⟨t, ht, _, hvca, hvcf, _⟩ := playDemo_cases c s s1 h
  rw [hvca, hvcf]
  rcases ht with rfl | ⟨n, _, rfl⟩ | rfl | rfl
  · exact Or.inl ⟨rfl, rfl⟩
  · obtain ⟨d1, d2, _⟩ := playDrumMachine_frame c (c.BASS_DRUM_NOTE % 256)
      (processIncomingMidiMessage c c.NOTE_ON n 50
        { s with demoNoteCounter := s.demoNoteCounter + 1 })
    rw [d1, d2]
    rcases dispatch_states c { s with demoNoteCounter := s.demoNoteCounter + 1 }
      c.NOTE_ON n 50 with h1 | ⟨_, h1⟩ | ⟨_, h1⟩
    · exact Or.inl h1
    · exact Or.inr (Or.inl h1)
    · exact Or.inr (Or.inr h1)
  · rcases dispatch_states c s c.NOTE_OFF 36 0 with h1 | ⟨_, h1⟩ | ⟨_, h1⟩
    · exact Or.inl h1
    · exact Or.inr (Or.inl h1)
    · exact Or.inr (Or.inr h1)
  · exact Or.inl ⟨rfl, rfl⟩

/-- The switch of a tick changes at most one of the two machine states. -/
theorem tickEpilogue_one (c : Config) (s s1 : Engine) (h : tickEpilogue c s = some s1) :
    s1.stateMachineVca.machineState = s.stateMachineVca.machineState
    ∨ s1.stateMachineVcf.machineState = s.stateMachineVcf.machineState := by
  unfold tickEpilogue at h
  cases hsel : selectSlowUpdate s.adsrInterruptCounter with
  | none =>
    rw [hsel] at h
    rw [← Option.some.inj h]
    exact Or.inl rfl
  | some u =>
    rw [hsel] at h
    cases u with
    | pitch13700 =>
      simp only [runSlowUpdate] at h
      cases hcv : midiToVCO13700CV[s.midiNote.note]? with
      | none => rw [hcv] at h; exact absurd h (by simp)
      | some cv =>
        rw [hcv] at h
        rw [← Option.some.inj h, dacWrite_stateMachineVca]
        exact Or.inl rfl
    | pitch3340 =>
      simp only [runSlowUpdate] at h
      cases hcv : midiToVCO3340CV[s.midiNote.note]? with
      | none => rw [hcv] at h; exact absurd h (by simp)
      | some cv =>
        rw [hcv] at h
        rw [← Option.some.inj h, dacWrite_stateMachineVca]
        exact Or.inl rfl
    | vcaEnvelope =>
      simp only [runSlowUpdate, Option.some.injEq] at h
      subst h
      rw [updateVCA_vcf]
      exact Or.inr rfl
    | vcfEnvelope =>
      simp only [runSlowUpdate, Option.some.injEq] at h
      subst h
      rw [(updateVCF_vca c s).1]
      exact Or.inl rfl

/-- Every handler keeps the coupling of the two machine states. -/
theorem handleEvent_coupled (c : Config) (e : Event) (s s1 : Engine)
    (h : handleEvent c e s = some s1) (hc : statesCoupled s) : statesCoupled s1 := by
  cases e with
  | dispatch statusChannel data1 data2 =>
    simp only [handleEvent, Option.some.injEq] at h
    subst h
    exact coupled_dispatch s _ hc (by
      rcases dispatch_states c s statusChannel data1 data2 with h1 | ⟨_, h1⟩ | ⟨_, h1⟩
      · exact Or.inl h1
      · exact Or.inr (Or.inl h1)
      · exact Or.inr (Or.inr h1))
  | tick =>
    simp only [handleEvent] at h
    rw [tick_eq] at h
    obtain ⟨pvca, pvcf, _⟩ := tickPrologue_frame c s
    have hcp : statesCoupled (tickPrologue c s) := by
      unfold statesCoupled at hc ⊢
      rw [pvca, pvcf]
      exact hc
    obtain ⟨t, ht, he⟩ := Option.bind_eq_some.mp h
    have hct : statesCoupled t := by
      by_cases hdemo : s.adsrInterruptCounter + 1 = c.ADSR_TIMER_PERIOD_FACTOR ∧ s.demoMode = 1
      · rw [if_pos hdemo] at ht
        exact coupled_dispatch _ t hcp (playDemo_states c _ t ht)
      · rw [if_neg hdemo] at ht
        rw [← Option.some.inj ht]
        exact hcp
    obtain ⟨_, _, _, _, e5, e6, _⟩ := tickEpilogue_frame c t s1 he
    exact (coupled_step _ _ _ _ hct e5 e6 (tickEpilogue_one c t s1 he)).1

/-- The coupling holds in every state reached by a run of events from a state where it
holds. -/
theorem runEvents_coupled (c : Config) (evs : List Event) (sg sg1 : Engine × Gate)
    (hc : statesCoupled sg.1) (hrun : runEvents c evs sg = some sg1) :
    statesCoupled sg1.1 := by
  induction evs generalizing sg with
  | nil =>
    simp only [runEvents, Option.some.injEq] at hrun
    subst hrun
    exact hc
  | cons e es ih =>
    simp only [runEvents] at hrun
    cases he : handleEvent c e sg.1 with
    | none =>
      rw [he] at hrun
      exact absurd hrun (by simp)
    | some s1 =>
      rw [he] at hrun
      exact ih _ (handleEvent_coupled c e sg.1 s1 he hc) hrun

/-- A VCA machine in DECAY whose level has reached its target is held by the VCA tick:
nothing changes and nothing is emitted. -/
theorem updateVCA_decay_hold (c : Config) (s : Engine)
    (hst : s.stateMachineVca.machineState = MachineState.DECAY)
    (hlevel : s.stateMachineVca.amplitude ≤ s.stateMachineVca.tmpTargetLevel) :
    updateVCAEnveloppeStateMachine c s = s := by
  rcases s with ⟨vcaAdsr, ⟨sens, st, amp, tgt, dl⟩, vcfAdsr, vcf, gp, v1, v2, dt, mn, k, dm, dc, dn, tr⟩
  simp only at hst hlevel
  subst hst
  have hn : ¬ (amp > tgt) := not_lt.mpr hlevel
  simp only [updateVCAEnveloppeStateMachine, hn, if_false]

/-- In the DECAY case (VCA machine in DECAY) the VCF tick holds only once the step
counter has passed `tMax`. -/
theorem updateVCF_decay_hold (c : Config) (s : Engine)
    (hst : s.stateMachineVca.machineState = MachineState.DECAY)
    (hpast : s.stateMachineVcf.tMax < s.stateMachineVcf.t) :
    updateVCFEnveloppeStateMachine c s = s := by
  rcases s with ⟨vcaAdsr, ⟨sens, st, amp, tgt, dl⟩, vcfAdsr, vcf, gp, v1, v2, dt, mn, k, dm, dc, dn, tr⟩
  simp only at hst hpast
  subst hst
  have hn : ¬ (vcf.t ≤ vcf.tMax) := not_le.mpr hpast
  simp only [updateVCFEnveloppeStateMachine, hn, if_false]

/-- In the DECAY case the VCF tick steps as long as `t ≤ tMax`, the value `t = tMax`
included: the counter advances, the delta is added to the cutoff level and the level is
emitted. -/
theorem updateVCF_decay_step (c : Config) (s : Engine)
    (hst : s.stateMachineVca.machineState = MachineState.DECAY)
    (hstep : s.stateMachineVcf.t ≤ s.stateMachineVcf.tMax) :
    (updateVCFEnveloppeStateMachine c s).stateMachineVcf
        = { s.stateMachineVcf with
            t := s.stateMachineVcf.t + 1
            cutoffFrequency := s.stateMachineVcf.cutoffFrequency + s.stateMachineVcf.tmpDelta }
    ∧ transmitCount (updateVCFEnveloppeStateMachine c s).trace = transmitCount s.trace + 1 := by
  rcases s with ⟨vcaAdsr, ⟨sens, st, amp, tgt, dl⟩, vcfAdsr, vcf, gp, v1, v2, dt, mn, k, dm, dc, dn, tr⟩
  simp only at hst hstep
  subst hst
  simp only [updateVCFEnveloppeStateMachine, dacVcfCutoffWrite, dacWrite_eq, hstep, if_true,
    transmitCount_append, dacEvents_transmitCount, and_self]

/-- C22: the VCF does not hold after its decay step budget. In `decayBudgetSpent` both
machines are in DECAY, the VCA level has reached its target and the VCF has performed
its budget of `decayTimeMs / period = 20` decay steps (`t = tMax = 20`), its level being
at the sustain target 5/8. The VCA tick holds (nothing changes), but the VCF tick takes
a 21st step: the level goes to 97/160, below the target, and is emitted; only the tick
after that holds. -/
theorem C22_vcf_extra_decay_step :
    (decayBudgetSpent.stateMachineVca.machineState = MachineState.DECAY
      ∧ decayBudgetSpent.stateMachineVcf.machineState = MachineState.DECAY
      ∧ decayBudgetSpent.vcfAdsr.decayTimeMs / sampleConfig.ADSR_TIMER_PERIOD_MS = 20
      ∧ decayBudgetSpent.stateMachineVcf.tMax = 20
      ∧ decayBudgetSpent.stateMachineVcf.t = 20
      ∧ decayBudgetSpent.stateMachineVcf.cutoffFrequency
          = decayBudgetSpent.stateMachineVcf.tmpTargetLevel)
    ∧ updateVCAEnveloppeStateMachine sampleConfig decayBudgetSpent = decayBudgetSpent
    ∧ (updateVCFEnveloppeStateMachine sampleConfig decayBudgetSpent).stateMachineVcf.cutoffFrequency
        = 97 / 160
    ∧ (updateVCFEnveloppeStateMachine sampleConfig decayBudgetSpent).stateMachineVcf.cutoffFrequency
        ≠ decayBudgetSpent.stateMachineVcf.cutoffFrequency
    ∧ transmitCount (updateVCFEnveloppeStateMachine sampleConfig decayBudgetSpent).trace
        = transmitCount decayBudgetSpent.trace + 1
    ∧ updateVCFEnveloppeStateMachine sampleConfig
          (updateVCFEnveloppeStateMachine sampleConfig decayBudgetSpent)
        = updateVCFEnveloppeStateMachine sampleConfig decayBudgetSpent := by
  have hst : decayBudgetSpent.stateMachineVca.machineState = MachineState.DECAY := rfl
  have hstep := updateVCF_decay_step sampleConfig decayBudgetSpent hst
    (by norm_num [decayBudgetSpent])
  have hcut : (updateVCFEnveloppeStateMachine sampleConfig
      decayBudgetSpent).stateMachineVcf.cutoffFrequency = 97 / 160 := by
    rw [hstep.1]
    norm_num [decayBudgetSpent]
  refine ⟨⟨rfl, rfl, ?_, rfl, rfl, rfl⟩, ?_, hcut, ?_, hstep.2, ?_⟩
  · norm_num [decayBudgetSpent, soundingEngine, sampleEngine, sampleConfig]
  · exact updateVCA_decay_hold sampleConfig decayBudgetSpent hst
      (by norm_num [decayBudgetSpent, soundingEngine])
  · rw [hcut]
    norm_num [decayBudgetSpent]
  · apply updateVCF_decay_hold
    · rw [(updateVCF_vca sampleConfig decayBudgetSpent).1]
      rfl
    · rw [hstep.1]
      norm_num [decayBudgetSpent]

/-! ## Pitch refresh and the start of an attack (C25) -/

/-- The VCA tick in ATTACK emits the level held before the tick. -/
theorem updateVCA_attack_trace (c : Config) (s : Engine)
    (hst : s.stateMachineVca.machineState = MachineState.ATTACK) :
    (updateVCAEnveloppeStateMachine c s).trace
      = (dacVcaWrite c s.stateMachineVca.amplitude s).trace := by
  rcases s with ⟨vcaAdsr, ⟨sens, st, amp, tgt, dl⟩, vcfAdsr, vcf, gp, v1, v2, dt, mn, k, dm, dc, dn, tr⟩
  simp only at hst
  subst hst
  simp only [updateVCAEnveloppeStateMachine, dacVcaWrite, dacWrite_eq]
  split_ifs <;> rfl

/-- With demo mode off, a tick is the switch applied to the state left by the
prologue. -/
theorem tick_demo_off_stages (c : Config) (s : Engine) (hdemo : s.demoMode ≠ 1) :
    HAL_TIM_PeriodElapsedCallback c s = tickEpilogue c (tickPrologue c s) := by
  rw [tick_eq, if_neg (fun hd => hdemo hd.2), Option.some_bind]

/-- A tick whose phase, after the increment, is in 4..K-1 does the prologue only. -/
theorem tick_quiet (c : Config) (s : Engine) (hdemo : s.demoMode ≠ 1)
    (h4 : 4 ≤ s.adsrInterruptCounter + 1)
    (hK : s.adsrInterruptCounter + 1 < c.ADSR_TIMER_PERIOD_FACTOR) :
    HAL_TIM_PeriodElapsedCallback c s = some (tickPrologue c s) := by
  have hk : (tickPrologue c s).adsrInterruptCounter = s.adsrInterruptCounter + 1 := by
    rw [(tickPrologue_fields c s).2.2.2.2.2.2.1, if_neg (by omega)]
  rw [tick_demo_off_stages c s hdemo]
  unfold tickEpilogue selectSlowUpdate
  rw [hk, if_neg (by omega), if_neg (by omega), if_neg (by omega), if_neg (by omega)]

/-- A run of ticks whose phases stay in 4..K-1: every tick returns, no transmit is
issued, and machines, held note and demo mode are unchanged. -/
theorem runTicks_quiet (c : Config) (j : Nat) (s : Engine) (hdemo : s.demoMode ≠ 1)
    (h3 : 3 ≤ s.adsrInterruptCounter)
    (hK : s.adsrInterruptCounter + (j : Int) < c.ADSR_TIMER_PERIOD_FACTOR) :
    ∃ sj, runTicks c j s = some sj
      ∧ sj.adsrInterruptCounter = s.adsrInterruptCounter + (j : Int)
      ∧ transmitCount sj.trace = transmitCount s.trace
      ∧ sj.stateMachineVca = s.stateMachineVca ∧ sj.stateMachineVcf = s.stateMachineVcf
      ∧ sj.midiNote = s.midiNote ∧ sj.demoMode = s.demoMode := by
  induction j generalizing s with
  | zero => exact ⟨s, rfl, by simp, rfl, rfl, rfl, rfl, rfl⟩
  | succ j ih =>
    push_cast at hK
    have htick := tick_quiet c s hdemo (by omega) (by omega)
    obtain ⟨pnote, _, _, _, _, _, pk, ptr⟩ := tickPrologue_fields c s
    obtain ⟨pvca, pvcf, pdm⟩ := tickPrologue_frame c s
    have hk : (tickPrologue c s).adsrInterruptCounter = s.adsrInterruptCounter + 1 := by
      rw [pk, if_neg (by omega)]
    obtain ⟨sj, hj, hkj, htr, hvca, hvcf, hnote, hdm⟩ := ih (tickPrologue c s)
      (by rw [pdm]; exact hdemo) (by rw [hk]; omega) (by rw [hk]; omega)
    refine ⟨sj, ?_, ?_, ?_, ?_, ?_, ?_, ?_⟩
    · simp only [runTicks, htick, Option.some_bind]
      exact hj
    · rw [hkj, hk]
      push_cast
      ring
    · rw [htr, ptr]
    · rw [hvca, pvca]
    · rw [hvcf, pvcf]
    · rw [hnote, pnote]
    · rw [hdm, pdm]

/-- The tick whose phase is 0 writes the table entry of the held note to oscillator
13700, and the tick whose phase is 1 writes it to oscillator 3340. -/
theorem tick_pitch (c : Config) (s : Engine) (hdemo : s.demoMode ≠ 1)
    (hnote : s.midiNote.note < 128) :
    ((tickPrologue c s).adsrInterruptCounter = 0 →
      ∃ cv, midiToVCO13700CV[s.midiNote.note]? = some cv
        ∧ HAL_TIM_PeriodElapsedCallback c s
            = some (dacWrite c cv Dac.DAC_VCO_13700 (tickPrologue c s)))
    ∧ ((tickPrologue c s).adsrInterruptCounter = 1 →
      ∃ cv, midiToVCO3340CV[s.midiNote.note]? = some cv
        ∧ HAL_TIM_PeriodElapsedCallback c s
            = some (dacWrite c cv Dac.DAC_VCO_3340_FREQ (tickPrologue c s))) := by
  have pnote : (tickPrologue c s).midiNote = s.midiNote := (tickPrologue_fields c s).1
  have hA : midiToVCO13700CV[s.midiNote.note]? = some (midiToVCO13700CV[s.midiNote.note]) :=
    List.getElem?_eq_getElem (by rw [show midiToVCO13700CV.length = 128 from rfl]; exact hnote)
  have hB : midiToVCO3340CV[s.midiNote.note]? = some (midiToVCO3340CV[s.midiNote.note]) :=
    List.getElem?_eq_getElem (by rw [show midiToVCO3340CV.length = 128 from rfl]; exact hnote)
  constructor
  · intro hk
    refine ⟨_, hA, ?_⟩
    rw [tick_demo_off_stages c s hdemo]
    unfold tickEpilogue selectSlowUpdate
    rw [hk, if_pos rfl]
    simp only [runSlowUpdate, pnote, hA, Option.map_some']
  · intro hk
    refine ⟨_, hB, ?_⟩
    rw [tick_demo_off_stages c s hdemo]
    unfold tickEpilogue selectSlowUpdate
    rw [hk, if_neg (by decide), if_pos rfl]
    simp only [runSlowUpdate, pnote, hB, Option.map_some']

/-- C25, counterexample: with the phase counter at 1 (sample configuration, K = 20,
demo mode off), after the NOTE_ON `0x90 64 90` the very next tick is the VCA update: it
emits the first level of the new attack (amplitude 0) before any pitch refresh; the
tick after it is the VCF update, and the pitch of oscillator 13700 is refreshed only by
the 19th tick. -/
theorem C25_envelope_first_counterexample :
    phaseOneEngine.adsrInterruptCounter = 1
    ∧ phaseOneEngine.demoMode ≠ 1
    ∧ performedAt sampleConfig
        (processIncomingMidiMessage sampleConfig 0x90 64 90 phaseOneEngine) 0
        = some SlowUpdate.vcaEnvelope
    ∧ performedAt sampleConfig
        (processIncomingMidiMessage sampleConfig 0x90 64 90 phaseOneEngine) 1
        = some SlowUpdate.vcfEnvelope
    ∧ performedAt sampleConfig
        (processIncomingMidiMessage sampleConfig 0x90 64 90 phaseOneEngine) 18
        = some SlowUpdate.pitch13700
    ∧ HAL_TIM_PeriodElapsedCallback sampleConfig
        (processIncomingMidiMessage sampleConfig 0x90 64 90 phaseOneEngine)
        = some (updateVCAEnveloppeStateMachine sampleConfig
            (tickPrologue sampleConfig
              (processIncomingMidiMessage sampleConfig 0x90 64 90 phaseOneEngine)))
    ∧ (updateVCAEnveloppeStateMachine sampleConfig
          (tickPrologue sampleConfig
            (processIncomingMidiMessage sampleConfig 0x90 64 90 phaseOneEngine))).trace
        = (dacVcaWrite sampleConfig 0
            (tickPrologue sampleConfig
              (processIncomingMidiMessage sampleConfig 0x90 64 90 phaseOneEngine))).trace
    ∧ transmitCount (updateVCAEnveloppeStateMachine sampleConfig
          (tickPrologue sampleConfig
            (processIncomingMidiMessage sampleConfig 0x90 64 90 phaseOneEngine))).trace
        = transmitCount
            (processIncomingMidiMessage sampleConfig 0x90 64 90 phaseOneEngine).trace + 1 := by
  obtain ⟨_, hdm, _, _, hk, _⟩ := dispatch_note_frame sampleConfig phaseOneEngine 0x90 64 90
    (Or.inl (by decide))
  have hnote := dispatch_noteOn_note sampleConfig phaseOneEngine 0x90 64 90 (by decide)
    (by decide) (by decide)
  have hk1 : (processIncomingMidiMessage sampleConfig 0x90 64 90
      phaseOneEngine).adsrInterruptCounter = 1 := hk
  have hdemo : (processIncomingMidiMessage sampleConfig 0x90 64 90 phaseOneEngine).demoMode
      ≠ 1 := by
    rw [hdm]
    decide
  have hperf : ∀ j : Nat, performedAt sampleConfig
      (processIncomingMidiMessage sampleConfig 0x90 64 90 phaseOneEngine) j
      = selectSlowUpdate ((1 + (j : Int) + 1) % 20) := by
    intro j
    rw [performedAt_demo_off sampleConfig j _ (by rw [hk1]; decide) (by rw [hk1]; decide) hdemo
      (by rw [hnote]; decide), hk1]
    rfl
  obtain ⟨pvca, _, _⟩ := tickPrologue_frame sampleConfig
    (processIncomingMidiMessage sampleConfig 0x90 64 90 phaseOneEngine)
  obtain ⟨_, _, _, _, _, _, pk, ptr⟩ := tickPrologue_fields sampleConfig
    (processIncomingMidiMessage sampleConfig 0x90 64 90 phaseOneEngine)
  have hvca : (tickPrologue sampleConfig
      (processIncomingMidiMessage sampleConfig 0x90 64 90 phaseOneEngine)).stateMachineVca
      = (midiNoteOnHandler sampleConfig
          { phaseOneEngine with midiNote := { note := 64, velocity := 90 } }).stateMachineVca := by
    rw [pvca]
    rfl
  have hst : (tickPrologue sampleConfig
      (processIncomingMidiMessage sampleConfig 0x90 64 90
        phaseOneEngine)).stateMachineVca.machineState = MachineState.ATTACK := by
    rw [hvca, midiNoteOnHandler_vca]
  have hamp : (tickPrologue sampleConfig
      (processIncomingMidiMessage sampleConfig 0x90 64 90
        phaseOneEngine)).stateMachineVca.amplitude = 0 := by
    rw [hvca, midiNoteOnHandler_vca]
  have htrace := updateVCA_attack_trace sampleConfig _ hst
  rw [hamp] at htrace
  refine ⟨rfl, by decide, ?_, ?_, ?_, ?_, htrace, ?_⟩
  · rw [hperf 0]
    decide
  · rw [hperf 1]
    decide
  · rw [hperf 18]
    decide
  · rw [tick_demo_off_stages sampleConfig _ hdemo]
    unfold tickEpilogue
    rw [pk, hk1]
    rfl
  · rw [htrace]
    have := dacWrite_transmitCount sampleConfig
      (cTrunc (roundDouble
        (roundDouble (1 - (if (0 : ℚ) < 0 then 0 else if (0 : ℚ) > 1 then 1 else 0)) * 4095)))
      Dac.DAC_V2140D_VCA
      (tickPrologue sampleConfig
        (processIncomingMidiMessage sampleConfig 0x90 64 90 phaseOneEngine))
    rw [ptr] at this
    exact this

/-- C25, amended: with demo mode off, `K ≥ 4` and the phase counter `p` in 3..K-1 when a
non-drum NOTE_ON for a note `n` in 0..127 is dispatched, the `K - 1 - p` ticks that
follow issue no transmit and leave both machines as the note-on left them; the next
tick writes the table CV of `n` to oscillator 13700 and the one after it writes the
table CV of `n` to oscillator 3340; the VCA update and the VCF update of the new attack
come on the two ticks after those, and on no earlier tick. -/
theorem C25_pitch_before_envelope (c : Config) (s : Engine)
    (statusChannel data1 data2 j0 : Nat)
    (hK : 4 ≤ c.ADSR_TIMER_PERIOD_FACTOR)
    (hp3 : 3 ≤ s.adsrInterruptCounter)
    (hj0 : (j0 : Int) = c.ADSR_TIMER_PERIOD_FACTOR - 1 - s.adsrInterruptCounter)
    (hdemo : s.demoMode ≠ 1) (hd1 : data1 < 128)
    (hstatus : (statusChannel % 256) &&& 0xF0 = c.NOTE_ON)
    (hch : (statusChannel % 256) &&& 0x0F ≠ c.DRUM_CHANNEL) :
    (∀ j : Nat, j ≤ j0 →
        ∃ sj, runTicks c j (processIncomingMidiMessage c statusChannel data1 data2 s) = some sj
          ∧ transmitCount sj.trace
              = transmitCount (processIncomingMidiMessage c statusChannel data1 data2 s).trace
          ∧ sj.stateMachineVca
              = (processIncomingMidiMessage c statusChannel data1 data2 s).stateMachineVca
          ∧ sj.stateMachineVcf
              = (processIncomingMidiMessage c statusChannel data1 data2 s).stateMachineVcf)
    ∧ (∃ sj cv,
        runTicks c j0 (processIncomingMidiMessage c statusChannel data1 data2 s) = some sj
        ∧ midiToVCO13700CV[data1]? = some cv
        ∧ HAL_TIM_PeriodElapsedCallback c sj
            = some (dacWrite c cv Dac.DAC_VCO_13700 (tickPrologue c sj)))
    ∧ (∃ sj cv,
        runTicks c (j0 + 1) (processIncomingMidiMessage c statusChannel data1 data2 s)
          = some sj
        ∧ midiToVCO3340CV[data1]? = some cv
        ∧ HAL_TIM_PeriodElapsedCallback c sj
            = some (dacWrite c cv Dac.DAC_VCO_3340_FREQ (tickPrologue c sj)))
    ∧ performedAt c (processIncomingMidiMessage c statusChannel data1 data2 s) (j0 + 2)
        = some SlowUpdate.vcaEnvelope
    ∧ performedAt c (processIncomingMidiMessage c statusChannel data1 data2 s) (j0 + 3)
        = some SlowUpdate.vcfEnvelope
    ∧ (∀ j : Nat, j < j0 + 2 →
        performedAt c (processIncomingMidiMessage c statusChannel data1 data2 s) j
          ≠ some SlowUpdate.vcaEnvelope
        ∧ performedAt c (processIncomingMidiMessage c statusChannel data1 data2 s) j
          ≠ some SlowUpdate.vcfEnvelope) := by
  obtain ⟨_, hdm, _, _, hk, _⟩ := dispatch_note_frame c s statusChannel data1 data2
    (Or.inl hstatus)
  have hnote := dispatch_noteOn_note c s statusChannel data1 data2 (by omega) hstatus hch
  generalize processIncomingMidiMessage c statusChannel data1 data2 s = s0 at hdm hk hnote ⊢
  have hdemo0 : s0.demoMode ≠ 1 := by rw [hdm]; exact hdemo
  have hp0 : 0 ≤ s0.adsrInterruptCounter := by rw [hk]; omega
  have hpK : s0.adsrInterruptCounter < c.ADSR_TIMER_PERIOD_FACTOR := by rw [hk]; omega
  have hn128 : s0.midiNote.note < 128 := by rw [hnote]; exact hd1
  have hperf : ∀ j : Nat, performedAt c s0 j
      = selectSlowUpdate
          ((s.adsrInterruptCounter + (j : Int) + 1) % c.ADSR_TIMER_PERIOD_FACTOR) := by
    intro j
    rw [performedAt_demo_off c j s0 hp0 hpK hdemo0 hn128, hk]
  have hwrap : ∀ i : Int, 0 ≤ i → i < c.ADSR_TIMER_PERIOD_FACTOR →
      (s.adsrInterruptCounter + ((j0 : Int) + i) + 1) % c.ADSR_TIMER_PERIOD_FACTOR = i := by
    intro i hi0 hi
    have : s.adsrInterruptCounter + ((j0 : Int) + i) + 1 = i + c.ADSR_TIMER_PERIOD_FACTOR := by
      omega
    rw [this, Int.add_emod_self, emod_small _ _ hi0 hi]
  refine ⟨?_, ?_, ?_, ?_, ?_, ?_⟩
  · intro j hj
    obtain ⟨sj, h1, _, h3, h4, h5, _, _⟩ := runTicks_quiet c j s0 hdemo0 (by rw [hk]; exact hp3)
      (by rw [hk]; omega)
    exact ⟨sj, h1, h3, h4, h5⟩
  · obtain ⟨sj, h1, h2, h3, h4⟩ := runTicks_demo_off c j0 s0 hp0 hpK hdemo0 hn128
    have hkj : sj.adsrInterruptCounter = c.ADSR_TIMER_PERIOD_FACTOR - 1 := by
      rw [h2, hk]
      have : s.adsrInterruptCounter + (j0 : Int) = c.ADSR_TIMER_PERIOD_FACTOR - 1 := by omega
      rw [this, emod_small _ _ (by omega) (by omega)]
    have hpk : (tickPrologue c sj).adsrInterruptCounter = 0 := by
      rw [(tickPrologue_fields c sj).2.2.2.2.2.2.1, hkj, if_pos (by omega)]
    obtain ⟨cv, hcv, htick⟩ := (tick_pitch c sj (by rw [h3]; exact hdemo0)
      (by rw [h4]; exact hn128)).1 hpk
    rw [h4, hnote] at hcv
    exact ⟨sj, cv, h1, hcv, htick⟩
  · obtain ⟨sj, h1, h2, h3, h4⟩ := runTicks_demo_off c (j0 + 1) s0 hp0 hpK hdemo0 hn128
    have hkj : sj.adsrInterruptCounter = 0 := by
      rw [h2, hk]
      have : s.adsrInterruptCounter + ((j0 + 1 : Nat) : Int) = c.ADSR_TIMER_PERIOD_FACTOR := by
        push_cast
        omega
      rw [this, Int.emod_self]
    have hpk : (tickPrologue c sj).adsrInterruptCounter = 1 := by
      rw [(tickPrologue_fields c sj).2.2.2.2.2.2.1, hkj, if_neg (by omega)]
      rfl
    obtain ⟨cv, hcv, htick⟩ := (tick_pitch c sj (by rw [h3]; exact hdemo0)
      (by rw [h4]; exact hn128)).2 hpk
    rw [h4, hnote] at hcv
    exact ⟨sj, cv, h1, hcv, htick⟩
  · rw [hperf]
    push_cast
    rw [hwrap 2 (by omega) (by omega)]
    rfl
  · rw [hperf]
    push_cast
    rw [hwrap 3 (by omega) (by omega)]
    rfl
  · intro j hj
    rw [hperf]
    by_cases hlt : j < j0
    · have hsmall : (s.adsrInterruptCounter + (j : Int) + 1) % c.ADSR_TIMER_PERIOD_FACTOR
          = s.adsrInterruptCounter + (j : Int) + 1 := emod_small _ _ (by omega) (by omega)
      rw [hsmall]
      constructor
      · intro h
        have := (selectSlowUpdate_iff _ _).mp h
        simp only [SlowUpdate.phase] at this
        omega
      · intro h
        have := (selectSlowUpdate_iff _ _).mp h
        simp only [SlowUpdate.phase] at this
        omega
    · have hcase : j = j0 ∨ j = j0 + 1 := by omega
      rcases hcase with rfl | rfl
      · have := hwrap 0 (by omega) (by omega)
        rw [add_zero] at this
        rw [this]
        exact ⟨by decide, by decide⟩
      · push_cast
        rw [hwrap 1 (by omega) (by omega)]
        exact ⟨by decide, by decide⟩

/-- Instance of C25: in the sample configuration (K = 20) with the phase counter at 17,
the NOTE_ON `0x90 64 90` is followed by two silent ticks, then the two pitch writes. -/
theorem C25_pitch_before_envelope_witness :
    (4 : Int) ≤ sampleConfig.ADSR_TIMER_PERIOD_FACTOR
    ∧ ((2 : Nat) : Int) = sampleConfig.ADSR_TIMER_PERIOD_FACTOR - 1
        - ({ sampleEngine with adsrInterruptCounter := 17 } : Engine).adsrInterruptCounter
    ∧ performedAt sampleConfig
        (processIncomingMidiMessage sampleConfig 0x90 64 90
          { sampleEngine with adsrInterruptCounter := 17 }) (2 + 2)
        = some SlowUpdate.vcaEnvelope
    ∧ ∃ sj cv,
        runTicks sampleConfig 2
          (processIncomingMidiMessage sampleConfig 0x90 64 90
            { sampleEngine with adsrInterruptCounter := 17 }) = some sj
        ∧ midiToVCO13700CV[64]? = some cv
        ∧ HAL_TIM_PeriodElapsedCallback sampleConfig sj
            = some (dacWrite sampleConfig cv Dac.DAC_VCO_13700 (tickPrologue sampleConfig sj)) :=
  have h := C25_pitch_before_envelope sampleConfig
    { sampleEngine with adsrInterruptCounter := 17 } 0x90 64 90 2
    (by decide) (by decide) (by decide) (by decide) (by decide) (by decide) (by decide)
  ⟨by decide, by decide, h.2.2.2.1, h.2.1⟩

/-! ## What the ticks of the schedule perform (C6) -/

/-- The state after `j + 1` ticks is the tick of the state after `j` ticks. -/
theorem runTicks_succ_last (c : Config) (j : Nat) (s sj : Engine)
    (hj : runTicks c j s = some sj) :
    runTicks c (j + 1) s = HAL_TIM_PeriodElapsedCallback c sj := by
  induction j generalizing s with
  | zero =>
    obtain rfl : s = sj := Option.some.inj hj
    show (HAL_TIM_PeriodElapsedCallback c s).bind (runTicks c 0) = _
    cases HAL_TIM_PeriodElapsedCallback c s <;> rfl
  | succ j ih =>
    have hj' : (HAL_TIM_PeriodElapsedCallback c s).bind (runTicks c j) = some sj := hj
    obtain ⟨s1, h1, h2⟩ := Option.bind_eq_some.mp hj'
    show (HAL_TIM_PeriodElapsedCallback c s).bind (runTicks c (j + 1)) = _
    rw [h1, Option.some_bind]
    exact ih s1 h2

/-- What the tick after `j` ticks does, with demo mode off: the slow update selected for
it is the one the switch selects for the counter left by the first stages of the tick,
and the tick is those first stages followed by that update. -/
theorem tick_performs (c : Config) (s : Engine)
    (hK : 4 ≤ c.ADSR_TIMER_PERIOD_FACTOR)
    (hp0 : 0 ≤ s.adsrInterruptCounter)
    (hp : s.adsrInterruptCounter < c.ADSR_TIMER_PERIOD_FACTOR)
    (hdemo : s.demoMode ≠ 1) (hnote : s.midiNote.note < 128)
    (j : Nat) (sj : Engine) (hj : runTicks c j s = some sj) :
    sj.demoMode ≠ 1 ∧ sj.midiNote = s.midiNote
    ∧ performedAt c s j = selectSlowUpdate (tickPrologue c sj).adsrInterruptCounter
    ∧ HAL_TIM_PeriodElapsedCallback c sj = tickEpilogue c (tickPrologue c sj) := by
  obtain ⟨sj', hj', hcj, hdj, hnj⟩ := runTicks_demo_off c j s hp0 hp hdemo hnote
  obtain rfl : sj' = sj := Option.some.inj (hj'.symm.trans hj)
  have hKpos : 0 < c.ADSR_TIMER_PERIOD_FACTOR := by omega
  have hsj0 : 0 ≤ sj'.adsrInterruptCounter := by
    rw [hcj]
    exact Int.emod_nonneg _ (by omega)
  have hsj1 : sj'.adsrInterruptCounter < c.ADSR_TIMER_PERIOD_FACTOR := by
    rw [hcj]
    exact Int.emod_lt_of_pos _ hKpos
  have hdemo' : sj'.demoMode ≠ 1 := by
    rw [hdj]
    exact hdemo
  refine ⟨hdemo', hnj, ?_, tick_demo_off_stages c sj' hdemo'⟩
  rw [performedAt_demo_off c j s hp0 hp hdemo hnote, (tickPrologue_fields c sj').2.2.2.2.2.2.1,
    phase_step _ _ hsj0 hsj1, hcj, Int.emod_add_emod]

/-- C6: for every subdivision factor `K ≥ 4` and every phase counter `p` with
`0 ≤ p < K`, in a run of the tick handler with demo mode off, from a state whose held
note indexes the calibration tables: every tick returns with the phase counter in
`[0, K)`; after `K` ticks the counter is `p` again; within the `K` ticks each of the
four slow updates (13700 pitch, 3340 pitch, VCA envelope, VCF envelope, of phases
0, 1, 2, 3) is performed by exactly one tick, namely tick `(phase - 1 - p) mod K`, so
the four occur on cyclically consecutive ticks in that order. What a tick performs is
what the handler does at that tick: the tick that performs a pitch update is the first
stages of the handler followed by one `dacWrite` of the table CV of the held note to
that oscillator (one transmit), the tick that performs an envelope update is the first
stages followed by `updateVCAEnveloppeStateMachine`, respectively
`updateVCFEnveloppeStateMachine`, and a tick that performs no update is the first
stages alone; the first stages issue no transmit and leave both machines and the held
note as they are. -/
theorem C6_tick_schedule (c : Config) (s : Engine)
    (hK : 4 ≤ c.ADSR_TIMER_PERIOD_FACTOR)
    (hp0 : 0 ≤ s.adsrInterruptCounter)
    (hp : s.adsrInterruptCounter < c.ADSR_TIMER_PERIOD_FACTOR)
    (hdemo : s.demoMode ≠ 1) (hnote : s.midiNote.note < 128) :
    (∀ j : Nat, ∃ sj, runTicks c j s = some sj
        ∧ 0 ≤ sj.adsrInterruptCounter
        ∧ sj.adsrInterruptCounter < c.ADSR_TIMER_PERIOD_FACTOR)
    ∧ (∃ sK, runTicks c c.ADSR_TIMER_PERIOD_FACTOR.toNat s = some sK
        ∧ sK.adsrInterruptCounter = s.adsrInterruptCounter)
    ∧ (∀ (u : SlowUpdate) (j : Nat), (j : Int) < c.ADSR_TIMER_PERIOD_FACTOR →
        (performedAt c s j = some u
          ↔ (j : Int) = (u.phase - 1 - s.adsrInterruptCounter) % c.ADSR_TIMER_PERIOD_FACTOR))
    ∧ (∀ u : SlowUpdate, ∃! j : Nat,
        (j : Int) < c.ADSR_TIMER_PERIOD_FACTOR ∧ performedAt c s j = some u)
    ∧ (∀ (j : Nat) (sj : Engine), runTicks c j s = some sj →
        runTicks c (j + 1) s = HAL_TIM_PeriodElapsedCallback c sj
        ∧ (tickPrologue c sj).stateMachineVca = sj.stateMachineVca
        ∧ (tickPrologue c sj).stateMachineVcf = sj.stateMachineVcf
        ∧ (tickPrologue c sj).midiNote = s.midiNote
        ∧ transmitCount (tickPrologue c sj).trace = transmitCount sj.trace
        ∧ (performedAt c s j = some SlowUpdate.pitch13700 →
            ∃ cv, midiToVCO13700CV[s.midiNote.note]? = some cv
              ∧ HAL_TIM_PeriodElapsedCallback c sj
                  = some (dacWrite c cv Dac.DAC_VCO_13700 (tickPrologue c sj))
              ∧ transmitCount (dacWrite c cv Dac.DAC_VCO_13700 (tickPrologue c sj)).trace
                  = transmitCount sj.trace + 1)
        ∧ (performedAt c s j = some SlowUpdate.pitch3340 →
            ∃ cv, midiToVCO3340CV[s.midiNote.note]? = some cv
              ∧ HAL_TIM_PeriodElapsedCallback c sj
                  = some (dacWrite c cv Dac.DAC_VCO_3340_FREQ (tickPrologue c sj))
              ∧ transmitCount (dacWrite c cv Dac.DAC_VCO_3340_FREQ (tickPrologue c sj)).trace
                  = transmitCount sj.trace + 1)
        ∧ (performedAt c s j = some SlowUpdate.vcaEnvelope →
            HAL_TIM_PeriodElapsedCallback c sj
              = some (updateVCAEnveloppeStateMachine c (tickPrologue c sj)))
        ∧ (performedAt c s j = some SlowUpdate.vcfEnvelope →
            HAL_TIM_PeriodElapsedCallback c sj
              = some (updateVCFEnveloppeStateMachine c (tickPrologue c sj)))
        ∧ (performedAt c s j = none →
            HAL_TIM_PeriodElapsedCallback c sj = some (tickPrologue c sj))) := by
  have hKpos : 0 < c.ADSR_TIMER_PERIOD_FACTOR := by omega
  have hiff : ∀ (u : SlowUpdate) (j : Nat), (j : Int) < c.ADSR_TIMER_PERIOD_FACTOR →
      (performedAt c s j = some u
        ↔ (j : Int)
            = (u.phase - 1 - s.adsrInterruptCounter) % c.ADSR_TIMER_PERIOD_FACTOR) := by
    intro u j hj
    rw [performedAt_demo_off c j s hp0 hp hdemo hnote, selectSlowUpdate_iff]
    have hb := phase_bounds u
    exact phase_tick_iff _ _ _ _ hp0 hp (Int.ofNat_nonneg j) hj hb.1 (by omega)
  refine ⟨?_, ?_, hiff, ?_, ?_⟩
  · intro j
    obtain ⟨sj, hj, hcj, _, _⟩ := runTicks_demo_off c j s hp0 hp hdemo hnote
    refine ⟨sj, hj, ?_, ?_⟩
    · rw [hcj]
      exact Int.emod_nonneg _ (by omega)
    · rw [hcj]
      exact Int.emod_lt_of_pos _ hKpos
  · obtain ⟨sK, hrun, hcK, _, _⟩ :=
      runTicks_demo_off c c.ADSR_TIMER_PERIOD_FACTOR.toNat s hp0 hp hdemo hnote
    refine ⟨sK, hrun, ?_⟩
    rw [hcK, Int.toNat_of_nonneg (le_of_lt hKpos), Int.add_emod_self,
      emod_small _ _ hp0 hp]
  · intro u
    have hlt : (u.phase - 1 - s.adsrInterruptCounter) % c.ADSR_TIMER_PERIOD_FACTOR
        < c.ADSR_TIMER_PERIOD_FACTOR := Int.emod_lt_of_pos _ hKpos
    have hnn : 0 ≤ (u.phase - 1 - s.adsrInterruptCounter) % c.ADSR_TIMER_PERIOD_FACTOR :=
      Int.emod_nonneg _ (by omega)
    have hcast :
        (((u.phase - 1 - s.adsrInterruptCounter) % c.ADSR_TIMER_PERIOD_FACTOR).toNat : Int)
          = (u.phase - 1 - s.adsrInterruptCounter) % c.ADSR_TIMER_PERIOD_FACTOR :=
      Int.toNat_of_nonneg hnn
    refine ⟨((u.phase - 1 - s.adsrInterruptCounter) % c.ADSR_TIMER_PERIOD_FACTOR).toNat,
      ⟨by rw [hcast]; exact hlt, (hiff u _ (by rw [hcast]; exact hlt)).mpr hcast⟩, ?_⟩
    rintro j ⟨hj, hperf⟩
    have := (hiff u j hj).mp hperf
    omega
  · intro j sj hj
    obtain ⟨hdj, hnj, hsel, hstages⟩ := tick_performs c s hK hp0 hp hdemo hnote j sj hj
    have hnote' : sj.midiNote.note < 128 := by
      rw [hnj]
      exact hnote
    obtain ⟨pvca, pvcf, _⟩ := tickPrologue_frame c sj
    obtain ⟨pnote, _, _, _, _, _, _, ptr⟩ := tickPrologue_fields c sj
    obtain ⟨h13700, h3340⟩ := tick_pitch c sj hdj hnote'
    rw [hnj] at h13700 h3340
    refine ⟨runTicks_succ_last c j s sj hj, pvca, pvcf, pnote.trans hnj, ptr, ?_, ?_, ?_, ?_, ?_⟩
    · intro h
      rw [hsel, selectSlowUpdate_iff] at h
      obtain ⟨cv, hcv, htick⟩ := h13700 h
      exact ⟨cv, hcv, htick, by rw [dacWrite_transmitCount, ptr]⟩
    · intro h
      rw [hsel, selectSlowUpdate_iff] at h
      obtain ⟨cv, hcv, htick⟩ := h3340 h
      exact ⟨cv, hcv, htick, by rw [dacWrite_transmitCount, ptr]⟩
    · intro h
      rw [hstages]
      unfold tickEpilogue
      rw [← hsel, h]
      rfl
    · intro h
      rw [hstages]
      unfold tickEpilogue
      rw [← hsel, h]
      rfl
    · intro h
      rw [hstages]
      unfold tickEpilogue
      rw [← hsel, h]

/-- Instance of C6 with `K = 20` from phase 7 of the sample state: the run of 20 ticks
returns to phase 7, the VCA envelope update is performed by tick 14 (counted from 0),
since `(2 - 1 - 7) mod 20 = 14`, and the tick of the initial state performs no update:
it is the first stages of the handler alone. -/
theorem C6_tick_schedule_witness :
    (4 : Int) ≤ sampleConfig.ADSR_TIMER_PERIOD_FACTOR
    ∧ (∃ sK, runTicks sampleConfig 20 { sampleEngine with adsrInterruptCounter := 7 } = some sK
        ∧ sK.adsrInterruptCounter = 7)
    ∧ (performedAt sampleConfig { sampleEngine with adsrInterruptCounter := 7 } 14
          = some SlowUpdate.vcaEnvelope ↔ ((14 : Nat) : Int) = (2 - 1 - 7) % 20)
    ∧ (performedAt sampleConfig { sampleEngine with adsrInterruptCounter := 7 } 0 = none →
        HAL_TIM_PeriodElapsedCallback sampleConfig
            { sampleEngine with adsrInterruptCounter := 7 }
          = some (tickPrologue sampleConfig { sampleEngine with adsrInterruptCounter := 7 })) :=
  have h := C6_tick_schedule sampleConfig { sampleEngine with adsrInterruptCounter := 7 }
    (by decide) (by decide) (by decide) (by decide) (by decide)
  ⟨by decide, h.2.1, h.2.2.1 SlowUpdate.vcaEnvelope 14 (by decide),
    (h.2.2.2.2 0 { sampleEngine with adsrInterruptCounter := 7 } rfl).2.2.2.2.2.2.2.2.2⟩

end Themis
